import Mathlib

/-!
# HUD input dispatch of `d2game/d2player/game_controls.go`

A shallow embedding of the `GameControls` event handlers.

* A `float64` value (timestamps, world coordinates) is the rational it denotes;
  infinities and NaN are outside the model. The product that `truncateFloat64`
  truncates is rounded to 53 bits by `roundFloat64`.
* A Go string is a text; `len` and the slice expression work on its UTF-8 bytes
  (`goBytes`).
* The controller is a record of the fields the handlers read and write; the
  panels it holds references to are represented by what `IsOpen()` reports.
* Calls made to collaborators (input listener, map renderer, HUD, escape
  menu, logger) are appended to the `calls` field, oldest first.
* Functions of collaborators that only answer a question
  (`Rectangle.IsInRect`, `ScreenToWorld`, the key map, ...) are fields of `Env`.
* The value read from `d2util.Now()` is an argument of the handler.
* The constructor's class check and the debug commands are functions that
  return an error, or an outcome that is a return or a Go runtime panic.
-/

namespace d2enum

/-- Mouse buttons of `d2enum.MouseButton`. -/
inductive MouseButton where
  | MouseButtonLeft
  | MouseButtonMiddle
  | MouseButtonRight
  deriving DecidableEq, Repr

/-- Key modifier bit mask of `d2enum.KeyMod`. -/
abbrev KeyMod := Nat

/-- Modelled from the spec: the Shift modifier constant of package `d2enum`
(not part of the source file); modifiers are a bit mask Alt, Control, Shift. -/
def KeyModShift : KeyMod := 4

/-- Keys of `d2enum.Key` that the handlers name, and all the others. -/
inductive Key where
  | KeyEscape
  | KeyUp
  | KeyDown
  | KeyLeft
  | KeyRight
  | KeyOther (code : Nat)
  deriving DecidableEq, Repr

/-- Logical game events of `d2enum.GameEvent` that `OnKeyDown` and `OnKeyUp`
name, and all the others. -/
inductive GameEvent where
  | ClearScreen
  | ToggleInventoryPanel
  | ToggleSkillTreePanel
  | ToggleCharacterPanel
  | ToggleRunWalk
  | HoldRun
  | ToggleHelpScreen
  | OtherEvent (code : Nat)
  deriving DecidableEq, Repr

/-- Hero classes of `d2enum.Hero` that `NewGameControls` names, and all the
other values of the type. -/
inductive Hero where
  | HeroAssassin
  | HeroAmazon
  | HeroBarbarian
  | HeroDruid
  | HeroNecromancer
  | HeroPaladin
  | HeroSorceress
  | HeroOther (code : Nat)
  deriving DecidableEq, Repr

end d2enum

namespace d2player

open d2enum

/-- Source: `const mouseBtnActionsThreshold = 0.25`. -/
def mouseBtnActionsThreshold : ℚ := 1 / 4

/-- Source: the `actionableType` enumeration (`iota` order). -/
inductive actionableType where
  | leftSkill
  | newStats
  | xp
  | walkRun
  | stamina
  | miniPnl
  | newSkills
  | rightSkill
  | hpGlobe
  | manaGlobe
  | miniPanelCharacter
  | miniPanelInventory
  | miniPanelSkillTree
  | miniPanelAutomap
  | miniPanelMessageLog
  | miniPanelQuestLog
  | miniPanelGameMenu
  deriving DecidableEq, Repr

/-- The record `d2geom.Rectangle`. -/
structure Rectangle where
  Left : Int
  Top : Int
  Width : Int
  Height : Int
  deriving DecidableEq, Repr

/-- Source: `type actionableRegion struct`. -/
structure actionableRegion where
  actionableTypeID : actionableType
  rect : Rectangle
  deriving DecidableEq, Repr

/-- Source: the registry built in `NewGameControls`, in registration order. -/
def actionableRegions : List actionableRegion :=
  [ ⟨actionableType.leftSkill, ⟨115, 550, 50, 50⟩⟩,
    ⟨actionableType.newStats, ⟨206, 563, 30, 30⟩⟩,
    ⟨actionableType.xp, ⟨253, 560, 125, 5⟩⟩,
    ⟨actionableType.walkRun, ⟨255, 573, 17, 20⟩⟩,
    ⟨actionableType.stamina, ⟨273, 573, 105, 20⟩⟩,
    ⟨actionableType.miniPnl, ⟨393, 563, 12, 23⟩⟩,
    ⟨actionableType.newSkills, ⟨562, 563, 30, 30⟩⟩,
    ⟨actionableType.rightSkill, ⟨634, 550, 50, 50⟩⟩,
    ⟨actionableType.hpGlobe, ⟨30, 525, 80, 60⟩⟩,
    ⟨actionableType.manaGlobe, ⟨695, 525, 80, 60⟩⟩,
    ⟨actionableType.miniPanelCharacter, ⟨324, 528, 22, 26⟩⟩,
    ⟨actionableType.miniPanelInventory, ⟨346, 528, 22, 26⟩⟩,
    ⟨actionableType.miniPanelSkillTree, ⟨368, 528, 22, 26⟩⟩,
    ⟨actionableType.miniPanelAutomap, ⟨390, 528, 22, 26⟩⟩,
    ⟨actionableType.miniPanelMessageLog, ⟨412, 528, 22, 26⟩⟩,
    ⟨actionableType.miniPanelQuestLog, ⟨434, 528, 22, 26⟩⟩,
    ⟨actionableType.miniPanelGameMenu, ⟨456, 528, 22, 26⟩⟩ ]

/-- Source: `menuBottomRectX, menuBottomRectY, menuBottomRectW, menuBottomRectH`. -/
def bottomMenuRect : Rectangle := ⟨0, 550, 800, 50⟩

/-- Source: `menuLeftRectX, menuLeftRectY, menuLeftRectW, menuLeftRectH`. -/
def leftMenuRect : Rectangle := ⟨0, 0, 400, 600⟩

/-- Source: `menuRightRectX, menuRightRectY, menuRightRectW, menuRightRectH`. -/
def rightMenuRect : Rectangle := ⟨400, 0, 400, 600⟩

/-- The three framings the map renderer can be put in. -/
inductive Viewport where
  | Default
  | ToLeft
  | ToRight
  deriving DecidableEq, Repr

/-- A call made by a handler to a collaborator, with its arguments. -/
inductive Call where
  | OnPlayerMove (x y : ℚ)
  | OnPlayerCast (skillID : Nat) (x y : ℚ)
  | onClickActionable (item : actionableType)
  | onHoverActionable (item : actionableType)
  | skillSelectMenuHandleClick (x y : Int)
  | ViewportDefault
  | ViewportToLeft
  | ViewportToRight
  | MoveCameraTargetBy (x y : ℚ)
  | SetCameraTarget (tileX tileY camX camY : ℚ)
  | escapeMenuOnEscKey
  | escapeMenuOpen
  | hudOnToggleRunButton (noButton : Bool)
  | hudOnMouseMove (x y : Int)
  | log (msg : String)
  deriving DecidableEq, Repr

/-- A move or cast command sent to the input listener. -/
def Call.isCommand : Call → Bool
  | Call.OnPlayerMove _ _ => true
  | Call.OnPlayerCast _ _ _ => true
  | _ => false

/-- The action id of a recorded click-handler invocation. -/
def Call.clickedId : Call → Option actionableType
  | Call.onClickActionable item => some item
  | _ => none

/-- The action ids whose click handler was invoked, in order of invocation. -/
def clickedIds (cs : List Call) : List actionableType := cs.filterMap Call.clickedId

/-- A click forwarded to the skill-select menu. -/
def Call.isSkillSelectClick : Call → Bool
  | Call.skillSelectMenuHandleClick _ _ => true
  | _ => false

/-- Source: `d2interface.MouseEvent` (`X()`, `Y()`, `Button()`, `KeyMod()`). -/
structure MouseEvent where
  X : Int
  Y : Int
  Button : MouseButton
  Mod : KeyMod
  deriving DecidableEq, Repr

/-- Source: `d2interface.KeyEvent` (`Key()`, `KeyMod()`). -/
structure KeyEvent where
  Key : Key
  Mod : KeyMod
  deriving DecidableEq, Repr

/-- What the handlers ask of collaborators whose code is outside the file:
geometry tests, the screen-to-world transform, the camera position, the key
map, the left and right skill ids a click in the skill-select menu leaves
equipped, and how the skill-select menu and the escape menu answer `IsOpen()`
after one of their own operations. -/
structure Env where
  IsInRect : Rectangle → Int → Int → Bool
  miniPanelIsInRect : Int → Int → Bool
  helpOverlayIsInRect : Int → Int → Bool
  ScreenToWorld : Int → Int → ℚ × ℚ
  cameraPosition : ℚ × ℚ
  getGameEvent : Key → GameEvent
  skillSelectHandleClick : Int → Int → Nat × Nat → Nat × Nat
  skillSelectToggleLeftPanel : Bool → Bool
  skillSelectToggleRightPanel : Bool → Bool
  escapeMenuAfterEscKey : Bool → Bool

/-- Source: `type GameControls struct`, reduced to the fields the handlers
read or write. A panel is what its `IsOpen()` reports: `Close()` makes it
`false`, `Open()` makes it `true`, `Toggle()` negates it. -/
structure GameControls where
  actionableRegions : List actionableRegion
  skillSelectMenuIsOpen : Bool
  inventoryIsOpen : Bool
  skilltreeIsOpen : Bool
  heroStatsPanelIsOpen : Bool
  helpOverlayIsOpen : Bool
  miniPanelIsOpen : Bool
  escapeMenuIsOpen : Bool
  hpStatsIsVisible : Bool
  manaStatsIsVisible : Bool
  heroIsCasting : Bool
  leftSkillID : Nat
  rightSkillID : Nat
  lastMouseX : Int
  lastMouseY : Int
  inventoryLastMouseX : Int
  inventoryLastMouseY : Int
  lastLeftBtnActionTime : ℚ
  lastRightBtnActionTime : ℚ
  FreeCam : Bool
  viewport : Viewport
  calls : List Call
  deriving DecidableEq, Repr

/-- Source: the `&GameControls{...}` literal of `NewGameControls`: both
last-action times are `0`; panels start closed and nothing has been called. -/
def NewGameControls (leftSkillID rightSkillID : Nat) : GameControls :=
  { actionableRegions := actionableRegions
    skillSelectMenuIsOpen := false
    inventoryIsOpen := false
    skilltreeIsOpen := false
    heroStatsPanelIsOpen := false
    helpOverlayIsOpen := false
    miniPanelIsOpen := false
    escapeMenuIsOpen := false
    hpStatsIsVisible := false
    manaStatsIsVisible := false
    heroIsCasting := false
    leftSkillID := leftSkillID
    rightSkillID := rightSkillID
    lastMouseX := 0
    lastMouseY := 0
    inventoryLastMouseX := 0
    inventoryLastMouseY := 0
    lastLeftBtnActionTime := 0
    lastRightBtnActionTime := 0
    FreeCam := false
    viewport := Viewport.Default
    calls := [] }

/-- Record a call to a collaborator. -/
def GameControls.call (g : GameControls) (c : Call) : GameControls :=
  { g with calls := g.calls ++ [c] }

/-- Rounding of a rational to the nearest integer, a tie going to the even
neighbour: the rounding rule of the IEEE 754 arithmetic that Go's `float64`
operations follow. -/
def roundTiesEven (y : ℚ) : Int :=
  if y - ⌊y⌋ < 1 / 2 then ⌊y⌋
  else if 1 / 2 < y - ⌊y⌋ then ⌊y⌋ + 1
  else if ⌊y⌋ % 2 = 0 then ⌊y⌋ else ⌊y⌋ + 1

/-- The `float64` nearest to an exact value: a significand of 53 bits, rounded
to nearest, ties to even. The exponent range is not bounded: an overflowing
product lies beyond the 64-bit integers and a subnormal one below one, where
`truncateFloat64` yields the minimum integer or zero with or without the bound. -/
def roundFloat64 (x : ℚ) : ℚ :=
  if x = 0 then 0
  else (roundTiesEven (x / 2 ^ (Int.log 2 |x| - 52)) : ℚ) * 2 ^ (Int.log 2 |x| - 52)

/-- Go conversion `int(x)` of a float to the 64-bit `int`: the integer part,
toward zero. For a value outside the 64-bit range Go leaves the result to the
implementation; on amd64 it is the minimum integer. -/
def goInt (x : ℚ) : Int :=
  if -2 ^ 63 ≤ x.num.tdiv x.den ∧ x.num.tdiv x.den < 2 ^ 63 then x.num.tdiv x.den
  else -2 ^ 63

/-- Source: `func truncateFloat64(n float64) float64`. The product `n * ten` is
rounded to a `float64` and converted to the 64-bit `int`; the final quotient by
ten is taken exactly. -/
def truncateFloat64 (n : ℚ) : ℚ := (goInt (roundFloat64 (n * 10)) : ℚ) / 10

/-- Source: `func (g *GameControls) isLeftPanelOpen() bool`. -/
def GameControls.isLeftPanelOpen (g : GameControls) : Bool :=
  g.heroStatsPanelIsOpen

/-- Source: `func (g *GameControls) isRightPanelOpen() bool`. -/
def GameControls.isRightPanelOpen (g : GameControls) : Bool :=
  g.inventoryIsOpen || g.skilltreeIsOpen

/-- Source: `mapRenderer.ViewportDefault()`. -/
def GameControls.ViewportDefault (g : GameControls) : GameControls :=
  { g with viewport := Viewport.Default, calls := g.calls ++ [Call.ViewportDefault] }

/-- Source: `mapRenderer.ViewportToLeft()`. -/
def GameControls.ViewportToLeft (g : GameControls) : GameControls :=
  { g with viewport := Viewport.ToLeft, calls := g.calls ++ [Call.ViewportToLeft] }

/-- Source: `mapRenderer.ViewportToRight()`. -/
def GameControls.ViewportToRight (g : GameControls) : GameControls :=
  { g with viewport := Viewport.ToRight, calls := g.calls ++ [Call.ViewportToRight] }

/-- Source: `func (g *GameControls) updateLayout()`; the two locals keep the
names and the initialisers they have in the source. -/
def GameControls.updateLayout (g : GameControls) : GameControls :=
  let isRightPanelOpen := g.isLeftPanelOpen
  let isLeftPanelOpen := g.isRightPanelOpen
  if isRightPanelOpen = isLeftPanelOpen then g.ViewportDefault
  else if isRightPanelOpen then g.ViewportToLeft
  else g.ViewportToRight

/-- Source: `func (g *GameControls) isInActiveMenusRect(px, py int) bool`. -/
def GameControls.isInActiveMenusRect (env : Env) (g : GameControls) (px py : Int) : Bool :=
  if env.IsInRect bottomMenuRect px py then true
  else if g.isLeftPanelOpen && env.IsInRect leftMenuRect px py then true
  else if g.isRightPanelOpen && env.IsInRect rightMenuRect px py then true
  else if g.miniPanelIsOpen && env.miniPanelIsInRect px py then true
  else if g.escapeMenuIsOpen then true
  else if g.helpOverlayIsOpen && env.helpOverlayIsInRect px py then true
  else if g.skillSelectMenuIsOpen then true
  else false

/-- Source: `func (g *GameControls) ToggleHpStats()`. -/
def GameControls.ToggleHpStats (g : GameControls) : GameControls :=
  { g with hpStatsIsVisible := !g.hpStatsIsVisible }

/-- Source: `func (g *GameControls) ToggleManaStats()`. -/
def GameControls.ToggleManaStats (g : GameControls) : GameControls :=
  { g with manaStatsIsVisible := !g.manaStatsIsVisible }

/-- Source: `escapeMenu.open()`. -/
def GameControls.escapeMenuOpen (g : GameControls) : GameControls :=
  { g with escapeMenuIsOpen := true, calls := g.calls ++ [Call.escapeMenuOpen] }

/-- Source: `escapeMenu.OnEscKey()`. -/
def GameControls.escapeMenuOnEscKey (env : Env) (g : GameControls) : GameControls :=
  { g with escapeMenuIsOpen := env.escapeMenuAfterEscKey g.escapeMenuIsOpen,
           calls := g.calls ++ [Call.escapeMenuOnEscKey] }

/-- Source: the `actionMap` of `onClickActionable`: the closure stored for an
action id, `none` for an id that has no entry. -/
def actionMap (env : Env) : actionableType → Option (GameControls → GameControls)
  | actionableType.leftSkill => some fun g =>
      { g with skillSelectMenuIsOpen := env.skillSelectToggleLeftPanel g.skillSelectMenuIsOpen }
  | actionableType.newStats => some fun g =>
      g.call (Call.log "New Stats Selector Action Pressed")
  | actionableType.xp => some fun g => g.call (Call.log "XP Action Pressed")
  | actionableType.walkRun => some fun g => g.call (Call.log "Walk/Run Action Pressed")
  | actionableType.stamina => some fun g => g.call (Call.log "Stamina Action Pressed")
  | actionableType.miniPnl => some fun g =>
      let g1 := g.call (Call.log "Mini Panel Action Pressed")
      { g1 with miniPanelIsOpen := !g1.miniPanelIsOpen }
  | actionableType.newSkills => some fun g =>
      g.call (Call.log "New Skills Selector Action Pressed")
  | actionableType.rightSkill => some fun g =>
      { g with skillSelectMenuIsOpen := env.skillSelectToggleRightPanel g.skillSelectMenuIsOpen }
  | actionableType.hpGlobe => some fun g =>
      (g.ToggleHpStats).call (Call.log "HP Globe Pressed")
  | actionableType.manaGlobe => some fun g =>
      (g.ToggleManaStats).call (Call.log "Mana Globe Pressed")
  | actionableType.miniPanelCharacter => some fun g =>
      let g1 := g.call (Call.log "Character button on mini panel is pressed")
      GameControls.updateLayout { g1 with heroStatsPanelIsOpen := !g1.heroStatsPanelIsOpen }
  | actionableType.miniPanelInventory => some fun g =>
      let g1 := g.call (Call.log "Inventory button on mini panel is pressed")
      GameControls.updateLayout { g1 with inventoryIsOpen := !g1.inventoryIsOpen }
  | actionableType.miniPanelSkillTree => some fun g =>
      let g1 := g.call (Call.log "Skilltree button on mini panel is pressed")
      GameControls.updateLayout { g1 with skilltreeIsOpen := !g1.skilltreeIsOpen }
  | actionableType.miniPanelGameMenu => some fun g =>
      GameControls.escapeMenuOpen { g with miniPanelIsOpen := false }
  | actionableType.miniPanelAutomap => none
  | actionableType.miniPanelMessageLog => none
  | actionableType.miniPanelQuestLog => none

/-- Source: `func (g *GameControls) onClickActionable(item actionableType)`.
The invocation itself is recorded first. -/
def GameControls.onClickActionable (env : Env) (g : GameControls) (item : actionableType) :
    GameControls :=
  let g1 := g.call (Call.onClickActionable item)
  match actionMap env item with
  | none => g1.call (Call.log "Unrecognized actionableType being clicked")
  | some action => action g1

/-- Source: `func (g *GameControls) onHoverActionable(item actionableType)`;
every entry of its `hoverMap` is the empty closure and every id has one. The
invocation itself is recorded. -/
def GameControls.onHoverActionable (g : GameControls) (item : actionableType) : GameControls :=
  g.call (Call.onHoverActionable item)

/-- Source: the `for i := range g.actionableRegions` loop of
`OnMouseButtonDown` over the regions still to visit: at the first region
whose rectangle contains the point the click handler runs and the loop (and
the function) returns; `none` when the loop runs to its end. -/
def clickLoop (env : Env) (g : GameControls) (mx my : Int) :
    List actionableRegion → Option GameControls
  | [] => none
  | r :: rest =>
    if env.IsInRect r.rect mx my then some (g.onClickActionable env r.actionableTypeID)
    else clickLoop env g mx my rest

/-- Source: `func (g *GameControls) OnMouseButtonDown(event d2interface.MouseEvent) bool`;
`now` is what `d2util.Now()` returns. -/
def GameControls.OnMouseButtonDown (env : Env) (now : ℚ) (g : GameControls)
    (event : MouseEvent) : Bool × GameControls :=
  let mx := event.X
  let my := event.Y
  match clickLoop env g mx my g.actionableRegions with
  | some g1 => (false, g1)
  | none =>
    if g.skillSelectMenuIsOpen && event.Button == MouseButton.MouseButtonLeft then
      let g1 := { g with lastLeftBtnActionTime := now }
      let skills := env.skillSelectHandleClick mx my (g1.leftSkillID, g1.rightSkillID)
      let g2 := { g1 with leftSkillID := skills.1, rightSkillID := skills.2,
                          calls := g1.calls ++ [Call.skillSelectMenuHandleClick mx my] }
      (false, { g2 with skillSelectMenuIsOpen := false })
    else
      let px := truncateFloat64 (env.ScreenToWorld mx my).1
      let py := truncateFloat64 (env.ScreenToWorld mx my).2
      if event.Button == MouseButton.MouseButtonLeft && !g.isInActiveMenusRect env mx my
          && !g.heroIsCasting then
        let g1 := { g with lastLeftBtnActionTime := now }
        if event.Mod == KeyModShift then
          (true, g1.call (Call.OnPlayerCast g1.leftSkillID px py))
        else
          (true, g1.call (Call.OnPlayerMove px py))
      else if event.Button == MouseButton.MouseButtonRight && !g.isInActiveMenusRect env mx my
          && !g.heroIsCasting then
        let g1 := { g with lastRightBtnActionTime := now }
        (true, g1.call (Call.OnPlayerCast g1.rightSkillID px py))
      else
        (false, g)

/-- Source: `func (g *GameControls) OnMouseButtonRepeat(event d2interface.MouseEvent) bool`;
`now` is what `d2util.Now()` returns. -/
def GameControls.OnMouseButtonRepeat (env : Env) (now : ℚ) (g : GameControls)
    (event : MouseEvent) : Bool × GameControls :=
  let halfScreenWidth : ℚ := 800 / 2
  let halfScreenHeight : ℚ := 600 / 2
  let subtilesPerTile : ℚ := 5
  let px := truncateFloat64 (env.ScreenToWorld event.X event.Y).1
  let py := truncateFloat64 (env.ScreenToWorld event.X event.Y).2
  let button := event.Button
  let isLeft := button == MouseButton.MouseButtonLeft
  let isRight := button == MouseButton.MouseButtonRight
  let lastLeft := now - g.lastLeftBtnActionTime
  let lastRight := now - g.lastRightBtnActionTime
  let inRect := !g.isInActiveMenusRect env event.X event.Y
  let shouldDoLeft : Bool := decide (lastLeft ≥ mouseBtnActionsThreshold)
  let shouldDoRight : Bool := decide (lastRight ≥ mouseBtnActionsThreshold)
  if isLeft && shouldDoLeft && inRect && !g.heroIsCasting then
    let g1 := { g with lastLeftBtnActionTime := now }
    let g2 :=
      if event.Mod == KeyModShift then g1.call (Call.OnPlayerCast g1.leftSkillID px py)
      else g1.call (Call.OnPlayerMove px py)
    if g2.FreeCam then
      if event.Button == MouseButton.MouseButtonLeft then
        let camVect := env.cameraPosition
        let x := halfScreenWidth / subtilesPerTile
        let y := halfScreenHeight / subtilesPerTile
        (true, g2.call (Call.SetCameraTarget x y camVect.1 camVect.2))
      else (true, g2)
    else (true, g2)
  else if isRight && shouldDoRight && inRect && !g.heroIsCasting then
    let g1 := { g with lastRightBtnActionTime := now }
    (true, g1.call (Call.OnPlayerCast g1.rightSkillID px py))
  else
    (true, g)

/-- Source: `func (g *GameControls) onEscKey()`: five `if` statements in a
row, each closing its panel when it is open and setting `escHandled`, then the
`switch escHandled`. -/
def GameControls.onEscKey (env : Env) (g : GameControls) : GameControls :=
  let escHandled0 := false
  let g1 := if g.skillSelectMenuIsOpen then { g with skillSelectMenuIsOpen := false } else g
  let escHandled1 := if g.skillSelectMenuIsOpen then true else escHandled0
  let g2 := if g1.inventoryIsOpen then { g1 with inventoryIsOpen := false } else g1
  let escHandled2 := if g1.inventoryIsOpen then true else escHandled1
  let g3 := if g2.skilltreeIsOpen then { g2 with skilltreeIsOpen := false } else g2
  let escHandled3 := if g2.skilltreeIsOpen then true else escHandled2
  let g4 := if g3.heroStatsPanelIsOpen then { g3 with heroStatsPanelIsOpen := false } else g3
  let escHandled4 := if g3.heroStatsPanelIsOpen then true else escHandled3
  let g5 := if g4.helpOverlayIsOpen then { g4 with helpOverlayIsOpen := !g4.helpOverlayIsOpen }
    else g4
  let escHandled5 := if g4.helpOverlayIsOpen then true else escHandled4
  match escHandled5 with
  | true => g5.updateLayout
  | false =>
    if g5.escapeMenuIsOpen then g5.escapeMenuOnEscKey env
    else g5.escapeMenuOpen

/-- Source: `func (g *GameControls) OnKeyDown(event d2interface.KeyEvent) bool`. -/
def GameControls.OnKeyDown (env : Env) (g : GameControls) (event : KeyEvent) :
    Bool × GameControls :=
  if event.Key = Key.KeyEscape then (true, g.onEscKey env)
  else
    match env.getGameEvent event.Key with
    | GameEvent.ClearScreen =>
      (false, GameControls.updateLayout
        { g with inventoryIsOpen := false, skilltreeIsOpen := false,
                 heroStatsPanelIsOpen := false, helpOverlayIsOpen := false })
    | GameEvent.ToggleInventoryPanel =>
      (false, GameControls.updateLayout { g with inventoryIsOpen := !g.inventoryIsOpen })
    | GameEvent.ToggleSkillTreePanel =>
      (false, GameControls.updateLayout { g with skilltreeIsOpen := !g.skilltreeIsOpen })
    | GameEvent.ToggleCharacterPanel =>
      (false, GameControls.updateLayout
        { g with heroStatsPanelIsOpen := !g.heroStatsPanelIsOpen })
    | GameEvent.ToggleRunWalk => (false, g.call (Call.hudOnToggleRunButton false))
    | GameEvent.HoldRun => (false, g.call (Call.hudOnToggleRunButton true))
    | GameEvent.ToggleHelpScreen =>
      (false, GameControls.updateLayout { g with helpOverlayIsOpen := !g.helpOverlayIsOpen })
    | GameEvent.OtherEvent _ => (false, g)

/-- Source: `func (g *GameControls) OnKeyUp(event d2interface.KeyEvent) bool`. -/
def GameControls.OnKeyUp (env : Env) (g : GameControls) (event : KeyEvent) :
    Bool × GameControls :=
  match env.getGameEvent event.Key with
  | GameEvent.HoldRun => (false, g.call (Call.hudOnToggleRunButton true))
  | _ => (false, g)

/-- Source: `func (g *GameControls) OnKeyRepeat(event d2interface.KeyEvent) bool`. -/
def GameControls.OnKeyRepeat (g : GameControls) (event : KeyEvent) : Bool × GameControls :=
  if g.FreeCam then
    let moveSpeed : ℚ := if event.Mod == KeyModShift then 8 * 2 else 8
    if event.Key = Key.KeyDown then (true, g.call (Call.MoveCameraTargetBy 0 moveSpeed))
    else if event.Key = Key.KeyUp then (true, g.call (Call.MoveCameraTargetBy 0 (-moveSpeed)))
    else if event.Key = Key.KeyRight then (true, g.call (Call.MoveCameraTargetBy moveSpeed 0))
    else if event.Key = Key.KeyLeft then (true, g.call (Call.MoveCameraTargetBy (-moveSpeed) 0))
    else (false, g)
  else (false, g)

/-- Source: the `for i := range g.actionableRegions` loop of `OnMouseMove`:
every region containing the point is hovered, none ends the loop. -/
def hoverLoop (env : Env) (mx my : Int) : GameControls → List actionableRegion → GameControls
  | g, [] => g
  | g, r :: rest =>
    if env.IsInRect r.rect mx my then
      hoverLoop env mx my (g.onHoverActionable r.actionableTypeID) rest
    else hoverLoop env mx my g rest

/-- Source: `func (g *GameControls) OnMouseMove(event d2interface.MouseMoveEvent) bool`. -/
def GameControls.OnMouseMove (env : Env) (g : GameControls) (mx my : Int) :
    Bool × GameControls :=
  let g1 := { g with lastMouseX := mx, lastMouseY := my,
                     inventoryLastMouseX := mx, inventoryLastMouseY := my }
  let g2 := hoverLoop env mx my g1 g1.actionableRegions
  (false, g2.call (Call.hudOnMouseMove mx my))

/-- Modelled from the spec: `IsInRect` of `d2geom.Rectangle` (package `d2geom`
is outside the source file): the rectangle contains the point, bounds
inclusive. The handlers take the test from `Env`; this one serves the worked
examples. -/
def Rectangle.IsInRect (r : Rectangle) (x y : Int) : Bool :=
  decide (r.Left ≤ x ∧ x ≤ r.Left + r.Width ∧ r.Top ≤ y ∧ y ≤ r.Top + r.Height)

/-- An environment for worked examples: rectangles tested as above, the
mini-panel over its row of buttons, the help overlay over the whole screen, a
linear screen-to-world transform, no key bound to a game event, and
skill-select and escape menus whose operations behave as a plain panel. -/
def exampleEnv : Env :=
  { IsInRect := Rectangle.IsInRect
    miniPanelIsInRect := Rectangle.IsInRect ⟨324, 528, 154, 26⟩
    helpOverlayIsInRect := Rectangle.IsInRect ⟨0, 0, 800, 600⟩
    ScreenToWorld := fun x y => ((x : ℚ) / 100 + 3 / 1000, (y : ℚ) / 50 + 1 / 1000)
    cameraPosition := (0, 0)
    getGameEvent := fun _ => GameEvent.OtherEvent 0
    skillSelectHandleClick := fun _ _ skills => skills
    skillSelectToggleLeftPanel := fun b => !b
    skillSelectToggleRightPanel := fun b => !b
    escapeMenuAfterEscKey := fun _ => false }

/-- A freshly constructed controller with left skill 7 and right skill 9. -/
def freshControls : GameControls := NewGameControls 7 9

/-- The fresh controller with the skill-select menu and the inventory open. -/
def skillSelectAndInventoryOpen : GameControls :=
  { freshControls with skillSelectMenuIsOpen := true, inventoryIsOpen := true }

/-- The Escape key pressed with no modifier. -/
def escapeKeyEvent : KeyEvent := ⟨Key.KeyEscape, 0⟩

/-- A left click with no modifier at screen point (530, 390), which
`exampleEnv` maps to the world point (5.303, 7.801). -/
def leftClickInWorld : MouseEvent := ⟨530, 390, MouseButton.MouseButtonLeft, 0⟩

/-- A left click with no modifier at screen point (40, 530), inside the
HP-globe rectangle (30,525,80,60). -/
def leftClickOnHpGlobe : MouseEvent := ⟨40, 530, MouseButton.MouseButtonLeft, 0⟩

/-- A right click with no modifier at screen point (530, 390). -/
def rightClickInWorld : MouseEvent := ⟨530, 390, MouseButton.MouseButtonRight, 0⟩

/-- The fresh controller with only the stats panel open. -/
def statsOpen : GameControls := { freshControls with heroStatsPanelIsOpen := true }

/-- The fresh controller with only the inventory open. -/
def inventoryOpen : GameControls := { freshControls with inventoryIsOpen := true }

/-- The fresh controller with the escape menu open. -/
def escapeMenuOpened : GameControls := { freshControls with escapeMenuIsOpen := true }

/-- The spec's words for `int(x)`: truncation toward zero, the floor of a
non-negative number and the ceiling of a negative one. -/
def truncTowardZero (x : ℚ) : Int := if 0 ≤ x then ⌊x⌋ else ⌈x⌉

/-- The fresh controller with only the skill tree open. -/
def skilltreeOpen : GameControls := { freshControls with skilltreeIsOpen := true }

/-- The fresh controller in free-camera mode. -/
def freeCamControls : GameControls := { freshControls with FreeCam := true }

/-- A call that sets the camera target. -/
def Call.isSetCameraTarget : Call → Bool
  | Call.SetCameraTarget _ _ _ _ => true
  | _ => false

/-- The Down key repeated with Shift held. -/
def shiftDownKeyEvent : KeyEvent := ⟨Key.KeyDown, KeyModShift⟩

/-- A right click at (110, 585), the far corner of the HP-globe rectangle. -/
def rightClickOnHpGlobeCorner : MouseEvent := ⟨110, 585, MouseButton.MouseButtonRight, 0⟩

/-- Source: the `switch hero.Class` at the head of `NewGameControls`: the
inventory record key of a known class, the `unknown hero class` error for
every other value. -/
def inventoryRecordKey : Hero → Except String String
  | Hero.HeroAssassin => Except.ok "Assassin2"
  | Hero.HeroAmazon => Except.ok "Amazon2"
  | Hero.HeroBarbarian => Except.ok "Barbarian2"
  | Hero.HeroDruid => Except.ok "Druid2"
  | Hero.HeroNecromancer => Except.ok "Necromancer2"
  | Hero.HeroPaladin => Except.ok "Paladin2"
  | Hero.HeroSorceress => Except.ok "Sorceress2"
  | Hero.HeroOther code => Except.error ("unknown hero class: " ++ toString code)

/-- Source: `func NewGameControls(...) (*GameControls, error)` as a whole: the
class switch, then `d2hero.NewHeroStateFactory`, the controller literal and
`bindTerminalCommands`; the two collaborators are given by the error they
return, if any. -/
def NewGameControlsFor (heroClass : Hero) (heroStateFactoryErr bindTerminalErr : Option String)
    (leftSkillID rightSkillID : Nat) : Except String GameControls :=
  match inventoryRecordKey heroClass with
  | Except.error err => Except.error err
  | Except.ok _ =>
    match heroStateFactoryErr with
    | some err => Except.error err
    | none =>
      match bindTerminalErr with
      | some err => Except.error err
      | none => Except.ok (NewGameControls leftSkillID rightSkillID)

/-- The fields of a skill record (`Records.Skill.Details`) the debug commands
read. -/
structure SkillRecord where
  ID : Int
  Skill : String
  Charclass : String
  deriving DecidableEq, Repr

/-- The fields of a hero skill (`*d2hero.HeroSkill`) the debug commands read
or write. -/
structure HeroSkill where
  ID : Int
  Skill : String
  SkillPoints : Int
  deriving DecidableEq, Repr

/-- What the debug commands ask of the asset manager and the hero state
factory: `Records.Skill.Details[id]`, which is nil (`none`) for an id without
a record, and `CreateHeroSkill`, which returns a skill pointer and an error. -/
structure SkillEnv where
  Details : Int → Option SkillRecord
  CreateHeroSkill : Int → String → Option HeroSkill × Option String

/-- What the debug commands read and write: the hero's left and right skill
pointers and skill map, the lines sent to `term.OutputErrorf`, the lines sent
to the logger, and how often the skill-select image cache was regenerated. -/
structure CommandState where
  LeftSkill : Option HeroSkill
  RightSkill : Option HeroSkill
  Skills : List (Int × HeroSkill)
  termErrors : List String
  logLines : List String
  imageCacheRegenerations : Nat
  deriving DecidableEq, Repr

/-- How a command ends: it returns with a state, or the Go runtime panics. -/
inductive Outcome where
  | returned (s : CommandState)
  | panicked (reason : String)
  deriving DecidableEq, Repr

/-- Go map assignment `m[key] = value` on the hero's skill map. -/
def setSkill (m : List (Int × HeroSkill)) (key : Int) (value : HeroSkill) :
    List (Int × HeroSkill) :=
  (key, value) :: m.filter fun entry => entry.1 ≠ key

/-- Source: the closure `setLeftSkill` of `bindSetLeftSkillCommand`. The field
read `skillRecord.Skill` comes before any nil test, so a nil record panics. -/
def setLeftSkill (senv : SkillEnv) (s : CommandState) (id : Int) : Outcome :=
  match senv.Details id with
  | none => Outcome.panicked "nil pointer dereference"
  | some skillRecord =>
    match senv.CreateHeroSkill 1 skillRecord.Skill with
    | (_, some err) =>
      Outcome.returned { s with termErrors := s.termErrors ++
        ["cannot create skill with ID of " ++ toString id ++ ", error: " ++ err] }
    | (skill, none) => Outcome.returned { s with LeftSkill := skill }

/-- Source: the closure `setRightSkill` of `bindSetRightSkillCommand`. The
field read `skillRecord.Skill` comes before any nil test, so a nil record
panics. -/
def setRightSkill (senv : SkillEnv) (s : CommandState) (id : Int) : Outcome :=
  match senv.Details id with
  | none => Outcome.panicked "nil pointer dereference"
  | some skillRecord =>
    match senv.CreateHeroSkill 0 skillRecord.Skill with
    | (_, some err) =>
      Outcome.returned { s with termErrors := s.termErrors ++
        ["cannot create skill with ID of " ++ toString id ++ ", error: " ++ err] }
    | (skill, none) => Outcome.returned { s with RightSkill := skill }

/-- Source: the closure `learnByID` of `bindLearnSkillByIDCommand`. -/
def learnByID (senv : SkillEnv) (s : CommandState) (id : Int) : Outcome :=
  match senv.Details id with
  | none =>
    Outcome.returned { s with termErrors := s.termErrors ++
      ["cannot find a skill record for ID: " ++ toString id] }
  | some skillRecord =>
    match senv.CreateHeroSkill 1 skillRecord.Skill with
    | (none, _) =>
      Outcome.returned { s with termErrors := s.termErrors ++
        ["cannot create skill: " ++ skillRecord.Skill] }
    | (some skill, err) =>
      let s1 := { s with Skills := setSkill s.Skills skill.ID skill }
      match err with
      | some e =>
        Outcome.returned { s1 with termErrors := s1.termErrors ++
          ["cannot learn skill for class, error: " ++ e] }
      | none =>
        Outcome.returned { s1 with
          imageCacheRegenerations := s1.imageCacheRegenerations + 1,
          logLines := s1.logLines ++ ["Learned skill: " ++ skill.Skill] }

/-- A skill table for worked examples: one record, id 36, and a factory that
creates a skill with one point for every name. -/
def exampleSkillEnv : SkillEnv :=
  { Details := fun id => if id = 36 then some ⟨36, "Fire Bolt", "sor"⟩ else none
    CreateHeroSkill := fun points name => (some ⟨36, name, points⟩, none) }

/-- A hero with left skill 0, right skill 1 and both of them in the skill
map; nothing written to the terminal or the log. -/
def exampleCommandState : CommandState :=
  { LeftSkill := some ⟨0, "Attack", 1⟩
    RightSkill := some ⟨1, "Kick", 1⟩
    Skills := [(0, ⟨0, "Attack", 1⟩), (1, ⟨1, "Kick", 1⟩)]
    termErrors := []
    logLines := []
    imageCacheRegenerations := 0 }

/-- The fresh controller with the skill-select menu open. -/
def skillSelectOpen : GameControls := { freshControls with skillSelectMenuIsOpen := true }

/-- Source: `const classTokenLength = 3`. -/
def classTokenLength : Nat := 3

/-- Source: `validPrefixes` in `learnSkills`. -/
def validPrefixes : List String := ["ama", "ass", "nec", "bar", "sor", "dru", "pal"]

/-- The UTF-8 encoding of a character: the bytes a Go string holds for it. -/
def utf8Bytes (c : Char) : List Nat :=
  if c.toNat < 128 then [c.toNat]
  else if c.toNat < 2048 then [192 + c.toNat / 64, 128 + c.toNat % 64]
  else if c.toNat < 65536 then
    [224 + c.toNat / 4096, 128 + c.toNat / 64 % 64, 128 + c.toNat % 64]
  else
    [240 + c.toNat / 262144, 128 + c.toNat / 4096 % 64, 128 + c.toNat / 64 % 64,
      128 + c.toNat % 64]

/-- The bytes of a text, character after character. -/
def utf8BytesOf : List Char → List Nat
  | [] => []
  | c :: rest => utf8Bytes c ++ utf8BytesOf rest

/-- The bytes of a Go string holding the given text: Go's `len` counts them
and a slice expression indexes them. -/
def goBytes (s : String) : List Nat := utf8BytesOf s.data

/-- Go `strings.ToLower`: each character of the text is mapped by the given
lower-casing of characters, which may change the number of bytes it takes. -/
def goToLower (toLowerChar : Char → Char) (s : String) : String :=
  String.mk (s.data.map toLowerChar)

/-- Go slice `s[0:3]` of a string: its first three bytes, and a run-time panic
(`none`) when the string has fewer than three bytes. -/
def goFirstThree (s : String) : Option (List Nat) :=
  if (goBytes s).length < 3 then none else some ((goBytes s).take 3)

/-- Source: the `for idx := range validPrefixes` loop of `learnSkills`, which
sets `isValidToken` at every prefix equal to `tokenPrefix`, a string of bytes. -/
def isValidToken (tokenPrefix : List Nat) : Bool :=
  validPrefixes.foldl
    (fun found validPrefix => if tokenPrefix = goBytes validPrefix then true else found) false

/-- Go map read `g.hero.Skills[key]` with its `ok` flag. -/
def lookupSkill : List (Int × HeroSkill) → Int → Option HeroSkill
  | [], _ => none
  | (k, skill) :: rest, key => if k = key then some skill else lookupSkill rest key

/-- Source: `skill.SkillPoints++` through the pointer stored in the skill map
under `key`. The hero's left and right skill are held as values of their own: a
pointer shared between them and a map entry is outside the model. -/
def addSkillPoint (m : List (Int × HeroSkill)) (key : Int) : List (Int × HeroSkill) :=
  m.map fun entry =>
    if entry.1 = key then (entry.1, { entry.2 with SkillPoints := entry.2.SkillPoints + 1 })
    else entry

/-- Source: the `for _, skillDetailRecord := range ...Skill.Details` loop of
`learnSkills` over the records still to visit, in the order `range` yields
them, from the current skill map and `learnedSkillsCount`; the result is the
skill map, the count and `err` when the loop ends or breaks. -/
def learnLoop (senv : SkillEnv) (classToken : String) :
    List SkillRecord → List (Int × HeroSkill) → Nat →
      List (Int × HeroSkill) × Nat × Option String
  | [], skills, learnedSkillsCount => (skills, learnedSkillsCount, none)
  | skillDetailRecord :: rest, skills, learnedSkillsCount =>
    if skillDetailRecord.Charclass ≠ classToken then
      learnLoop senv classToken rest skills learnedSkillsCount
    else
      match lookupSkill skills skillDetailRecord.ID with
      | some _ =>
        learnLoop senv classToken rest (addSkillPoint skills skillDetailRecord.ID)
          (learnedSkillsCount + 1)
      | none =>
        match senv.CreateHeroSkill 1 skillDetailRecord.Skill with
        | (none, _) => learnLoop senv classToken rest skills learnedSkillsCount
        | (some skill, some skillErr) =>
          (setSkill skills skill.ID skill, learnedSkillsCount + 1, some skillErr)
        | (some skill, none) =>
          learnLoop senv classToken rest (setSkill skills skill.ID skill)
            (learnedSkillsCount + 1)

/-- Source: the closure `learnSkills` of `bindLearnSkillsCommand`; `records`
are the values of `Records.Skill.Details` in the order `range` yields them.
The length test is on the bytes of `token`, the slice `classToken[0:3]` on the
bytes of the lower-cased token, and it panics when those are fewer than three.
Two Go strings holding texts are equal exactly when the texts are. -/
def learnSkills (senv : SkillEnv) (records : List SkillRecord) (toLowerChar : Char → Char)
    (s : CommandState) (token : String) : Outcome :=
  if (goBytes token).length < classTokenLength then
    Outcome.returned { s with termErrors := s.termErrors ++
      ["The given class token should be at least 3 characters"] }
  else
    let classToken := goToLower toLowerChar token
    match goFirstThree classToken with
    | none => Outcome.panicked "slice bounds out of range"
    | some tokenPrefix =>
      if !isValidToken tokenPrefix then
        Outcome.returned { s with termErrors := s.termErrors ++
          ["Invalid class, must be a value starting with(case insensitive): " ++
            "ama, ass, nec, bar, sor, dru, pal"] }
      else
        let loopEnd := learnLoop senv classToken records s.Skills 0
        let s1 := { s with
          Skills := loopEnd.1,
          imageCacheRegenerations := s.imageCacheRegenerations + 1,
          logLines := s.logLines ++ ["Learned " ++ toString loopEnd.2.1 ++ " skills"] }
        match loopEnd.2.2 with
        | some err =>
          Outcome.returned { s1 with termErrors := s1.termErrors ++
            ["cannot learn skill for class, error: " ++ err] }
        | none => Outcome.returned s1

/-- The spec's words for the prefix of a token: its first three characters. -/
def firstThreeCharacters (s : String) : String := String.mk (s.data.take 3)

/-- Skill records for worked examples: two amazon skills and a sorceress
skill, with three-letter class codes. -/
def exampleRecords : List SkillRecord :=
  [⟨6, "Magic Arrow", "ama"⟩, ⟨36, "Fire Bolt", "sor"⟩, ⟨7, "Fire Arrow", "ama"⟩]

/-- A skill factory for worked examples that creates the skill of a record
name under the record's id. -/
def exampleFactoryEnv : SkillEnv :=
  { Details := fun id => exampleRecords.find? fun r => r.ID = id
    CreateHeroSkill := fun points name =>
      match exampleRecords.find? fun r => r.Skill = name with
      | some r => (some ⟨r.ID, name, points⟩, none)
      | none => (none, some "unknown skill") }

/-- A skill factory for worked examples that creates no skill and reports an
error. -/
def failingFactoryEnv : SkillEnv :=
  { Details := fun id => exampleRecords.find? fun r => r.ID = id
    CreateHeroSkill := fun _ _ => (none, some "unknown skill") }

/-- A skill factory for worked examples that creates the skill of a record
name under the record's id and reports an error with it. -/
def erringFactoryEnv : SkillEnv :=
  { Details := fun id => exampleRecords.find? fun r => r.ID = id
    CreateHeroSkill := fun points name =>
      match exampleRecords.find? fun r => r.Skill = name with
      | some r => (some ⟨r.ID, name, points⟩, some "skill error")
      | none => (none, some "unknown skill") }

/-- A hero for worked examples who knows Magic Arrow with one skill point. -/
def knowsMagicArrow : CommandState :=
  { exampleCommandState with Skills := [(6, ⟨6, "Magic Arrow", 1⟩)] }

/-- A lower-casing of characters that, like Go's `unicode.ToLower`, maps the
Kelvin sign (U+212A, three bytes) to the letter k (one byte), and is the ASCII
lower-casing elsewhere. -/
def kelvinToLower (c : Char) : Char :=
  if c.toNat = 8490 then Char.ofNat 107 else c.toLower

/-- The text of one Kelvin sign. -/
def kelvinToken : String := String.mk [Char.ofNat 8490]

end d2player

namespace d2player

open d2enum

/-- Rounding to nearest moves a value by at most one half. -/
theorem roundTiesEven_near (y : ℚ) : |(roundTiesEven y : ℚ) - y| ≤ 1 / 2 := by
  have h1 : (⌊y⌋ : ℚ) ≤ y := Int.floor_le y
  have h2 : y < (⌊y⌋ : ℚ) + 1 := Int.lt_floor_add_one y
  unfold roundTiesEven
  split_ifs with a b c
  · rw [abs_le]; constructor <;> linarith
  · push_cast; rw [abs_le]; constructor <;> linarith
  · rw [abs_le]; constructor <;> linarith
  · push_cast; rw [abs_le]; constructor <;> linarith

/-- An integer rounds to itself. -/
theorem roundTiesEven_intCast (m : Int) : roundTiesEven (m : ℚ) = m := by
  unfold roundTiesEven
  simp

/-- Rounding a non-negative value gives a non-negative integer. -/
theorem roundTiesEven_nonneg (y : ℚ) (h : 0 ≤ y) : 0 ≤ roundTiesEven y := by
  have hf : 0 ≤ ⌊y⌋ := Int.floor_nonneg.mpr h
  unfold roundTiesEven
  split_ifs <;> omega

/-- Rounding a non-positive value gives a non-positive integer. -/
theorem roundTiesEven_nonpos (y : ℚ) (h : y ≤ 0) : roundTiesEven y ≤ 0 := by
  rcases eq_or_lt_of_le h with h0 | hneg
  · subst h0
    have := roundTiesEven_intCast 0
    simp at this
    omega
  · have hf : ⌊y⌋ ≤ -1 := by
      have : ⌊y⌋ < 0 := Int.floor_lt.mpr (by simpa using hneg)
      omega
    unfold roundTiesEven
    split_ifs <;> omega

/-- The unit in the last place is positive. -/
theorem ulp_pos (x : ℚ) : (0 : ℚ) < 2 ^ (Int.log 2 |x| - 52) := by positivity

/-- Zero rounds to zero. -/
theorem roundFloat64_zero : roundFloat64 0 = 0 := by simp [roundFloat64]

/-- Rounding keeps a non-negative value non-negative. -/
theorem roundFloat64_nonneg (x : ℚ) (h : 0 ≤ x) : 0 ≤ roundFloat64 x := by
  unfold roundFloat64
  split_ifs
  · exact le_refl _
  · have hu := ulp_pos x
    have : 0 ≤ roundTiesEven (x / 2 ^ (Int.log 2 |x| - 52)) :=
      roundTiesEven_nonneg _ (div_nonneg h hu.le)
    have h2 : (0 : ℚ) ≤ (roundTiesEven (x / 2 ^ (Int.log 2 |x| - 52)) : ℚ) := by exact_mod_cast this
    exact mul_nonneg h2 hu.le

/-- Rounding keeps a non-positive value non-positive. -/
theorem roundFloat64_nonpos (x : ℚ) (h : x ≤ 0) : roundFloat64 x ≤ 0 := by
  unfold roundFloat64
  split_ifs
  · exact le_refl _
  · have hu := ulp_pos x
    have : roundTiesEven (x / 2 ^ (Int.log 2 |x| - 52)) ≤ 0 :=
      roundTiesEven_nonpos _ (div_nonpos_of_nonpos_of_nonneg h hu.le)
    have h2 : (roundTiesEven (x / 2 ^ (Int.log 2 |x| - 52)) : ℚ) ≤ 0 := by exact_mod_cast this
    exact mul_nonpos_of_nonpos_of_nonneg h2 hu.le

/-- Rounding to a float64 has relative error at most `2 ^ -53`. -/
theorem roundFloat64_error (x : ℚ) : |roundFloat64 x - x| ≤ |x| * 2 ^ (-53 : ℤ) := by
  unfold roundFloat64
  split_ifs with h0
  · simp [h0]
  · have hu := ulp_pos x
    have hx : 0 < |x| := abs_pos.mpr h0
    have hlog : (2 : ℚ) ^ (Int.log 2 |x|) ≤ |x| := by
      have := Int.zpow_log_le_self (b := 2) (by norm_num) hx
      simpa using this
    have hnear := roundTiesEven_near (x / 2 ^ (Int.log 2 |x| - 52))
    have key : (roundTiesEven (x / 2 ^ (Int.log 2 |x| - 52)) : ℚ) * 2 ^ (Int.log 2 |x| - 52) - x
        = ((roundTiesEven (x / 2 ^ (Int.log 2 |x| - 52)) : ℚ) - x / 2 ^ (Int.log 2 |x| - 52))
          * 2 ^ (Int.log 2 |x| - 52) := by
      field_simp
    rw [key, abs_mul, abs_of_pos hu]
    have hsplit : (2 : ℚ) ^ (Int.log 2 |x| - 52) = 2 ^ (Int.log 2 |x|) * 2 ^ (-52 : ℤ) := by
      rw [← zpow_add₀ (by norm_num : (2 : ℚ) ≠ 0)]
      congr 1
    calc |(roundTiesEven (x / 2 ^ (Int.log 2 |x| - 52)) : ℚ) - x / 2 ^ (Int.log 2 |x| - 52)|
          * 2 ^ (Int.log 2 |x| - 52)
        ≤ 1 / 2 * 2 ^ (Int.log 2 |x| - 52) := by
          exact mul_le_mul_of_nonneg_right hnear hu.le
      _ = 2 ^ (Int.log 2 |x|) * 2 ^ (-53 : ℤ) := by
          rw [hsplit]
          have : (2 : ℚ) ^ (-52 : ℤ) = 2 * 2 ^ (-53 : ℤ) := by norm_num [zpow_neg]
          rw [this]; ring
      _ ≤ |x| * 2 ^ (-53 : ℤ) := by
          exact mul_le_mul_of_nonneg_right hlog (by positivity)

/-- The binary exponent of a positive rational is fixed by the two powers of two
around it. -/
theorem intLog_eq (r : ℚ) (e : ℤ) (h1 : (2 : ℚ) ^ e ≤ r) (h2 : r < 2 ^ (e + 1)) :
    Int.log 2 r = e := by
  have hr : 0 < r := lt_of_lt_of_le (by positivity) h1
  have a : e ≤ Int.log 2 r :=
    (Int.zpow_le_iff_le_log (b := 2) (by norm_num) hr).mp (by simpa using h1)
  have b : Int.log 2 r < e + 1 :=
    (Int.lt_zpow_iff_log_lt (b := 2) (by norm_num) hr).mp (by simpa using h2)
  omega

/-- Rounding with the binary exponent given. -/
theorem roundFloat64_of_exponent (x : ℚ) (e : ℤ) (h1 : (2 : ℚ) ^ e ≤ |x|)
    (h2 : |x| < 2 ^ (e + 1)) :
    roundFloat64 x = (roundTiesEven (x / 2 ^ (e - 52)) : ℚ) * 2 ^ (e - 52) := by
  have hx : x ≠ 0 := by
    intro h0
    rw [h0, abs_zero] at h1
    exact absurd h1 (not_le.mpr (by positivity))
  unfold roundFloat64
  rw [if_neg hx, intLog_eq _ e h1 h2]

/-- A value with a significand below `2 ^ 53` is a float64 and rounds to itself. -/
theorem roundFloat64_of_significand (m k : ℤ) (h : |m| < 2 ^ 53) :
    roundFloat64 ((m : ℚ) * 2 ^ k) = (m : ℚ) * 2 ^ k := by
  by_cases hm : m = 0
  · subst hm; simp [roundFloat64]
  have h2k : (0 : ℚ) < 2 ^ k := by positivity
  have hmq : (m : ℚ) ≠ 0 := by exact_mod_cast hm
  have hx : (m : ℚ) * 2 ^ k ≠ 0 := mul_ne_zero hmq h2k.ne'
  obtain ⟨e, he⟩ : ∃ e : ℤ, Int.log 2 |(m : ℚ) * 2 ^ k| = e := ⟨_, rfl⟩
  have hlog : (2 : ℚ) ^ e ≤ |(m : ℚ) * 2 ^ k| := by
    have := Int.zpow_log_le_self (b := 2) (r := |(m : ℚ) * 2 ^ k|) (by norm_num)
      (abs_pos.mpr hx)
    rw [he] at this
    simpa using this
  have hmabs : |(m : ℚ)| < 2 ^ (53 : ℤ) := by
    have : ((|m| : ℤ) : ℚ) < ((2 ^ 53 : ℤ) : ℚ) := by exact_mod_cast h
    rw [Int.cast_abs] at this
    norm_num at this ⊢
    exact this
  have habs : |(m : ℚ) * 2 ^ k| < 2 ^ (53 + k) := by
    rw [abs_mul, abs_of_pos h2k, zpow_add₀ (by norm_num : (2 : ℚ) ≠ 0)]
    exact mul_lt_mul_of_pos_right hmabs h2k
  have hek : e < 53 + k :=
    (zpow_lt_zpow_iff_right₀ (by norm_num : (1 : ℚ) < 2)).mp (lt_of_le_of_lt hlog habs)
  obtain ⟨d, hd⟩ : ∃ d : ℕ, k = (e - 52) + d := ⟨(k - (e - 52)).toNat, by omega⟩
  have hu : (0 : ℚ) < 2 ^ (e - 52) := by positivity
  have hq : (m : ℚ) * 2 ^ k / 2 ^ (e - 52) = ((m * 2 ^ d : ℤ) : ℚ) := by
    rw [hd, zpow_add₀ (by norm_num : (2 : ℚ) ≠ 0), zpow_natCast]
    push_cast
    field_simp
    ring
  unfold roundFloat64
  rw [if_neg hx, he, hq, roundTiesEven_intCast]
  rw [hd, zpow_add₀ (by norm_num : (2 : ℚ) ≠ 0), zpow_natCast]
  push_cast
  ring

/-- A value with a significand of at most `2 ^ 53` rounds to itself. -/
theorem roundFloat64_of_significand_le (m k : ℤ) (h : |m| ≤ 2 ^ 53) :
    roundFloat64 ((m : ℚ) * 2 ^ k) = (m : ℚ) * 2 ^ k := by
  rcases lt_or_eq_of_le h with hlt | heq
  · exact roundFloat64_of_significand m k hlt
  · have hpow : (2 : ℚ) ^ (k + 53) = 2 ^ k * 2 ^ (53 : ℕ) := by
      rw [zpow_add₀ (by norm_num : (2 : ℚ) ≠ 0)]
      norm_cast
    rcases abs_eq (by norm_num : (0 : ℤ) ≤ 2 ^ 53) |>.mp heq with hp | hn
    · have e1 : (m : ℚ) * 2 ^ k = ((1 : ℤ) : ℚ) * 2 ^ (k + 53) := by
        rw [hpow, hp]; push_cast; ring
      rw [e1]
      exact roundFloat64_of_significand 1 (k + 53) (by norm_num)
    · have e1 : (m : ℚ) * 2 ^ k = ((-1 : ℤ) : ℚ) * 2 ^ (k + 53) := by
        rw [hpow, hn]; push_cast; ring
      rw [e1]
      exact roundFloat64_of_significand (-1) (k + 53) (by norm_num)

/-- Every rounded value has a significand of at most `2 ^ 53`. -/
theorem roundFloat64_significand (x : ℚ) :
    ∃ m k : ℤ, |m| ≤ 2 ^ 53 ∧ roundFloat64 x = (m : ℚ) * 2 ^ k := by
  by_cases hx : x = 0
  · exact ⟨0, 0, by norm_num, by simp [roundFloat64, hx]⟩
  obtain ⟨e, he⟩ : ∃ e : ℤ, Int.log 2 |x| = e := ⟨_, rfl⟩
  have hu : (0 : ℚ) < 2 ^ (e - 52) := by positivity
  have hup : |x| < 2 ^ (e + 1) := by
    have := Int.lt_zpow_succ_log_self (b := 2) (by norm_num) |x|
    rw [he] at this
    simpa using this
  have hy : |x / 2 ^ (e - 52)| < 2 ^ (53 : ℕ) := by
    rw [abs_div, abs_of_pos hu, div_lt_iff₀ hu]
    have : (2 : ℚ) ^ (53 : ℕ) * 2 ^ (e - 52) = 2 ^ (e + 1) := by
      rw [← zpow_natCast, ← zpow_add₀ (by norm_num : (2 : ℚ) ≠ 0)]
      congr 1
      push_cast
      ring
    rw [this]
    exact hup
  have hnear := roundTiesEven_near (x / 2 ^ (e - 52))
  have hr : |roundTiesEven (x / 2 ^ (e - 52))| ≤ 2 ^ 53 := by
    have h1 : |(roundTiesEven (x / 2 ^ (e - 52)) : ℚ)| < 2 ^ (53 : ℕ) + 1 := by
      have := abs_sub_abs_le_abs_sub (roundTiesEven (x / 2 ^ (e - 52)) : ℚ) (x / 2 ^ (e - 52))
      linarith
    have h2 : ((|roundTiesEven (x / 2 ^ (e - 52))| : ℤ) : ℚ) < ((2 ^ 53 + 1 : ℤ) : ℚ) := by
      rw [Int.cast_abs]
      norm_num at h1 ⊢
      exact h1
    have h3 : |roundTiesEven (x / 2 ^ (e - 52))| < 2 ^ 53 + 1 := by exact_mod_cast h2
    omega
  refine ⟨roundTiesEven (x / 2 ^ (e - 52)), e - 52, hr, ?_⟩
  unfold roundFloat64
  rw [if_neg hx, he]

/-- An integer of at most 53 bits rounds to itself. -/
theorem roundFloat64_intCast (i : ℤ) (h : |i| ≤ 2 ^ 53) : roundFloat64 (i : ℚ) = i := by
  have := roundFloat64_of_significand_le i 0 h
  simpa using this

/-- The truncating quotient of an integer is that integer. -/
theorem tdiv_intCast (m : Int) : (m : ℚ).num.tdiv (m : ℚ).den = m := by
  simp

/-- On a non-negative rational the quotient of numerator by denominator is the floor. -/
theorem tdiv_of_nonneg (x : ℚ) (h : 0 ≤ x) : x.num.tdiv x.den = ⌊x⌋ := by
  rw [Rat.floor_def, Int.tdiv_eq_ediv (Rat.num_nonneg.mpr h) (Int.natCast_nonneg _)]

/-- The truncating quotient commutes with negation. -/
theorem tdiv_neg (x : ℚ) : (-x).num.tdiv (-x).den = -(x.num.tdiv x.den) := by
  simp [Int.neg_tdiv]

/-- On a non-positive rational the truncating quotient is the ceiling. -/
theorem tdiv_of_nonpos (x : ℚ) (h : x ≤ 0) : x.num.tdiv x.den = ⌈x⌉ := by
  have h1 := tdiv_of_nonneg (-x) (by linarith)
  rw [tdiv_neg, Int.floor_neg] at h1
  linarith

/-- The truncating quotient is truncation toward zero. -/
theorem tdiv_eq_truncTowardZero (x : ℚ) : x.num.tdiv x.den = truncTowardZero x := by
  unfold truncTowardZero
  split_ifs with h
  · exact tdiv_of_nonneg x h
  · exact tdiv_of_nonpos x (le_of_lt (not_le.mp h))

/-- Within the 64-bit range the Go integer conversion is truncation toward zero. -/
theorem goInt_in_range (x : ℚ) (h : -2 ^ 63 ≤ x ∧ x < 2 ^ 63) :
    goInt x = truncTowardZero x := by
  have ht := tdiv_eq_truncTowardZero x
  have hr : -2 ^ 63 ≤ truncTowardZero x ∧ truncTowardZero x < 2 ^ 63 := by
    unfold truncTowardZero
    split_ifs with h0
    · constructor
      · have : (0 : ℤ) ≤ ⌊x⌋ := Int.floor_nonneg.mpr h0
        omega
      · rw [Int.floor_lt]; push_cast; exact h.2
    · constructor
      · rw [Int.le_ceil_iff]; push_cast; linarith [h.1]
      · have : ⌈x⌉ ≤ 0 := Int.ceil_le.mpr (by push_cast; linarith [not_le.mp h0])
        omega
  unfold goInt
  rw [ht, if_pos hr]

/-- Outside the 64-bit range the conversion yields the minimum integer. -/
theorem goInt_out_of_range (x : ℚ) (h : 2 ^ 63 ≤ x) : goInt x = -2 ^ 63 := by
  have ht := tdiv_of_nonneg x (le_trans (by norm_num) h)
  have hf : (2 : ℤ) ^ 63 ≤ ⌊x⌋ := by rw [Int.le_floor]; push_cast; exact h
  unfold goInt
  rw [ht, if_neg (by omega)]

/-- The Go integer conversion always lands in the 64-bit range. -/
theorem goInt_range (x : ℚ) : -2 ^ 63 ≤ goInt x ∧ goInt x < 2 ^ 63 := by
  unfold goInt
  split_ifs with h
  · exact h
  · norm_num

/-- The Go integer conversion of an integer in range is that integer. -/
theorem goInt_intCast (m : Int) (h : -2 ^ 63 ≤ m ∧ m < 2 ^ 63) : goInt (m : ℚ) = m := by
  unfold goInt
  rw [tdiv_intCast, if_pos h]

/-- Truncation toward zero does not increase the absolute value and keeps the sign. -/
theorem truncTowardZero_bounds (x : ℚ) :
    |(truncTowardZero x : ℚ)| ≤ |x| ∧ |x - truncTowardZero x| < 1
    ∧ (0 ≤ x → 0 ≤ truncTowardZero x) ∧ (x ≤ 0 → truncTowardZero x ≤ 0) := by
  unfold truncTowardZero
  split_ifs with h
  · have h1 : ((⌊x⌋ : Int) : ℚ) ≤ x := Int.floor_le _
    have h2 : x < ((⌊x⌋ : Int) : ℚ) + 1 := Int.lt_floor_add_one _
    have h3 : (0 : ℤ) ≤ ⌊x⌋ := Int.floor_nonneg.mpr h
    have h4 : (0 : ℚ) ≤ ((⌊x⌋ : Int) : ℚ) := by exact_mod_cast h3
    refine ⟨?_, ?_, fun _ => h3, fun hle => ?_⟩
    · rw [abs_of_nonneg h4, abs_of_nonneg h]; exact h1
    · rw [abs_of_nonneg (by linarith)]; linarith
    · have : x = 0 := le_antisymm hle h
      rw [this]; simp
  · have hx : x < 0 := not_le.mp h
    have h1 : x ≤ ((⌈x⌉ : Int) : ℚ) := Int.le_ceil _
    have h2 : ((⌈x⌉ : Int) : ℚ) < x + 1 := Int.ceil_lt_add_one _
    have h3 : ⌈x⌉ ≤ 0 := Int.ceil_le.mpr (by push_cast; exact hx.le)
    have h4 : ((⌈x⌉ : Int) : ℚ) ≤ 0 := by exact_mod_cast h3
    refine ⟨?_, ?_, fun hge => absurd hge h, fun _ => h3⟩
    · rw [abs_of_nonpos h4, abs_of_nonpos hx.le]; linarith
    · rw [abs_of_nonpos (by linarith)]; linarith

/-- The integer part of a float64 is again a float64. -/
theorem roundFloat64_truncTowardZero (x : ℚ) :
    roundFloat64 (truncTowardZero (roundFloat64 x) : ℚ) = truncTowardZero (roundFloat64 x) := by
  obtain ⟨m, k, hm, hmk⟩ := roundFloat64_significand x
  rw [hmk]
  rcases le_or_lt 0 k with hk | hk
  · obtain ⟨d, hd⟩ : ∃ d : ℕ, k = d := ⟨k.toNat, by omega⟩
    have e1 : (m : ℚ) * 2 ^ k = ((m * 2 ^ d : ℤ) : ℚ) := by
      rw [hd, zpow_natCast]; push_cast; ring
    have e2 : truncTowardZero ((m * 2 ^ d : ℤ) : ℚ) = m * 2 ^ d := by
      rw [← tdiv_eq_truncTowardZero]; exact tdiv_intCast _
    rw [e1, e2, ← e1]
    exact roundFloat64_of_significand_le m k hm
  · have hb := (truncTowardZero_bounds ((m : ℚ) * 2 ^ k)).1
    have h2k : (2 : ℚ) ^ k < 1 := zpow_lt_one_of_neg₀ (by norm_num) hk
    have h2k0 : (0 : ℚ) < 2 ^ k := by positivity
    have hmq : |(m : ℚ)| ≤ 2 ^ (53 : ℕ) := by
      have : ((|m| : ℤ) : ℚ) ≤ ((2 ^ 53 : ℤ) : ℚ) := by exact_mod_cast hm
      rw [Int.cast_abs] at this
      push_cast at this
      exact this
    have hlt : |(truncTowardZero ((m : ℚ) * 2 ^ k) : ℚ)| < 2 ^ (53 : ℕ) := by
      refine lt_of_le_of_lt hb ?_
      rw [abs_mul, abs_of_pos h2k0]
      rcases eq_or_lt_of_le (abs_nonneg (m : ℚ)) with h0 | hpos
      · rw [← h0]; norm_num
      · calc |(m : ℚ)| * 2 ^ k < |(m : ℚ)| * 1 := mul_lt_mul_of_pos_left h2k hpos
          _ ≤ 2 ^ (53 : ℕ) := by rw [mul_one]; exact hmq
    have hi : |truncTowardZero ((m : ℚ) * 2 ^ k)| ≤ 2 ^ 53 := by
      have h2 : ((|truncTowardZero ((m : ℚ) * 2 ^ k)| : ℤ) : ℚ) < ((2 ^ 53 : ℤ) : ℚ) := by
        rw [Int.cast_abs]; push_cast; exact hlt
      have h3 : |truncTowardZero ((m : ℚ) * 2 ^ k)| < 2 ^ 53 := by exact_mod_cast h2
      omega
    exact roundFloat64_intCast _ hi

/-- A tie above an odd integer is rounded up to the even neighbour. -/
theorem roundTiesEven_half_odd (k : ℤ) (h : k % 2 = 1) :
    roundTiesEven ((k : ℚ) + 1 / 2) = k + 1 := by
  have hf : ⌊(k : ℚ) + 1 / 2⌋ = k := by
    rw [Int.floor_eq_iff]
    constructor <;> linarith
  unfold roundTiesEven
  rw [hf]
  have e : (k : ℚ) + 1 / 2 - k = 1 / 2 := by ring
  rw [e, if_neg (lt_irrefl _), if_neg (lt_irrefl _), if_neg (by omega)]

/-- The rounded product stays within the relative error of its exact value. -/
theorem roundFloat64_between (x : ℚ) :
    x - |x| * 2 ^ (-53 : ℤ) ≤ roundFloat64 x ∧ roundFloat64 x ≤ x + |x| * 2 ^ (-53 : ℤ) := by
  have h := abs_le.mp (roundFloat64_error x)
  constructor <;> linarith [h.1, h.2]

/-- Within the 64-bit range `truncateFloat64` truncates the rounded product. -/
theorem truncateFloat64_in_range (n : ℚ)
    (h : -2 ^ 63 ≤ roundFloat64 (n * 10) ∧ roundFloat64 (n * 10) < 2 ^ 63) :
    truncateFloat64 n = (truncTowardZero (roundFloat64 (n * 10)) : ℚ) / 10 := by
  unfold truncateFloat64
  rw [goInt_in_range _ h]

/-- A product strictly between two neighbouring non-negative integers, with room
for the rounding error, is truncated to the lower one. -/
theorem truncateFloat64_of_between (n : ℚ) (k : ℤ) (h0 : 0 ≤ k) (hk : k < 2 ^ 62)
    (h1 : (k : ℚ) + |n * 10| * 2 ^ (-53 : ℤ) ≤ n * 10)
    (h2 : n * 10 + |n * 10| * 2 ^ (-53 : ℤ) < k + 1) :
    truncateFloat64 n = (k : ℚ) / 10 := by
  have hb := roundFloat64_between (n * 10)
  have hkq : (0 : ℚ) ≤ k := by exact_mod_cast h0
  have hk2 : (k : ℚ) < 2 ^ 62 := by exact_mod_cast hk
  have hp0 : 0 ≤ roundFloat64 (n * 10) := by linarith [hb.1]
  have hr : -2 ^ 63 ≤ roundFloat64 (n * 10) ∧ roundFloat64 (n * 10) < 2 ^ 63 := by
    constructor
    · linarith
    · have : roundFloat64 (n * 10) < k + 1 := by linarith [hb.2]
      linarith
  have hfl : truncTowardZero (roundFloat64 (n * 10)) = k := by
    unfold truncTowardZero
    rw [if_pos hp0, Int.floor_eq_iff]
    constructor <;> linarith [hb.1, hb.2]
  rw [truncateFloat64_in_range n hr, hfl]

/-- A product strictly between two neighbouring non-positive integers, with room
for the rounding error, is truncated to the upper one. -/
theorem truncateFloat64_of_between_neg (n : ℚ) (k : ℤ) (h0 : k ≤ 0) (hk : -2 ^ 62 < k)
    (h1 : (k : ℚ) - 1 < n * 10 - |n * 10| * 2 ^ (-53 : ℤ))
    (h2 : n * 10 + |n * 10| * 2 ^ (-53 : ℤ) ≤ k) :
    truncateFloat64 n = (k : ℚ) / 10 := by
  have hb := roundFloat64_between (n * 10)
  have hkq : (k : ℚ) ≤ 0 := by exact_mod_cast h0
  have hk2 : -(2 : ℚ) ^ 62 < k := by exact_mod_cast hk
  have hp0 : roundFloat64 (n * 10) ≤ 0 := by linarith [hb.2]
  have hr : -2 ^ 63 ≤ roundFloat64 (n * 10) ∧ roundFloat64 (n * 10) < 2 ^ 63 := by
    constructor
    · have : (k : ℚ) - 1 < roundFloat64 (n * 10) := by linarith [hb.1]
      linarith
    · linarith
  have hcl : truncTowardZero (roundFloat64 (n * 10)) = k := by
    rw [← tdiv_eq_truncTowardZero, tdiv_of_nonpos _ hp0, Int.ceil_eq_iff]
    constructor <;> linarith [hb.1, hb.2]
  rw [truncateFloat64_in_range n hr, hcl]

/-- A number of tenths of at most 53 bits is left unchanged. -/
theorem truncateFloat64_of_tenths (k : ℤ) (h : |k| ≤ 2 ^ 53) :
    truncateFloat64 ((k : ℚ) / 10) = (k : ℚ) / 10 := by
  have e : (k : ℚ) / 10 * 10 = k := by ring
  have hr : -2 ^ 63 ≤ k ∧ k < 2 ^ 63 := by
    have := abs_le.mp h
    constructor <;> omega
  unfold truncateFloat64
  rw [e, roundFloat64_intCast k h, goInt_intCast k hr]

/-- Truncating a truncated value changes nothing. -/
theorem truncateFloat64_idem (n : ℚ) :
    truncateFloat64 (truncateFloat64 n) = truncateFloat64 n := by
  have hfix : roundFloat64 (goInt (roundFloat64 (n * 10)) : ℚ)
      = goInt (roundFloat64 (n * 10)) := by
    by_cases hr : -2 ^ 63 ≤ roundFloat64 (n * 10) ∧ roundFloat64 (n * 10) < 2 ^ 63
    · rw [goInt_in_range _ hr]
      exact roundFloat64_truncTowardZero _
    · have hcases : goInt (roundFloat64 (n * 10)) = truncTowardZero (roundFloat64 (n * 10))
          ∨ goInt (roundFloat64 (n * 10)) = -2 ^ 63 := by
        unfold goInt
        split_ifs
        · left; exact tdiv_eq_truncTowardZero _
        · right; rfl
      rcases hcases with hc | hc
      · rw [hc]; exact roundFloat64_truncTowardZero _
      · rw [hc]
        have := roundFloat64_of_significand (-1) 63 (by norm_num)
        have e : (((-1 : ℤ) : ℚ)) * 2 ^ (63 : ℤ) = (((-2 ^ 63 : ℤ)) : ℚ) := by norm_num
        rw [e] at this
        exact this
  have e : (goInt (roundFloat64 (n * 10)) : ℚ) / 10 * 10 = goInt (roundFloat64 (n * 10)) := by
    ring
  have h1 : truncateFloat64 n = (goInt (roundFloat64 (n * 10)) : ℚ) / 10 := rfl
  rw [h1]
  unfold truncateFloat64
  rw [e, hfix, goInt_intCast _ (goInt_range _)]

/-- The click loop falls through when no region contains the point. -/
theorem clickLoop_eq_none (env : Env) (g : GameControls) (mx my : Int)
    (rs : List actionableRegion)
    (hmiss : ∀ r ∈ rs, env.IsInRect r.rect mx my = false) :
    clickLoop env g mx my rs = none := by
  induction rs with
  | nil => rfl
  | cons r rest ih =>
    have h1 : env.IsInRect r.rect mx my = false := hmiss r (List.mem_cons_self _ _)
    have h2 : ∀ q ∈ rest, env.IsInRect q.rect mx my = false :=
      fun q hq => hmiss q (List.mem_cons_of_mem _ hq)
    simp [clickLoop, h1, ih h2]

/-- The click loop runs the handler of the first region containing the point. -/
theorem clickLoop_first_hit (env : Env) (g : GameControls) (mx my : Int)
    (pre : List actionableRegion) (r : actionableRegion) (post : List actionableRegion)
    (hpre : ∀ q ∈ pre, env.IsInRect q.rect mx my = false)
    (hr : env.IsInRect r.rect mx my = true) :
    clickLoop env g mx my (pre ++ r :: post) = some (g.onClickActionable env r.actionableTypeID) := by
  induction pre with
  | nil => simp [clickLoop, hr]
  | cons q rest ih =>
    have h1 : env.IsInRect q.rect mx my = false := hpre q (List.mem_cons_self _ _)
    have h2 : ∀ p ∈ rest, env.IsInRect p.rect mx my = false :=
      fun p hp => hpre p (List.mem_cons_of_mem _ hp)
    simp [clickLoop, h1, ih h2]

/-- When some region contains the point, the click loop runs the handler of
one of the regions containing it. -/
theorem clickLoop_of_hit (env : Env) (g : GameControls) (mx my : Int)
    (rs : List actionableRegion)
    (hhit : ∃ r ∈ rs, env.IsInRect r.rect mx my = true) :
    ∃ r ∈ rs, env.IsInRect r.rect mx my = true
      ∧ clickLoop env g mx my rs = some (g.onClickActionable env r.actionableTypeID) := by
  induction rs with
  | nil => simp at hhit
  | cons q rest ih =>
    by_cases hq : env.IsInRect q.rect mx my = true
    · exact ⟨q, List.mem_cons_self _ _, hq, by simp [clickLoop, hq]⟩
    · have hq' : env.IsInRect q.rect mx my = false := by simpa using hq
      obtain ⟨r, hr, hin⟩ := hhit
      rcases List.mem_cons.mp hr with rfl | hr'
      · exact absurd hin hq
      · obtain ⟨p, hp, hpin, hpc⟩ := ih ⟨r, hr', hin⟩
        exact ⟨p, List.mem_cons_of_mem _ hp, hpin, by simp [clickLoop, hq', hpc]⟩

/-- What a click handler does to the call record and the throttle state: the
invocation is recorded, what follows holds no move or cast command, no
further handler invocation and no skill-select click, and both last-action
times stay. -/
theorem onClickActionable_effect (env : Env) (g : GameControls) (item : actionableType) :
    (∃ extra, (g.onClickActionable env item).calls
        = g.calls ++ Call.onClickActionable item :: extra
      ∧ ∀ c ∈ extra, c.isCommand = false ∧ c.clickedId = none ∧ c.isSkillSelectClick = false)
    ∧ (g.onClickActionable env item).lastLeftBtnActionTime = g.lastLeftBtnActionTime
    ∧ (g.onClickActionable env item).lastRightBtnActionTime = g.lastRightBtnActionTime := by
  cases item <;>
    simp only [GameControls.onClickActionable, actionMap, GameControls.call,
      GameControls.ToggleHpStats, GameControls.ToggleManaStats, GameControls.escapeMenuOpen,
      GameControls.updateLayout, GameControls.ViewportDefault, GameControls.ViewportToLeft,
      GameControls.ViewportToRight] <;>
    (try split_ifs) <;>
    simp [Call.isCommand, Call.clickedId, Call.isSkillSelectClick]

/-- The world point of screen point (530, 390) in `exampleEnv`, truncated. -/
theorem exampleEnv_truncated_world_point :
    truncateFloat64 (exampleEnv.ScreenToWorld 530 390).1 = 53 / 10
    ∧ truncateFloat64 (exampleEnv.ScreenToWorld 530 390).2 = 78 / 10 := by
  have e1 : (exampleEnv.ScreenToWorld 530 390).1 = 5303 / 1000 := by norm_num [exampleEnv]
  have e2 : (exampleEnv.ScreenToWorld 530 390).2 = 7801 / 1000 := by norm_num [exampleEnv]
  have a1 : |(5303 / 1000 * 10 : ℚ)| = 5303 / 100 := by
    rw [abs_of_pos (by norm_num)]; norm_num
  have a2 : |(7801 / 1000 * 10 : ℚ)| = 7801 / 100 := by
    rw [abs_of_pos (by norm_num)]; norm_num
  constructor
  · have h := truncateFloat64_of_between (5303 / 1000) 53 (by norm_num) (by norm_num)
      (by rw [a1]; norm_num [zpow_neg]) (by rw [a1]; norm_num [zpow_neg])
    rw [e1, h]
    norm_num
  · have h := truncateFloat64_of_between (7801 / 1000) 78 (by norm_num) (by norm_num)
      (by rw [a2]; norm_num [zpow_neg]) (by rw [a2]; norm_num [zpow_neg])
    rw [e2, h]
    norm_num

/-- A left button-down outside the actionable and the blocking regions, hero
not casting: the command is issued and the left last-action time stamped,
whatever the time. -/
theorem OnMouseButtonDown_left_fires (env : Env) (now : ℚ) (g : GameControls)
    (event : MouseEvent)
    (hmiss : ∀ r ∈ g.actionableRegions, env.IsInRect r.rect event.X event.Y = false)
    (hb : event.Button = MouseButton.MouseButtonLeft)
    (hr : g.isInActiveMenusRect env event.X event.Y = false)
    (hc : g.heroIsCasting = false) :
    g.OnMouseButtonDown env now event =
      (true, { g with
        lastLeftBtnActionTime := now,
        calls := g.calls ++
          [if event.Mod = KeyModShift then
             Call.OnPlayerCast g.leftSkillID
               (truncateFloat64 (env.ScreenToWorld event.X event.Y).1)
               (truncateFloat64 (env.ScreenToWorld event.X event.Y).2)
           else
             Call.OnPlayerMove
               (truncateFloat64 (env.ScreenToWorld event.X event.Y).1)
               (truncateFloat64 (env.ScreenToWorld event.X event.Y).2)] }) := by
  have hloop := clickLoop_eq_none env g event.X event.Y g.actionableRegions hmiss
  have hclosed : g.skillSelectMenuIsOpen = false := by
    cases hs : g.skillSelectMenuIsOpen
    · rfl
    · simp [GameControls.isInActiveMenusRect, hs] at hr
  by_cases hm : event.Mod = KeyModShift <;>
    simp [GameControls.OnMouseButtonDown, hloop, hclosed, hb, hr, hc, hm, GameControls.call]

/-- C1: a mouse button-down at a point in no actionable region, with the
skill-select menu closed. A left button outside the blocking regions with the
hero not casting issues exactly one command at the world point truncated to
one decimal (a cast of the left skill under Shift, a move otherwise), sets the
left last-action time to now and returns true; a right button under the same
conditions issues exactly one cast of the right skill, sets the right
last-action time to now and returns true; every other case changes nothing and
returns false. A left click without Shift mapped to world point (5.3, 7.8)
issues `OnPlayerMove(5.3, 7.8)` once and returns true. -/
theorem OnMouseButtonDown_outside_regions (env : Env) (now : ℚ) (g : GameControls)
    (event : MouseEvent)
    (hmiss : ∀ r ∈ g.actionableRegions, env.IsInRect r.rect event.X event.Y = false)
    (hclosed : g.skillSelectMenuIsOpen = false) :
    (event.Button = MouseButton.MouseButtonLeft →
      g.isInActiveMenusRect env event.X event.Y = false → g.heroIsCasting = false →
      g.OnMouseButtonDown env now event =
        (true, { g with
          lastLeftBtnActionTime := now,
          calls := g.calls ++
            [if event.Mod = KeyModShift then
               Call.OnPlayerCast g.leftSkillID
                 (truncateFloat64 (env.ScreenToWorld event.X event.Y).1)
                 (truncateFloat64 (env.ScreenToWorld event.X event.Y).2)
             else
               Call.OnPlayerMove
                 (truncateFloat64 (env.ScreenToWorld event.X event.Y).1)
                 (truncateFloat64 (env.ScreenToWorld event.X event.Y).2)] }))
    ∧ (event.Button = MouseButton.MouseButtonRight →
      g.isInActiveMenusRect env event.X event.Y = false → g.heroIsCasting = false →
      g.OnMouseButtonDown env now event =
        (true, { g with
          lastRightBtnActionTime := now,
          calls := g.calls ++
            [Call.OnPlayerCast g.rightSkillID
               (truncateFloat64 (env.ScreenToWorld event.X event.Y).1)
               (truncateFloat64 (env.ScreenToWorld event.X event.Y).2)] }))
    ∧ (¬ ((event.Button = MouseButton.MouseButtonLeft
            ∨ event.Button = MouseButton.MouseButtonRight)
          ∧ g.isInActiveMenusRect env event.X event.Y = false ∧ g.heroIsCasting = false) →
      g.OnMouseButtonDown env now event = (false, g))
    ∧ (event.Button = MouseButton.MouseButtonLeft → event.Mod ≠ KeyModShift →
      g.isInActiveMenusRect env event.X event.Y = false → g.heroIsCasting = false →
      env.ScreenToWorld event.X event.Y = (53 / 10, 78 / 10) →
      (g.OnMouseButtonDown env now event).1 = true
        ∧ (g.OnMouseButtonDown env now event).2.calls
            = g.calls ++ [Call.OnPlayerMove (53 / 10) (78 / 10)]) := by
  have hloop := clickLoop_eq_none env g event.X event.Y g.actionableRegions hmiss
  refine ⟨?_, ?_, ?_, ?_⟩
  · intro hb hr hc
    by_cases hm : event.Mod = KeyModShift <;>
      simp [GameControls.OnMouseButtonDown, hloop, hclosed, hb, hr, hc, hm, GameControls.call]
  · intro hb hr hc
    simp [GameControls.OnMouseButtonDown, hloop, hclosed, hb, hr, hc, GameControls.call]
  · intro hno
    cases hb : event.Button <;> cases hr : g.isInActiveMenusRect env event.X event.Y <;>
      cases hc : g.heroIsCasting <;>
      simp_all [GameControls.OnMouseButtonDown]
  · intro hb hm hr hc hw
    have h53 : truncateFloat64 (53 / 10) = 53 / 10 := by
      have := truncateFloat64_of_tenths 53 (by norm_num)
      norm_num at this ⊢
      exact this
    have h78 : truncateFloat64 (78 / 10) = 78 / 10 := by
      have := truncateFloat64_of_tenths 78 (by norm_num)
      norm_num at this ⊢
      exact this
    simp [GameControls.OnMouseButtonDown, hloop, hclosed, hb, hr, hc, hm, hw,
      GameControls.call, h53, h78]

/-- Witness for C1: on the fresh controller a left click at screen point
(530, 390), world point (5.303, 7.801), at time 100 issues
`OnPlayerMove(5.3, 7.8)` once, stamps the left last-action time and returns
true. -/
theorem OnMouseButtonDown_outside_regions_witness :
    freshControls.OnMouseButtonDown exampleEnv 100 leftClickInWorld =
      (true, { freshControls with
        lastLeftBtnActionTime := 100,
        calls := [Call.OnPlayerMove (53 / 10) (78 / 10)] }) := by
  have h := (OnMouseButtonDown_outside_regions exampleEnv 100 freshControls leftClickInWorld
    (by decide) rfl).1 rfl (by decide) rfl
  have e1 : truncateFloat64 (exampleEnv.ScreenToWorld leftClickInWorld.X leftClickInWorld.Y).1
      = 53 / 10 := exampleEnv_truncated_world_point.1
  have e2 : truncateFloat64 (exampleEnv.ScreenToWorld leftClickInWorld.X leftClickInWorld.Y).2
      = 78 / 10 := exampleEnv_truncated_world_point.2
  have e3 : leftClickInWorld.Mod ≠ KeyModShift := by decide
  rw [h, e1, e2, if_neg e3]
  rfl

/-- C2: on a mouse button-down, when some registered region contains the
point, the click handler is invoked exactly once, with the action id of the
first such region in registration order, and with no other id; when no region
contains the point no click handler is invoked; a point inside exactly one
region's rectangle invokes the handler with that region's id. -/
theorem OnMouseButtonDown_click_handler (env : Env) (now : ℚ) (g : GameControls)
    (event : MouseEvent) :
    (∀ pre r post, g.actionableRegions = pre ++ r :: post →
      (∀ q ∈ pre, env.IsInRect q.rect event.X event.Y = false) →
      env.IsInRect r.rect event.X event.Y = true →
      clickedIds (g.OnMouseButtonDown env now event).2.calls
        = clickedIds g.calls ++ [r.actionableTypeID])
    ∧ ((∀ r ∈ g.actionableRegions, env.IsInRect r.rect event.X event.Y = false) →
      clickedIds (g.OnMouseButtonDown env now event).2.calls = clickedIds g.calls)
    ∧ (∀ r ∈ g.actionableRegions, env.IsInRect r.rect event.X event.Y = true →
      (∀ q ∈ g.actionableRegions, env.IsInRect q.rect event.X event.Y = true → q = r) →
      clickedIds (g.OnMouseButtonDown env now event).2.calls
        = clickedIds g.calls ++ [r.actionableTypeID]) := by
  have hclick : ∀ item, clickedIds (g.onClickActionable env item).calls
      = clickedIds g.calls ++ [item] := by
    intro item
    obtain ⟨⟨extra, hcalls, hextra⟩, -, -⟩ := onClickActionable_effect env g item
    have hnone : List.filterMap Call.clickedId extra = [] := by
      rw [List.filterMap_eq_nil_iff]
      exact fun c hc => (hextra c hc).2.1
    rw [hcalls]
    simp [clickedIds, List.filterMap_append, List.filterMap_cons, Call.clickedId, hnone]
  refine ⟨?_, ?_, ?_⟩
  · intro pre r post hregs hpre hr
    have hloop := clickLoop_first_hit env g event.X event.Y pre r post hpre hr
    rw [← hregs] at hloop
    simp [GameControls.OnMouseButtonDown, hloop, hclick]
  · intro hmiss
    have hloop := clickLoop_eq_none env g event.X event.Y g.actionableRegions hmiss
    simp only [GameControls.OnMouseButtonDown, hloop]
    split_ifs <;> simp [clickedIds, GameControls.call, List.filterMap_append, Call.clickedId]
  · intro r hr hin huniq
    obtain ⟨p, hp, hpin, hloop⟩ :=
      clickLoop_of_hit env g event.X event.Y g.actionableRegions ⟨r, hr, hin⟩
    have hpr : p = r := huniq p hp hpin
    subst hpr
    simp [GameControls.OnMouseButtonDown, hloop, hclick]

/-- Witness for C2: on the fresh controller a click at (40, 530), which only
the HP-globe rectangle contains, invokes the click handler once, for
`hpGlobe`. -/
theorem OnMouseButtonDown_click_handler_witness :
    clickedIds (freshControls.OnMouseButtonDown exampleEnv 100 leftClickOnHpGlobe).2.calls
      = [actionableType.hpGlobe] :=
  (OnMouseButtonDown_click_handler exampleEnv 100 freshControls leftClickOnHpGlobe).1
    (actionableRegions.take 8) ⟨actionableType.hpGlobe, ⟨30, 525, 80, 60⟩⟩
    (actionableRegions.drop 9) (by decide) (by decide) (by decide)

/-- C3: a mouse button-down at a point inside some registered actionable
region, whatever the button, the modifier, the cast state and the open
panels: what is called holds no move and no cast command and no skill-select
menu click, both last-action times stay, and the result is false. -/
theorem OnMouseButtonDown_region_click_frame (env : Env) (now : ℚ) (g : GameControls)
    (event : MouseEvent)
    (hhit : ∃ r ∈ g.actionableRegions, env.IsInRect r.rect event.X event.Y = true) :
    (∃ new, (g.OnMouseButtonDown env now event).2.calls = g.calls ++ new
      ∧ ∀ c ∈ new, c.isCommand = false ∧ c.isSkillSelectClick = false)
    ∧ (g.OnMouseButtonDown env now event).2.lastLeftBtnActionTime = g.lastLeftBtnActionTime
    ∧ (g.OnMouseButtonDown env now event).2.lastRightBtnActionTime = g.lastRightBtnActionTime
    ∧ (g.OnMouseButtonDown env now event).1 = false := by
  obtain ⟨p, -, -, hloop⟩ := clickLoop_of_hit env g event.X event.Y g.actionableRegions hhit
  obtain ⟨⟨extra, hcalls, hextra⟩, hl, hr⟩ :=
    onClickActionable_effect env g p.actionableTypeID
  have hres : g.OnMouseButtonDown env now event
      = (false, g.onClickActionable env p.actionableTypeID) := by
    simp [GameControls.OnMouseButtonDown, hloop]
  rw [hres]
  refine ⟨⟨Call.onClickActionable p.actionableTypeID :: extra, hcalls, ?_⟩, hl, hr, rfl⟩
  intro c hc
  rcases List.mem_cons.mp hc with rfl | hc'
  · exact ⟨rfl, rfl⟩
  · exact ⟨(hextra c hc').1, (hextra c hc').2.2⟩

/-- Witness for C3: a click on the HP globe of the fresh controller. -/
theorem OnMouseButtonDown_region_click_frame_witness :
    (freshControls.OnMouseButtonDown exampleEnv 100 leftClickOnHpGlobe).2.lastLeftBtnActionTime
        = 0
    ∧ (freshControls.OnMouseButtonDown exampleEnv 100 leftClickOnHpGlobe).1 = false :=
  have h := OnMouseButtonDown_region_click_frame exampleEnv 100 freshControls leftClickOnHpGlobe
    ⟨⟨actionableType.hpGlobe, ⟨30, 525, 80, 60⟩⟩, by decide, by decide⟩
  ⟨h.2.1, h.2.2.2⟩

/-- C4: `isInActiveMenusRect x y` is true exactly when the point is in the
bottom menu rectangle (0,550,800,50), or the stats panel is open and the point
is in the left rectangle (0,0,400,600), or the inventory or the skill tree is
open and the point is in the right rectangle (400,0,400,600), or the mini-panel
is open and the point is within its bounds, or the escape menu is open, or the
help overlay is open and the point is within its bounds, or the skill-select
menu is open; so it is true at every point when the escape menu or the
skill-select menu is open. -/
theorem isInActiveMenusRect_iff (env : Env) (g : GameControls) (x y : Int) :
    (g.isInActiveMenusRect env x y = true ↔
      (env.IsInRect ⟨0, 550, 800, 50⟩ x y = true
        ∨ (g.heroStatsPanelIsOpen = true ∧ env.IsInRect ⟨0, 0, 400, 600⟩ x y = true)
        ∨ ((g.inventoryIsOpen = true ∨ g.skilltreeIsOpen = true)
            ∧ env.IsInRect ⟨400, 0, 400, 600⟩ x y = true)
        ∨ (g.miniPanelIsOpen = true ∧ env.miniPanelIsInRect x y = true)
        ∨ g.escapeMenuIsOpen = true
        ∨ (g.helpOverlayIsOpen = true ∧ env.helpOverlayIsInRect x y = true)
        ∨ g.skillSelectMenuIsOpen = true))
    ∧ (g.escapeMenuIsOpen = true ∨ g.skillSelectMenuIsOpen = true →
        g.isInActiveMenusRect env x y = true) := by
  have key : g.isInActiveMenusRect env x y = true ↔
      (env.IsInRect ⟨0, 550, 800, 50⟩ x y = true
        ∨ (g.heroStatsPanelIsOpen = true ∧ env.IsInRect ⟨0, 0, 400, 600⟩ x y = true)
        ∨ ((g.inventoryIsOpen = true ∨ g.skilltreeIsOpen = true)
            ∧ env.IsInRect ⟨400, 0, 400, 600⟩ x y = true)
        ∨ (g.miniPanelIsOpen = true ∧ env.miniPanelIsInRect x y = true)
        ∨ g.escapeMenuIsOpen = true
        ∨ (g.helpOverlayIsOpen = true ∧ env.helpOverlayIsInRect x y = true)
        ∨ g.skillSelectMenuIsOpen = true) := by
    simp only [GameControls.isInActiveMenusRect, GameControls.isLeftPanelOpen,
      GameControls.isRightPanelOpen, bottomMenuRect, leftMenuRect, rightMenuRect]
    simp only [Bool.if_true_left, Bool.or_false, Bool.or_eq_true, Bool.and_eq_true,
      Bool.decide_eq_true, decide_eq_true_eq]
  refine ⟨key, ?_⟩
  intro h
  rw [key]
  rcases h with h | h
  · exact Or.inr (Or.inr (Or.inr (Or.inr (Or.inl h))))
  · exact Or.inr (Or.inr (Or.inr (Or.inr (Or.inr (Or.inr h)))))

/-- Witness for C4: with the escape menu open the point (530, 390), which is
in no menu rectangle, is in an active menu. -/
theorem isInActiveMenusRect_iff_witness :
    escapeMenuOpened.isInActiveMenusRect exampleEnv 530 390 = true :=
  (isInActiveMenusRect_iff exampleEnv escapeMenuOpened 530 390).2 (Or.inl rfl)

/-- C5: a mouse button-repeat event at time now always returns true. A left
button issues exactly one command (a cast of the left skill under Shift, a
move otherwise) and sets the left last-action time to now exactly when now
minus the left last-action time is at least 0.25, the point is outside the
blocking regions and the hero is not casting; a right button issues exactly
one cast of the right skill and sets the right last-action time to now under
the same conditions on the right last-action time; a fire of one button
leaves the other button's time; in every other case nothing changes. In
free-camera mode a left fire is followed by one camera-target call. -/
theorem OnMouseButtonRepeat_throttle (env : Env) (now : ℚ) (g : GameControls)
    (event : MouseEvent) :
    (g.OnMouseButtonRepeat env now event).1 = true
    ∧ (event.Button = MouseButton.MouseButtonLeft →
        (1 / 4 ≤ now - g.lastLeftBtnActionTime
          ∧ g.isInActiveMenusRect env event.X event.Y = false ∧ g.heroIsCasting = false) →
        (g.OnMouseButtonRepeat env now event).2 =
          { g with
            lastLeftBtnActionTime := now,
            calls := g.calls ++
              [if event.Mod = KeyModShift then
                 Call.OnPlayerCast g.leftSkillID
                   (truncateFloat64 (env.ScreenToWorld event.X event.Y).1)
                   (truncateFloat64 (env.ScreenToWorld event.X event.Y).2)
               else
                 Call.OnPlayerMove
                   (truncateFloat64 (env.ScreenToWorld event.X event.Y).1)
                   (truncateFloat64 (env.ScreenToWorld event.X event.Y).2)]
              ++ (if g.FreeCam = true then
                    [Call.SetCameraTarget 80 60 env.cameraPosition.1 env.cameraPosition.2]
                  else []) })
    ∧ (event.Button = MouseButton.MouseButtonLeft →
        ¬ (1 / 4 ≤ now - g.lastLeftBtnActionTime
          ∧ g.isInActiveMenusRect env event.X event.Y = false ∧ g.heroIsCasting = false) →
        (g.OnMouseButtonRepeat env now event).2 = g)
    ∧ (event.Button = MouseButton.MouseButtonRight →
        (1 / 4 ≤ now - g.lastRightBtnActionTime
          ∧ g.isInActiveMenusRect env event.X event.Y = false ∧ g.heroIsCasting = false) →
        (g.OnMouseButtonRepeat env now event).2 =
          { g with
            lastRightBtnActionTime := now,
            calls := g.calls ++
              [Call.OnPlayerCast g.rightSkillID
                 (truncateFloat64 (env.ScreenToWorld event.X event.Y).1)
                 (truncateFloat64 (env.ScreenToWorld event.X event.Y).2)] })
    ∧ (event.Button = MouseButton.MouseButtonRight →
        ¬ (1 / 4 ≤ now - g.lastRightBtnActionTime
          ∧ g.isInActiveMenusRect env event.X event.Y = false ∧ g.heroIsCasting = false) →
        (g.OnMouseButtonRepeat env now event).2 = g)
    ∧ (event.Button = MouseButton.MouseButtonMiddle →
        (g.OnMouseButtonRepeat env now event).2 = g)
    ∧ (event.Button = MouseButton.MouseButtonLeft →
        (g.OnMouseButtonRepeat env now event).2.lastRightBtnActionTime
          = g.lastRightBtnActionTime)
    ∧ (event.Button = MouseButton.MouseButtonRight →
        (g.OnMouseButtonRepeat env now event).2.lastLeftBtnActionTime
          = g.lastLeftBtnActionTime) := by
  refine ⟨?_, ?_, ?_, ?_, ?_, ?_, ?_, ?_⟩
  · simp only [GameControls.OnMouseButtonRepeat]
    split_ifs <;> rfl
  · rintro hb ⟨ht, hr, hc⟩
    have ht' : mouseBtnActionsThreshold ≤ now - g.lastLeftBtnActionTime := by
      simpa [mouseBtnActionsThreshold] using ht
    by_cases hm : event.Mod = KeyModShift <;> cases hf : g.FreeCam <;>
      simp [GameControls.OnMouseButtonRepeat, hb, ht', hr, hc, hm, hf, GameControls.call] <;>
      norm_num
  · intro hb hno
    have hno' : ¬ (mouseBtnActionsThreshold ≤ now - g.lastLeftBtnActionTime
        ∧ g.isInActiveMenusRect env event.X event.Y = false ∧ g.heroIsCasting = false) := by
      simpa [mouseBtnActionsThreshold] using hno
    by_cases ht : mouseBtnActionsThreshold ≤ now - g.lastLeftBtnActionTime <;>
      cases hr : g.isInActiveMenusRect env event.X event.Y <;>
      cases hc : g.heroIsCasting <;>
      first
      | exact (hno' ⟨ht, hr, hc⟩).elim
      | simp [GameControls.OnMouseButtonRepeat, hb, ht, hr, hc]
  · rintro hb ⟨ht, hr, hc⟩
    have ht' : mouseBtnActionsThreshold ≤ now - g.lastRightBtnActionTime := by
      simpa [mouseBtnActionsThreshold] using ht
    simp [GameControls.OnMouseButtonRepeat, hb, ht', hr, hc, GameControls.call]
  · intro hb hno
    have hno' : ¬ (mouseBtnActionsThreshold ≤ now - g.lastRightBtnActionTime
        ∧ g.isInActiveMenusRect env event.X event.Y = false ∧ g.heroIsCasting = false) := by
      simpa [mouseBtnActionsThreshold] using hno
    by_cases ht : mouseBtnActionsThreshold ≤ now - g.lastRightBtnActionTime <;>
      cases hr : g.isInActiveMenusRect env event.X event.Y <;>
      cases hc : g.heroIsCasting <;>
      first
      | exact (hno' ⟨ht, hr, hc⟩).elim
      | simp [GameControls.OnMouseButtonRepeat, hb, ht, hr, hc]
  · intro hb
    simp [GameControls.OnMouseButtonRepeat, hb]
  · intro hb
    simp only [GameControls.OnMouseButtonRepeat, hb]
    split_ifs <;> simp_all [GameControls.call]
  · intro hb
    simp only [GameControls.OnMouseButtonRepeat, hb]
    split_ifs <;> simp_all [GameControls.call]

/-- Witness for C5: on the fresh controller a left repeat event at time 100
at screen point (530, 390) issues `OnPlayerMove(5.3, 7.8)` once and stamps the
left last-action time. -/
theorem OnMouseButtonRepeat_throttle_witness :
    (freshControls.OnMouseButtonRepeat exampleEnv 100 leftClickInWorld).1 = true
    ∧ (freshControls.OnMouseButtonRepeat exampleEnv 100 leftClickInWorld).2 =
        { freshControls with
          lastLeftBtnActionTime := 100,
          calls := [Call.OnPlayerMove (53 / 10) (78 / 10)] } := by
  have h := OnMouseButtonRepeat_throttle exampleEnv 100 freshControls leftClickInWorld
  have hgate : (1 : ℚ) / 4 ≤ 100 - freshControls.lastLeftBtnActionTime := by
    norm_num [freshControls, NewGameControls]
  have e1 : truncateFloat64 (exampleEnv.ScreenToWorld leftClickInWorld.X leftClickInWorld.Y).1
      = 53 / 10 := exampleEnv_truncated_world_point.1
  have e2 : truncateFloat64 (exampleEnv.ScreenToWorld leftClickInWorld.X leftClickInWorld.Y).2
      = 78 / 10 := exampleEnv_truncated_world_point.2
  have e3 : leftClickInWorld.Mod ≠ KeyModShift := by decide
  have e4 : ¬ (freshControls.FreeCam = true) := by decide
  refine ⟨h.1, ?_⟩
  rw [h.2.1 rfl ⟨hgate, by decide, rfl⟩, e1, e2, if_neg e3, if_neg e4]
  rfl

/-- C6 (as stated, refuted): two left button-down events at times 0 and 0.1,
both at a point outside every actionable and blocking region, hero not
casting: the second one issues a move command as well. -/
theorem second_button_down_not_throttled :
    ((0 : ℚ) < 1 / 10 ∧ (1 : ℚ) / 10 - 0 < 1 / 4)
    ∧ (∀ r ∈ freshControls.actionableRegions,
        exampleEnv.IsInRect r.rect leftClickInWorld.X leftClickInWorld.Y = false)
    ∧ freshControls.isInActiveMenusRect exampleEnv leftClickInWorld.X leftClickInWorld.Y = false
    ∧ freshControls.heroIsCasting = false
    ∧ (freshControls.OnMouseButtonDown exampleEnv 0 leftClickInWorld).2.calls
        = [Call.OnPlayerMove (53 / 10) (78 / 10)]
    ∧ ((freshControls.OnMouseButtonDown exampleEnv 0 leftClickInWorld).2.OnMouseButtonDown
          exampleEnv (1 / 10) leftClickInWorld).2.calls
        = [Call.OnPlayerMove (53 / 10) (78 / 10), Call.OnPlayerMove (53 / 10) (78 / 10)] := by
  have e1 : truncateFloat64 (exampleEnv.ScreenToWorld leftClickInWorld.X leftClickInWorld.Y).1
      = 53 / 10 := exampleEnv_truncated_world_point.1
  have e2 : truncateFloat64 (exampleEnv.ScreenToWorld leftClickInWorld.X leftClickInWorld.Y).2
      = 78 / 10 := exampleEnv_truncated_world_point.2
  have e3 : leftClickInWorld.Mod ≠ KeyModShift := by decide
  have h1 := OnMouseButtonDown_left_fires exampleEnv 0 freshControls leftClickInWorld
    (by decide) rfl (by decide) rfl
  rw [e1, e2, if_neg e3] at h1
  have h2 := OnMouseButtonDown_left_fires exampleEnv (1 / 10)
    (freshControls.OnMouseButtonDown exampleEnv 0 leftClickInWorld).2 leftClickInWorld
    (by decide) rfl (by decide) (by decide)
  rw [e1, e2, if_neg e3] at h2
  refine ⟨by norm_num, by decide, by decide, rfl, ?_, ?_⟩
  · rw [h1]; rfl
  · rw [h2, h1]; rfl

/-- C6 (amended): two left button-down events in a row at times t1 and t2,
however close, both at points outside every actionable and blocking region,
hero not casting: each of the two issues exactly one move or cast command;
what the throttle suppresses is a left button-repeat event at t2 when
t2 - t1 < 0.25, which changes nothing. -/
theorem two_button_downs_both_fire (env : Env) (t1 t2 : ℚ) (g : GameControls)
    (e1 e2 : MouseEvent)
    (hmiss1 : ∀ r ∈ g.actionableRegions, env.IsInRect r.rect e1.X e1.Y = false)
    (hmiss2 : ∀ r ∈ g.actionableRegions, env.IsInRect r.rect e2.X e2.Y = false)
    (hb1 : e1.Button = MouseButton.MouseButtonLeft)
    (hb2 : e2.Button = MouseButton.MouseButtonLeft)
    (hr1 : g.isInActiveMenusRect env e1.X e1.Y = false)
    (hr2 : g.isInActiveMenusRect env e2.X e2.Y = false)
    (hc : g.heroIsCasting = false) :
    ∃ c1 c2, c1.isCommand = true ∧ c2.isCommand = true
      ∧ (g.OnMouseButtonDown env t1 e1).2.calls = g.calls ++ [c1]
      ∧ ((g.OnMouseButtonDown env t1 e1).2.OnMouseButtonDown env t2 e2).2.calls
          = (g.OnMouseButtonDown env t1 e1).2.calls ++ [c2]
      ∧ (t2 - t1 < 1 / 4 →
          ((g.OnMouseButtonDown env t1 e1).2.OnMouseButtonRepeat env t2 e2).2
            = (g.OnMouseButtonDown env t1 e1).2) := by
  have h1 := OnMouseButtonDown_left_fires env t1 g e1 hmiss1 hb1 hr1 hc
  have hcmd : ∀ (m : KeyMod) (k : Nat) (x y : ℚ),
      (if m = KeyModShift then Call.OnPlayerCast k x y else Call.OnPlayerMove x y).isCommand
        = true := by
    intro m k x y
    split_ifs <;> rfl
  refine ⟨if e1.Mod = KeyModShift then
        Call.OnPlayerCast g.leftSkillID (truncateFloat64 (env.ScreenToWorld e1.X e1.Y).1)
          (truncateFloat64 (env.ScreenToWorld e1.X e1.Y).2)
      else Call.OnPlayerMove (truncateFloat64 (env.ScreenToWorld e1.X e1.Y).1)
          (truncateFloat64 (env.ScreenToWorld e1.X e1.Y).2),
    if e2.Mod = KeyModShift then
        Call.OnPlayerCast g.leftSkillID (truncateFloat64 (env.ScreenToWorld e2.X e2.Y).1)
          (truncateFloat64 (env.ScreenToWorld e2.X e2.Y).2)
      else Call.OnPlayerMove (truncateFloat64 (env.ScreenToWorld e2.X e2.Y).1)
          (truncateFloat64 (env.ScreenToWorld e2.X e2.Y).2),
    hcmd _ _ _ _, hcmd _ _ _ _, ?_, ?_, ?_⟩
  · rw [h1]
  · have hm : ∀ r ∈ (g.OnMouseButtonDown env t1 e1).2.actionableRegions,
        env.IsInRect r.rect e2.X e2.Y = false := by rw [h1]; exact hmiss2
    have hr : (g.OnMouseButtonDown env t1 e1).2.isInActiveMenusRect env e2.X e2.Y = false := by
      rw [h1]; exact hr2
    have hc' : (g.OnMouseButtonDown env t1 e1).2.heroIsCasting = false := by rw [h1]; exact hc
    have hs : (g.OnMouseButtonDown env t1 e1).2.leftSkillID = g.leftSkillID := by rw [h1]
    rw [OnMouseButtonDown_left_fires env t2 _ e2 hm hb2 hr hc', hs]
  · intro hlt
    have hl : (g.OnMouseButtonDown env t1 e1).2.lastLeftBtnActionTime = t1 := by rw [h1]
    have hgate : ¬ (mouseBtnActionsThreshold ≤ t2 - t1) := by
      simpa [mouseBtnActionsThreshold] using hlt
    simp [GameControls.OnMouseButtonRepeat, hb2, hl, hgate]

/-- Witness for C6 (amended): the two clicks at times 0 and 0.1 on the fresh
controller. -/
theorem two_button_downs_both_fire_witness :
    ∃ c1 c2, c1.isCommand = true ∧ c2.isCommand = true
      ∧ (freshControls.OnMouseButtonDown exampleEnv 0 leftClickInWorld).2.calls
          = freshControls.calls ++ [c1]
      ∧ ((freshControls.OnMouseButtonDown exampleEnv 0 leftClickInWorld).2.OnMouseButtonDown
            exampleEnv (1 / 10) leftClickInWorld).2.calls
          = (freshControls.OnMouseButtonDown exampleEnv 0 leftClickInWorld).2.calls ++ [c2]
      ∧ ((1 : ℚ) / 10 - 0 < 1 / 4 →
          ((freshControls.OnMouseButtonDown exampleEnv 0 leftClickInWorld).2.OnMouseButtonRepeat
              exampleEnv (1 / 10) leftClickInWorld).2
            = (freshControls.OnMouseButtonDown exampleEnv 0 leftClickInWorld).2) :=
  two_button_downs_both_fire exampleEnv 0 (1 / 10) freshControls leftClickInWorld
    leftClickInWorld (by decide) (by decide) rfl rfl (by decide) (by decide) rfl

/-- C7 (as stated, refuted): on the freshly constructed controller the first
left and the first right button-repeat event at time 0.1 (and at time 0),
outside the blocking regions with the hero not casting, are suppressed by the
throttle: nothing is issued. -/
theorem first_repeat_suppressed_before_threshold :
    ((0 : ℚ) ≤ 1 / 10)
    ∧ freshControls.lastLeftBtnActionTime = 0 ∧ freshControls.lastRightBtnActionTime = 0
    ∧ freshControls.isInActiveMenusRect exampleEnv leftClickInWorld.X leftClickInWorld.Y = false
    ∧ freshControls.heroIsCasting = false
    ∧ (freshControls.OnMouseButtonRepeat exampleEnv (1 / 10) leftClickInWorld).2.calls = []
    ∧ (freshControls.OnMouseButtonRepeat exampleEnv (1 / 10) rightClickInWorld).2.calls = []
    ∧ (freshControls.OnMouseButtonRepeat exampleEnv 0 leftClickInWorld).2.calls = []
    ∧ (freshControls.OnMouseButtonRepeat exampleEnv 0 rightClickInWorld).2.calls = [] := by
  refine ⟨by norm_num, rfl, rfl, by decide, rfl, ?_, ?_, ?_, ?_⟩ <;>
    norm_num [GameControls.OnMouseButtonRepeat, freshControls, NewGameControls,
      mouseBtnActionsThreshold, leftClickInWorld, rightClickInWorld]

/-- C7 (amended): on a freshly constructed controller, whose last-action
times are both 0, the first left (respectively right) button-repeat event at
time now, outside the blocking regions, issues its command exactly when
now is at least 0.25; before that it is suppressed and nothing changes. -/
theorem first_repeat_fires_iff_threshold (env : Env) (now : ℚ) (leftSkill rightSkill : Nat)
    (event : MouseEvent)
    (hb : event.Button = MouseButton.MouseButtonLeft
      ∨ event.Button = MouseButton.MouseButtonRight)
    (hr : (NewGameControls leftSkill rightSkill).isInActiveMenusRect env event.X event.Y
      = false) :
    ((∃ c, c.isCommand = true ∧
        ((NewGameControls leftSkill rightSkill).OnMouseButtonRepeat env now event).2.calls
          = [c]) ↔ 1 / 4 ≤ now)
    ∧ (now < 1 / 4 →
        ((NewGameControls leftSkill rightSkill).OnMouseButtonRepeat env now event).2
          = NewGameControls leftSkill rightSkill) := by
  have hl : (NewGameControls leftSkill rightSkill).lastLeftBtnActionTime = 0 := rfl
  have hrt : (NewGameControls leftSkill rightSkill).lastRightBtnActionTime = 0 := rfl
  have hc : (NewGameControls leftSkill rightSkill).heroIsCasting = false := rfl
  have hf : (NewGameControls leftSkill rightSkill).FreeCam = false := rfl
  have hcalls : (NewGameControls leftSkill rightSkill).calls = [] := rfl
  generalize NewGameControls leftSkill rightSkill = g at *
  by_cases ht : mouseBtnActionsThreshold ≤ now
  · have ht4 : (1 : ℚ) / 4 ≤ now := by simpa [mouseBtnActionsThreshold] using ht
    refine ⟨⟨fun _ => ht4, fun _ => ?_⟩, fun hlt => absurd ht4 (not_le.mpr hlt)⟩
    rcases hb with hb | hb
    · by_cases hm : event.Mod = KeyModShift <;>
        simp [GameControls.OnMouseButtonRepeat, hb, hl, hrt, hc, hf, hcalls, hr, ht, hm,
          GameControls.call, Call.isCommand]
    · simp [GameControls.OnMouseButtonRepeat, hb, hl, hrt, hc, hf, hcalls, hr, ht,
        GameControls.call, Call.isCommand]
  · have ht4 : ¬ ((1 : ℚ) / 4 ≤ now) := by simpa [mouseBtnActionsThreshold] using ht
    have hsame : (g.OnMouseButtonRepeat env now event).2 = g := by
      rcases hb with hb | hb <;>
        simp [GameControls.OnMouseButtonRepeat, hb, hl, hrt, ht]
    refine ⟨⟨fun hex => ?_, fun h4 => absurd h4 ht4⟩, fun _ => hsame⟩
    obtain ⟨c, -, hcs⟩ := hex
    rw [hsame, hcalls] at hcs
    simp at hcs

/-- Witness for C7 (amended): at time 100 the first left repeat event on a
fresh controller issues its command. -/
theorem first_repeat_fires_iff_threshold_witness :
    ∃ c, c.isCommand = true ∧
      ((NewGameControls 7 9).OnMouseButtonRepeat exampleEnv 100 leftClickInWorld).2.calls
        = [c] :=
  (first_repeat_fires_iff_threshold exampleEnv 100 7 9 leftClickInWorld (Or.inl rfl)
    (by decide)).1.mpr (by norm_num)

/-- C8 (as stated, refuted): with the skill-select menu and the inventory both
open, one Escape key-down does not leave the inventory open: both are closed
afterwards. -/
theorem escape_closes_inventory_too :
    skillSelectAndInventoryOpen.skillSelectMenuIsOpen = true
    ∧ skillSelectAndInventoryOpen.inventoryIsOpen = true
    ∧ (skillSelectAndInventoryOpen.OnKeyDown exampleEnv escapeKeyEvent).2.skillSelectMenuIsOpen
        = false
    ∧ (skillSelectAndInventoryOpen.OnKeyDown exampleEnv escapeKeyEvent).2.inventoryIsOpen
        = false := by
  decide

/-- C8 (amended): when at least one of skill-select menu, inventory, skill
tree, stats panel and help overlay is open, one Escape key-down closes every
one of them that is open, so all five are closed afterwards, and the
mini-panel and the escape menu stay as they were. -/
theorem escape_closes_every_open_panel (env : Env) (g : GameControls) (event : KeyEvent)
    (hkey : event.Key = Key.KeyEscape)
    (hopen : g.skillSelectMenuIsOpen = true ∨ g.inventoryIsOpen = true
      ∨ g.skilltreeIsOpen = true ∨ g.heroStatsPanelIsOpen = true
      ∨ g.helpOverlayIsOpen = true) :
    (g.OnKeyDown env event).2.skillSelectMenuIsOpen = false
    ∧ (g.OnKeyDown env event).2.inventoryIsOpen = false
    ∧ (g.OnKeyDown env event).2.skilltreeIsOpen = false
    ∧ (g.OnKeyDown env event).2.heroStatsPanelIsOpen = false
    ∧ (g.OnKeyDown env event).2.helpOverlayIsOpen = false
    ∧ (g.OnKeyDown env event).2.miniPanelIsOpen = g.miniPanelIsOpen
    ∧ (g.OnKeyDown env event).2.escapeMenuIsOpen = g.escapeMenuIsOpen := by
  rcases g with ⟨regs, ss, inv, st, stats, help, mini, esc, hp, mana, casting, ls, rs, mx, my,
    imx, imy, tl, tr, fc, vp, calls⟩
  simp only [GameControls.OnKeyDown, hkey, if_true]
  cases ss <;> cases inv <;> cases st <;> cases stats <;> cases help <;>
    simp_all [GameControls.onEscKey, GameControls.updateLayout, GameControls.isLeftPanelOpen,
      GameControls.isRightPanelOpen, GameControls.ViewportDefault]

/-- Witness for C8 (amended): the skill-select menu and the inventory open. -/
theorem escape_closes_every_open_panel_witness :
    skillSelectAndInventoryOpen.skillSelectMenuIsOpen = true
    ∧ (skillSelectAndInventoryOpen.OnKeyDown exampleEnv escapeKeyEvent).2.skillSelectMenuIsOpen
        = false
    ∧ (skillSelectAndInventoryOpen.OnKeyDown exampleEnv escapeKeyEvent).2.inventoryIsOpen
        = false :=
  have h := escape_closes_every_open_panel exampleEnv skillSelectAndInventoryOpen
    escapeKeyEvent rfl (Or.inl rfl)
  ⟨rfl, h.1, h.2.1⟩

/-- C9: for the Escape key `OnKeyDown` returns true and runs exactly one of
three branches: (1) when one of skill-select menu, inventory, skill tree,
stats panel or help overlay is open, the five are closed and the layout is
recomputed, and the escape menu is neither opened nor sent the key;
(2) otherwise, when the escape menu is open, the key is sent to the escape
menu and the menu is not opened again; (3) otherwise the escape menu is
opened. -/
theorem OnKeyDown_escape_three_branches (env : Env) (g : GameControls) (event : KeyEvent)
    (hkey : event.Key = Key.KeyEscape) :
    (g.OnKeyDown env event).1 = true
    ∧ ((g.skillSelectMenuIsOpen || g.inventoryIsOpen || g.skilltreeIsOpen
          || g.heroStatsPanelIsOpen || g.helpOverlayIsOpen) = true →
        (g.OnKeyDown env event).2 =
          { g with skillSelectMenuIsOpen := false, inventoryIsOpen := false,
                   skilltreeIsOpen := false, heroStatsPanelIsOpen := false,
                   helpOverlayIsOpen := false, viewport := Viewport.Default,
                   calls := g.calls ++ [Call.ViewportDefault] })
    ∧ ((g.skillSelectMenuIsOpen || g.inventoryIsOpen || g.skilltreeIsOpen
          || g.heroStatsPanelIsOpen || g.helpOverlayIsOpen) = false →
        g.escapeMenuIsOpen = true →
        (g.OnKeyDown env event).2 =
          { g with escapeMenuIsOpen := env.escapeMenuAfterEscKey true,
                   calls := g.calls ++ [Call.escapeMenuOnEscKey] })
    ∧ ((g.skillSelectMenuIsOpen || g.inventoryIsOpen || g.skilltreeIsOpen
          || g.heroStatsPanelIsOpen || g.helpOverlayIsOpen) = false →
        g.escapeMenuIsOpen = false →
        (g.OnKeyDown env event).2 =
          { g with escapeMenuIsOpen := true, calls := g.calls ++ [Call.escapeMenuOpen] }) := by
  rcases g with ⟨regs, ss, inv, st, stats, help, mini, esc, hp, mana, casting, ls, rs, mx, my,
    imx, imy, tl, tr, fc, vp, calls⟩
  simp only [GameControls.OnKeyDown, hkey, if_true]
  cases ss <;> cases inv <;> cases st <;> cases stats <;> cases help <;> cases esc <;>
    simp [GameControls.onEscKey, GameControls.updateLayout, GameControls.isLeftPanelOpen,
      GameControls.isRightPanelOpen, GameControls.ViewportDefault,
      GameControls.escapeMenuOnEscKey, GameControls.escapeMenuOpen]

/-- Witness for C9: Escape on the fresh controller, where nothing is open,
opens the escape menu. -/
theorem OnKeyDown_escape_three_branches_witness :
    (freshControls.OnKeyDown exampleEnv escapeKeyEvent).1 = true
    ∧ (freshControls.OnKeyDown exampleEnv escapeKeyEvent).2 =
        { freshControls with escapeMenuIsOpen := true, calls := [Call.escapeMenuOpen] } :=
  have h := OnKeyDown_escape_three_branches exampleEnv freshControls escapeKeyEvent rfl
  ⟨h.1, h.2.2.2 rfl rfl⟩

/-- C10: `updateLayout` makes exactly one viewport call and records the mode
it selects; the mode is Default exactly when the stats panel's open flag
equals (inventory open or skill tree open); with nothing open, and with the
stats panel and the inventory open, it is Default; with only the stats panel
open it is a non-default mode, different from the non-default mode selected
with only the inventory or only the skill tree open. -/
theorem updateLayout_selects_one_mode (g : GameControls) :
    ((g.updateLayout = { g with viewport := Viewport.Default,
                                calls := g.calls ++ [Call.ViewportDefault] })
      ∨ (g.updateLayout = { g with viewport := Viewport.ToLeft,
                                   calls := g.calls ++ [Call.ViewportToLeft] })
      ∨ (g.updateLayout = { g with viewport := Viewport.ToRight,
                                   calls := g.calls ++ [Call.ViewportToRight] }))
    ∧ (g.updateLayout.viewport = Viewport.Default ↔
        g.heroStatsPanelIsOpen = (g.inventoryIsOpen || g.skilltreeIsOpen))
    ∧ (g.heroStatsPanelIsOpen = false → g.inventoryIsOpen = false → g.skilltreeIsOpen = false →
        g.updateLayout.viewport = Viewport.Default)
    ∧ (g.heroStatsPanelIsOpen = true → g.inventoryIsOpen = true → g.skilltreeIsOpen = false →
        g.updateLayout.viewport = Viewport.Default)
    ∧ (∀ h : GameControls,
        g.heroStatsPanelIsOpen = true → g.inventoryIsOpen = false → g.skilltreeIsOpen = false →
        h.heroStatsPanelIsOpen = false →
        ((h.inventoryIsOpen = true ∧ h.skilltreeIsOpen = false)
          ∨ (h.inventoryIsOpen = false ∧ h.skilltreeIsOpen = true)) →
        g.updateLayout.viewport ≠ Viewport.Default
          ∧ h.updateLayout.viewport ≠ Viewport.Default
          ∧ g.updateLayout.viewport ≠ h.updateLayout.viewport) := by
  refine ⟨?_, ?_, ?_, ?_, ?_⟩
  · simp only [GameControls.updateLayout, GameControls.isLeftPanelOpen,
      GameControls.isRightPanelOpen, GameControls.ViewportDefault, GameControls.ViewportToLeft,
      GameControls.ViewportToRight]
    split_ifs <;> simp
  · simp only [GameControls.updateLayout, GameControls.isLeftPanelOpen,
      GameControls.isRightPanelOpen, GameControls.ViewportDefault, GameControls.ViewportToLeft,
      GameControls.ViewportToRight]
    split_ifs with h1 h2 <;> simp [h1]
  · intro h1 h2 h3
    simp [GameControls.updateLayout, GameControls.isLeftPanelOpen,
      GameControls.isRightPanelOpen, GameControls.ViewportDefault, h1, h2, h3]
  · intro h1 h2 h3
    simp [GameControls.updateLayout, GameControls.isLeftPanelOpen,
      GameControls.isRightPanelOpen, GameControls.ViewportDefault, h1, h2, h3]
  · intro h h1 h2 h3 h4 h5
    rcases h5 with ⟨h5, h6⟩ | ⟨h5, h6⟩ <;>
    simp [GameControls.updateLayout, GameControls.isLeftPanelOpen,
      GameControls.isRightPanelOpen, GameControls.ViewportDefault, GameControls.ViewportToLeft,
      GameControls.ViewportToRight, h1, h2, h3, h4, h5, h6]

/-- Witness for C10: only the stats panel open against only the inventory
open. -/
theorem updateLayout_selects_one_mode_witness :
    statsOpen.updateLayout.viewport ≠ Viewport.Default
    ∧ inventoryOpen.updateLayout.viewport ≠ Viewport.Default
    ∧ statsOpen.updateLayout.viewport ≠ inventoryOpen.updateLayout.viewport :=
  (updateLayout_selects_one_mode statsOpen).2.2.2.2 inventoryOpen rfl rfl rfl rfl
    (Or.inl ⟨rfl, rfl⟩)

/-- C11 (the code at the failing inputs): with only the stats panel open
`updateLayout` calls `ViewportToLeft`; with only the inventory open, and with
only the skill tree open, it calls `ViewportToRight`. -/
theorem updateLayout_shift_is_crossed :
    statsOpen.heroStatsPanelIsOpen = true ∧ statsOpen.isRightPanelOpen = false
    ∧ statsOpen.updateLayout.calls = [Call.ViewportToLeft]
    ∧ statsOpen.updateLayout.viewport = Viewport.ToLeft
    ∧ inventoryOpen.isLeftPanelOpen = false ∧ inventoryOpen.inventoryIsOpen = true
    ∧ inventoryOpen.updateLayout.calls = [Call.ViewportToRight]
    ∧ inventoryOpen.updateLayout.viewport = Viewport.ToRight
    ∧ skilltreeOpen.isLeftPanelOpen = false ∧ skilltreeOpen.skilltreeIsOpen = true
    ∧ skilltreeOpen.updateLayout.calls = [Call.ViewportToRight]
    ∧ skilltreeOpen.updateLayout.viewport = Viewport.ToRight := by
  decide

/-- After `updateLayout` the selected viewport mode is the one `updateLayout`
selects. -/
theorem updateLayout_viewport_current (g : GameControls) :
    g.updateLayout.viewport = g.updateLayout.updateLayout.viewport := by
  simp only [GameControls.updateLayout, GameControls.isLeftPanelOpen,
    GameControls.isRightPanelOpen, GameControls.ViewportDefault, GameControls.ViewportToLeft,
    GameControls.ViewportToRight]
  split_ifs <;> simp_all

/-- The viewport mode of a state where it is current is the mode
`updateLayout` selects in every state with the same stats, inventory and
skill-tree flags. -/
theorem viewport_current_of_same (g h : GameControls)
    (hs : h.heroStatsPanelIsOpen = g.heroStatsPanelIsOpen)
    (hi : h.inventoryIsOpen = g.inventoryIsOpen)
    (ht : h.skilltreeIsOpen = g.skilltreeIsOpen)
    (hinv : g.viewport = g.updateLayout.viewport) :
    g.viewport = h.updateLayout.viewport := by
  rw [hinv]
  simp only [GameControls.updateLayout, GameControls.isLeftPanelOpen,
    GameControls.isRightPanelOpen, GameControls.ViewportDefault, GameControls.ViewportToLeft,
    GameControls.ViewportToRight, hs, hi, ht]
  split_ifs <;> rfl

/-- A click handler leaves the viewport mode current. -/
theorem onClickActionable_viewport_current (env : Env) (g : GameControls)
    (item : actionableType) (hinv : g.viewport = g.updateLayout.viewport) :
    (g.onClickActionable env item).viewport
      = (g.onClickActionable env item).updateLayout.viewport := by
  cases item <;> simp only [GameControls.onClickActionable, actionMap] <;>
    first
    | exact updateLayout_viewport_current _
    | (refine viewport_current_of_same g _ ?_ ?_ ?_ hinv <;> rfl)

/-- The hover loop changes the call record only. -/
theorem hoverLoop_same (env : Env) (mx my : Int) (rs : List actionableRegion)
    (g : GameControls) :
    (hoverLoop env mx my g rs).viewport = g.viewport
    ∧ (hoverLoop env mx my g rs).heroStatsPanelIsOpen = g.heroStatsPanelIsOpen
    ∧ (hoverLoop env mx my g rs).inventoryIsOpen = g.inventoryIsOpen
    ∧ (hoverLoop env mx my g rs).skilltreeIsOpen = g.skilltreeIsOpen := by
  induction rs generalizing g with
  | nil => exact ⟨rfl, rfl, rfl, rfl⟩
  | cons r rest ih =>
    by_cases hr : env.IsInRect r.rect mx my = true
    · simp only [hoverLoop, hr, if_true]
      exact ih (g.onHoverActionable r.actionableTypeID)
    · simp only [hoverLoop, hr]
      exact ih g

/-- C12: when the selected viewport mode is the one `updateLayout` selects for
the stats, inventory and skill-tree open flags, it still is after every event
handler: `OnKeyDown` for every key, `OnKeyUp`, `OnKeyRepeat`, `OnMouseMove`,
`OnMouseButtonDown` with every click handler, and `OnMouseButtonRepeat`. -/
theorem viewport_never_stale (env : Env) (now : ℚ) (g : GameControls)
    (hinv : g.viewport = g.updateLayout.viewport) :
    (∀ event : KeyEvent,
      (g.OnKeyDown env event).2.viewport = (g.OnKeyDown env event).2.updateLayout.viewport)
    ∧ (∀ event : KeyEvent,
      (g.OnKeyUp env event).2.viewport = (g.OnKeyUp env event).2.updateLayout.viewport)
    ∧ (∀ event : KeyEvent,
      (g.OnKeyRepeat event).2.viewport = (g.OnKeyRepeat event).2.updateLayout.viewport)
    ∧ (∀ mx my : Int,
      (g.OnMouseMove env mx my).2.viewport = (g.OnMouseMove env mx my).2.updateLayout.viewport)
    ∧ (∀ event : MouseEvent,
      (g.OnMouseButtonDown env now event).2.viewport
        = (g.OnMouseButtonDown env now event).2.updateLayout.viewport)
    ∧ (∀ event : MouseEvent,
      (g.OnMouseButtonRepeat env now event).2.viewport
        = (g.OnMouseButtonRepeat env now event).2.updateLayout.viewport)
    ∧ (∀ item : actionableType,
      (g.onClickActionable env item).viewport
        = (g.onClickActionable env item).updateLayout.viewport) := by
  refine ⟨?_, ?_, ?_, ?_, ?_, ?_, ?_⟩
  · intro event
    by_cases hk : event.Key = Key.KeyEscape
    · simp only [GameControls.OnKeyDown, hk, if_true, GameControls.onEscKey]
      split
      · exact updateLayout_viewport_current _
      · rename_i hesc
        have hnone : g.skillSelectMenuIsOpen = false ∧ g.inventoryIsOpen = false
            ∧ g.skilltreeIsOpen = false ∧ g.heroStatsPanelIsOpen = false
            ∧ g.helpOverlayIsOpen = false := by
          cases h1 : g.skillSelectMenuIsOpen <;> cases h2 : g.inventoryIsOpen <;>
            cases h3 : g.skilltreeIsOpen <;> cases h4 : g.heroStatsPanelIsOpen <;>
            cases h5 : g.helpOverlayIsOpen <;> simp_all
        obtain ⟨h1, h2, h3, h4, h5⟩ := hnone
        simp only [h1, h2, h3, h4, h5, Bool.false_eq_true, if_false]
        split_ifs
        · (refine viewport_current_of_same g _ ?_ ?_ ?_ hinv <;> rfl)
        · (refine viewport_current_of_same g _ ?_ ?_ ?_ hinv <;> rfl)
    · simp only [GameControls.OnKeyDown, hk, if_false]
      split <;>
        first
        | exact updateLayout_viewport_current _
        | (refine viewport_current_of_same g _ ?_ ?_ ?_ hinv <;> rfl)
  · intro event
    simp only [GameControls.OnKeyUp]
    split <;> (refine viewport_current_of_same g _ ?_ ?_ ?_ hinv <;> rfl)
  · intro event
    simp only [GameControls.OnKeyRepeat]
    split_ifs <;> (refine viewport_current_of_same g _ ?_ ?_ ?_ hinv <;> rfl)
  · intro mx my
    obtain ⟨hv, hs, hi, ht⟩ := hoverLoop_same env mx my g.actionableRegions
      { g with lastMouseX := mx, lastMouseY := my,
               inventoryLastMouseX := mx, inventoryLastMouseY := my }
    exact Eq.trans hv (viewport_current_of_same g (g.OnMouseMove env mx my).2 hs hi ht hinv)
  · intro event
    cases hloop : clickLoop env g event.X event.Y g.actionableRegions with
    | some g1 =>
      have hex : ∃ r ∈ g.actionableRegions, env.IsInRect r.rect event.X event.Y = true := by
        by_contra hno
        have hmiss : ∀ r ∈ g.actionableRegions,
            env.IsInRect r.rect event.X event.Y = false := by
          intro r hr
          cases hr' : env.IsInRect r.rect event.X event.Y
          · rfl
          · exact absurd ⟨r, hr, hr'⟩ hno
        rw [clickLoop_eq_none env g event.X event.Y g.actionableRegions hmiss] at hloop
        exact absurd hloop (by simp)
      obtain ⟨p, -, -, hp⟩ := clickLoop_of_hit env g event.X event.Y g.actionableRegions hex
      have hg1 : g1 = g.onClickActionable env p.actionableTypeID := by
        rw [hloop] at hp
        exact Option.some.inj hp
      have hres : (g.OnMouseButtonDown env now event).2 = g1 := by
        simp [GameControls.OnMouseButtonDown, hloop]
      rw [hres, hg1]
      exact onClickActionable_viewport_current env g p.actionableTypeID hinv
    | none =>
      simp only [GameControls.OnMouseButtonDown, hloop]
      split_ifs <;> (refine viewport_current_of_same g _ ?_ ?_ ?_ hinv <;> rfl)
  · intro event
    simp only [GameControls.OnMouseButtonRepeat]
    split_ifs <;> (refine viewport_current_of_same g _ ?_ ?_ ?_ hinv <;> rfl)
  · intro item
    exact onClickActionable_viewport_current env g item hinv

/-- Witness for C12: on the fresh controller, whose viewport mode is Default
with nothing open, a click on the inventory button of the mini panel opens
the inventory and leaves the viewport mode current. -/
theorem viewport_never_stale_witness :
    (freshControls.onClickActionable exampleEnv actionableType.miniPanelInventory).inventoryIsOpen
      = true
    ∧ (freshControls.onClickActionable exampleEnv actionableType.miniPanelInventory).viewport
      = (freshControls.onClickActionable exampleEnv
          actionableType.miniPanelInventory).updateLayout.viewport :=
  ⟨rfl, (viewport_never_stale exampleEnv 0 freshControls rfl).2.2.2.2.2.2
    actionableType.miniPanelInventory⟩

/-- C13 (as stated, refuted): a click on the HP globe invokes the region's
click handler and `OnMouseButtonDown` returns false. -/
theorem region_click_returns_false :
    clickedIds (freshControls.OnMouseButtonDown exampleEnv 100 leftClickOnHpGlobe).2.calls
      = [actionableType.hpGlobe]
    ∧ (freshControls.OnMouseButtonDown exampleEnv 100 leftClickOnHpGlobe).1 = false := by
  decide

/-- C13 (amended): `OnMouseButtonDown` returns true exactly when it issues a
move or cast command, which is then the only call it makes (a left move or
cast, or a right cast); when it invokes the click handler of a region it
returns false. -/
theorem OnMouseButtonDown_true_iff_command (env : Env) (now : ℚ) (g : GameControls)
    (event : MouseEvent) :
    ((g.OnMouseButtonDown env now event).1 = true ↔
      ∃ c, c.isCommand = true ∧ (g.OnMouseButtonDown env now event).2.calls = g.calls ++ [c])
    ∧ ((∃ r ∈ g.actionableRegions, env.IsInRect r.rect event.X event.Y = true) →
        (g.OnMouseButtonDown env now event).1 = false) := by
  have hhit : (∃ r ∈ g.actionableRegions, env.IsInRect r.rect event.X event.Y = true) →
      (g.OnMouseButtonDown env now event).1 = false
        ∧ ¬ ∃ c, c.isCommand = true
            ∧ (g.OnMouseButtonDown env now event).2.calls = g.calls ++ [c] := by
    intro h
    obtain ⟨p, -, -, hloop⟩ := clickLoop_of_hit env g event.X event.Y g.actionableRegions h
    obtain ⟨⟨extra, hcalls, -⟩, -, -⟩ := onClickActionable_effect env g p.actionableTypeID
    have hres : g.OnMouseButtonDown env now event
        = (false, g.onClickActionable env p.actionableTypeID) := by
      simp [GameControls.OnMouseButtonDown, hloop]
    rw [hres]
    refine ⟨rfl, ?_⟩
    rintro ⟨c, hc, hcs⟩
    rw [show (false, g.onClickActionable env p.actionableTypeID).2.calls
      = (g.onClickActionable env p.actionableTypeID).calls from rfl, hcalls] at hcs
    have hcons := List.append_cancel_left hcs
    have hc' : c = Call.onClickActionable p.actionableTypeID := by
      have := List.head_eq_of_cons_eq hcons
      exact this.symm
    rw [hc'] at hc
    simp [Call.isCommand] at hc
  refine ⟨?_, fun h => (hhit h).1⟩
  by_cases h : ∃ r ∈ g.actionableRegions, env.IsInRect r.rect event.X event.Y = true
  · obtain ⟨h1, h2⟩ := hhit h
    constructor
    · intro ht
      rw [h1] at ht
      exact absurd ht (by decide)
    · intro hex
      exact absurd hex h2
  · have hmiss : ∀ r ∈ g.actionableRegions, env.IsInRect r.rect event.X event.Y = false := by
      intro r hr
      cases hr' : env.IsInRect r.rect event.X event.Y
      · rfl
      · exact absurd ⟨r, hr, hr'⟩ h
    have hloop := clickLoop_eq_none env g event.X event.Y g.actionableRegions hmiss
    simp only [GameControls.OnMouseButtonDown, hloop]
    split_ifs <;> simp [GameControls.call, Call.isCommand]

/-- Witness for C13 (amended): the left click in the world on the fresh
controller returns true and issues one command. -/
theorem OnMouseButtonDown_true_iff_command_witness :
    (freshControls.OnMouseButtonDown exampleEnv 100 leftClickInWorld).1 = true
    ∧ ∃ c, c.isCommand = true
        ∧ (freshControls.OnMouseButtonDown exampleEnv 100 leftClickInWorld).2.calls
            = freshControls.calls ++ [c] :=
  have hres : (freshControls.OnMouseButtonDown exampleEnv 100 leftClickInWorld).1 = true := by
    decide
  ⟨hres, (OnMouseButtonDown_true_iff_command exampleEnv 100 freshControls
    leftClickInWorld).1.mp hres⟩

/-- C14: `OnKeyRepeat` pans the camera target and returns true exactly when
free-camera mode is on and the key is Up, Down, Left or Right; the pan is
(0, s) for Down, (0, -s) for Up, (s, 0) for Right and (-s, 0) for Left, with
s = 16 under Shift and s = 8 otherwise; for every other key, and for every key
with free-camera off, nothing is called and the result is false. -/
theorem OnKeyRepeat_pans_camera (g : GameControls) (event : KeyEvent) :
    (g.FreeCam = true → event.Key = Key.KeyDown →
      g.OnKeyRepeat event =
        (true, { g with calls := g.calls ++
          [Call.MoveCameraTargetBy 0 (if event.Mod = KeyModShift then 16 else 8)] }))
    ∧ (g.FreeCam = true → event.Key = Key.KeyUp →
      g.OnKeyRepeat event =
        (true, { g with calls := g.calls ++
          [Call.MoveCameraTargetBy 0 (-(if event.Mod = KeyModShift then 16 else 8))] }))
    ∧ (g.FreeCam = true → event.Key = Key.KeyRight →
      g.OnKeyRepeat event =
        (true, { g with calls := g.calls ++
          [Call.MoveCameraTargetBy (if event.Mod = KeyModShift then 16 else 8) 0] }))
    ∧ (g.FreeCam = true → event.Key = Key.KeyLeft →
      g.OnKeyRepeat event =
        (true, { g with calls := g.calls ++
          [Call.MoveCameraTargetBy (-(if event.Mod = KeyModShift then 16 else 8)) 0] }))
    ∧ (¬ (g.FreeCam = true ∧ (event.Key = Key.KeyUp ∨ event.Key = Key.KeyDown
          ∨ event.Key = Key.KeyLeft ∨ event.Key = Key.KeyRight)) →
      g.OnKeyRepeat event = (false, g))
    ∧ ((g.OnKeyRepeat event).1 = true ↔
      (g.FreeCam = true ∧ (event.Key = Key.KeyUp ∨ event.Key = Key.KeyDown
          ∨ event.Key = Key.KeyLeft ∨ event.Key = Key.KeyRight))) := by
  have hs : (if event.Mod = KeyModShift then (8 * 2 : ℚ) else 8)
      = (if event.Mod = KeyModShift then 16 else 8) := by
    split_ifs <;> norm_num
  refine ⟨?_, ?_, ?_, ?_, ?_, ?_⟩
  · intro hf hk
    simp [GameControls.OnKeyRepeat, hf, hk, GameControls.call, hs]
  · intro hf hk
    simp [GameControls.OnKeyRepeat, hf, hk, GameControls.call, hs]
  · intro hf hk
    simp [GameControls.OnKeyRepeat, hf, hk, GameControls.call, hs]
  · intro hf hk
    simp [GameControls.OnKeyRepeat, hf, hk, GameControls.call, hs]
  · intro hno
    cases hf : g.FreeCam
    · simp [GameControls.OnKeyRepeat, hf]
    · have hk : ¬ (event.Key = Key.KeyUp ∨ event.Key = Key.KeyDown
          ∨ event.Key = Key.KeyLeft ∨ event.Key = Key.KeyRight) := fun hk => hno ⟨hf, hk⟩
      simp only [not_or] at hk
      simp [GameControls.OnKeyRepeat, hf, hk.1, hk.2.1, hk.2.2.1, hk.2.2.2]
  · cases hf : g.FreeCam
    · simp [GameControls.OnKeyRepeat, hf]
    · cases hk : event.Key <;> simp [GameControls.OnKeyRepeat, hf, hk]

/-- Witness for C14: in free-camera mode the Down key with Shift pans by
(0, 16). -/
theorem OnKeyRepeat_pans_camera_witness :
    freeCamControls.OnKeyRepeat shiftDownKeyEvent =
      (true, { freeCamControls with calls := [Call.MoveCameraTargetBy 0 16] }) := by
  have h := (OnKeyRepeat_pans_camera freeCamControls shiftDownKeyEvent).1 rfl rfl
  have e : shiftDownKeyEvent.Mod = KeyModShift := rfl
  rw [h, if_pos e]
  rfl

/-- No click handler makes a camera-target call. -/
theorem onClickActionable_no_camera (env : Env) (g : GameControls) (item : actionableType) :
    ∃ new, (g.onClickActionable env item).calls = g.calls ++ new
      ∧ ∀ c ∈ new, c.isSetCameraTarget = false := by
  cases item <;>
    simp only [GameControls.onClickActionable, actionMap, GameControls.call,
      GameControls.ToggleHpStats, GameControls.ToggleManaStats, GameControls.escapeMenuOpen,
      GameControls.updateLayout, GameControls.ViewportDefault, GameControls.ViewportToLeft,
      GameControls.ViewportToRight] <;>
    (try split_ifs) <;>
    simp [Call.isSetCameraTarget]

/-- C15 (as stated, refuted): in free-camera mode a left button-down that
issues a move command makes no camera-target call. -/
theorem button_down_does_not_recentre :
    freeCamControls.FreeCam = true
    ∧ (freeCamControls.OnMouseButtonDown exampleEnv 100 leftClickInWorld).2.calls
        = [Call.OnPlayerMove (53 / 10) (78 / 10)] := by
  have e1 : truncateFloat64 (exampleEnv.ScreenToWorld leftClickInWorld.X leftClickInWorld.Y).1
      = 53 / 10 := exampleEnv_truncated_world_point.1
  have e2 : truncateFloat64 (exampleEnv.ScreenToWorld leftClickInWorld.X leftClickInWorld.Y).2
      = 78 / 10 := exampleEnv_truncated_world_point.2
  have e3 : leftClickInWorld.Mod ≠ KeyModShift := by decide
  have h1 := OnMouseButtonDown_left_fires exampleEnv 100 freeCamControls leftClickInWorld
    (by decide) rfl (by decide) rfl
  rw [e1, e2, if_neg e3] at h1
  refine ⟨rfl, ?_⟩
  rw [h1]
  rfl

/-- C15 (amended): in free-camera mode every left button-repeat event that
issues a move or cast command follows it with one camera-target call, to the
camera position offset by (80, 60) tiles; a button-down event makes no
camera-target call, and neither does a right button-repeat event, in
free-camera mode or not. -/
theorem recentre_only_on_left_repeat (env : Env) (now : ℚ) (g : GameControls)
    (event : MouseEvent) :
    (g.FreeCam = true → event.Button = MouseButton.MouseButtonLeft →
      1 / 4 ≤ now - g.lastLeftBtnActionTime →
      g.isInActiveMenusRect env event.X event.Y = false → g.heroIsCasting = false →
      (g.OnMouseButtonRepeat env now event).2.calls = g.calls ++
        [if event.Mod = KeyModShift then
           Call.OnPlayerCast g.leftSkillID
             (truncateFloat64 (env.ScreenToWorld event.X event.Y).1)
             (truncateFloat64 (env.ScreenToWorld event.X event.Y).2)
         else
           Call.OnPlayerMove
             (truncateFloat64 (env.ScreenToWorld event.X event.Y).1)
             (truncateFloat64 (env.ScreenToWorld event.X event.Y).2),
         Call.SetCameraTarget 80 60 env.cameraPosition.1 env.cameraPosition.2])
    ∧ (∃ new, (g.OnMouseButtonDown env now event).2.calls = g.calls ++ new
        ∧ ∀ c ∈ new, c.isSetCameraTarget = false)
    ∧ (event.Button = MouseButton.MouseButtonRight →
        ∃ new, (g.OnMouseButtonRepeat env now event).2.calls = g.calls ++ new
          ∧ ∀ c ∈ new, c.isSetCameraTarget = false) := by
  refine ⟨?_, ?_, ?_⟩
  · intro hf hb ht hr hc
    have ht' : mouseBtnActionsThreshold ≤ now - g.lastLeftBtnActionTime := by
      simpa [mouseBtnActionsThreshold] using ht
    by_cases hm : event.Mod = KeyModShift <;>
      simp [GameControls.OnMouseButtonRepeat, hb, ht', hr, hc, hm, hf, GameControls.call] <;>
      norm_num
  · cases hloop : clickLoop env g event.X event.Y g.actionableRegions with
    | some g1 =>
      have hex : ∃ r ∈ g.actionableRegions, env.IsInRect r.rect event.X event.Y = true := by
        by_contra hno
        have hmiss : ∀ r ∈ g.actionableRegions,
            env.IsInRect r.rect event.X event.Y = false := by
          intro r hr
          cases hr' : env.IsInRect r.rect event.X event.Y
          · rfl
          · exact absurd ⟨r, hr, hr'⟩ hno
        rw [clickLoop_eq_none env g event.X event.Y g.actionableRegions hmiss] at hloop
        exact absurd hloop (by simp)
      obtain ⟨p, -, -, hp⟩ := clickLoop_of_hit env g event.X event.Y g.actionableRegions hex
      have hg1 : g1 = g.onClickActionable env p.actionableTypeID := by
        rw [hloop] at hp
        exact Option.some.inj hp
      have hres : (g.OnMouseButtonDown env now event).2 = g1 := by
        simp [GameControls.OnMouseButtonDown, hloop]
      rw [hres, hg1]
      exact onClickActionable_no_camera env g p.actionableTypeID
    | none =>
      simp only [GameControls.OnMouseButtonDown, hloop]
      split_ifs <;> simp [GameControls.call, Call.isSetCameraTarget]
  · intro hb
    simp only [GameControls.OnMouseButtonRepeat, hb]
    split_ifs <;> simp_all [GameControls.call, Call.isSetCameraTarget]

/-- Witness for C15 (amended): a left repeat event at time 100 in free-camera
mode issues the move and then sets the camera target. -/
theorem recentre_only_on_left_repeat_witness :
    (freeCamControls.OnMouseButtonRepeat exampleEnv 100 leftClickInWorld).2.calls =
      [Call.OnPlayerMove (53 / 10) (78 / 10), Call.SetCameraTarget 80 60 0 0] := by
  have hgate : (1 : ℚ) / 4 ≤ 100 - freeCamControls.lastLeftBtnActionTime := by
    norm_num [freeCamControls, freshControls, NewGameControls]
  have h := (recentre_only_on_left_repeat exampleEnv 100 freeCamControls leftClickInWorld).1
    rfl rfl hgate (by decide) rfl
  have e1 : truncateFloat64 (exampleEnv.ScreenToWorld leftClickInWorld.X leftClickInWorld.Y).1
      = 53 / 10 := exampleEnv_truncated_world_point.1
  have e2 : truncateFloat64 (exampleEnv.ScreenToWorld leftClickInWorld.X leftClickInWorld.Y).2
      = 78 / 10 := exampleEnv_truncated_world_point.2
  have e3 : leftClickInWorld.Mod ≠ KeyModShift := by decide
  rw [h, e1, e2, if_neg e3]
  rfl

/-- In the fixed registry the first region containing a point of the HP-globe
rectangle is the HP globe, for a containment test that holds only within the
rectangle's bounds. -/
theorem clickLoop_hpGlobe (env : Env) (g : GameControls) (x y : Int)
    (hregs : g.actionableRegions = actionableRegions)
    (hgeom : ∀ (r : Rectangle) (px py : Int), env.IsInRect r px py = true →
      r.Left ≤ px ∧ px ≤ r.Left + r.Width ∧ r.Top ≤ py ∧ py ≤ r.Top + r.Height)
    (hin : env.IsInRect ⟨30, 525, 80, 60⟩ x y = true) :
    clickLoop env g x y g.actionableRegions
      = some (g.onClickActionable env actionableType.hpGlobe) := by
  have hx := (hgeom _ _ _ hin).2.1
  have hout : ∀ r : Rectangle, 115 ≤ r.Left → env.IsInRect r x y = false := by
    intro r hl
    cases hr : env.IsInRect r x y
    · rfl
    · have := (hgeom _ _ _ hr).1
      simp only at hx
      omega
  have hpre : ∀ q ∈ actionableRegions.take 8, env.IsInRect q.rect x y = false := by
    intro q hq
    simp only [actionableRegions, List.take_succ_cons, List.take_zero, List.mem_cons,
      List.mem_singleton, List.not_mem_nil, or_false] at hq
    rcases hq with rfl | rfl | rfl | rfl | rfl | rfl | rfl | rfl <;>
      exact hout _ (by decide)
  have h := clickLoop_first_hit env g x y (actionableRegions.take 8)
    ⟨actionableType.hpGlobe, ⟨30, 525, 80, 60⟩⟩ (actionableRegions.drop 9) hpre hin
  rw [hregs]
  exact h

/-- Rectangles tested with inclusive bounds contain only points within their
bounds. -/
theorem exampleEnv_IsInRect_bounds (r : Rectangle) (px py : Int)
    (h : exampleEnv.IsInRect r px py = true) :
    r.Left ≤ px ∧ px ≤ r.Left + r.Width ∧ r.Top ≤ py ∧ py ≤ r.Top + r.Height := by
  simpa [exampleEnv, Rectangle.IsInRect] using h

/-- C16: for every point inside the HP-globe rectangle (30,525,80,60) and
every state over the fixed registry, with whatever button, one mouse
button-down flips the HP-stat visibility flag and leaves everything else but
the call record: the mana flag, every panel open flag and both last-action
times; a second such click restores the HP-stat visibility. -/
theorem click_on_hpGlobe_toggles (env : Env) (t1 t2 : ℚ) (g : GameControls)
    (e1 e2 : MouseEvent)
    (hregs : g.actionableRegions = actionableRegions)
    (hgeom : ∀ (r : Rectangle) (px py : Int), env.IsInRect r px py = true →
      r.Left ≤ px ∧ px ≤ r.Left + r.Width ∧ r.Top ≤ py ∧ py ≤ r.Top + r.Height)
    (hin1 : env.IsInRect ⟨30, 525, 80, 60⟩ e1.X e1.Y = true)
    (hin2 : env.IsInRect ⟨30, 525, 80, 60⟩ e2.X e2.Y = true) :
    (g.OnMouseButtonDown env t1 e1).2 =
      { g with
        hpStatsIsVisible := !g.hpStatsIsVisible,
        calls := g.calls ++
          [Call.onClickActionable actionableType.hpGlobe, Call.log "HP Globe Pressed"] }
    ∧ ((g.OnMouseButtonDown env t1 e1).2.OnMouseButtonDown env t2 e2).2.hpStatsIsVisible
        = g.hpStatsIsVisible
    ∧ (g.hpStatsIsVisible = false →
        (g.OnMouseButtonDown env t1 e1).2.hpStatsIsVisible = true
        ∧ ((g.OnMouseButtonDown env t1 e1).2.OnMouseButtonDown env t2 e2).2.hpStatsIsVisible
            = false) := by
  have hone : ∀ (t : ℚ) (s : GameControls) (e : MouseEvent),
      s.actionableRegions = actionableRegions →
      env.IsInRect ⟨30, 525, 80, 60⟩ e.X e.Y = true →
      (s.OnMouseButtonDown env t e).2 =
        { s with
          hpStatsIsVisible := !s.hpStatsIsVisible,
          calls := s.calls ++
            [Call.onClickActionable actionableType.hpGlobe, Call.log "HP Globe Pressed"] } := by
    intro t s e hs he
    have hloop := clickLoop_hpGlobe env s e.X e.Y hs hgeom he
    simp [GameControls.OnMouseButtonDown, hloop, GameControls.onClickActionable, actionMap,
      GameControls.call, GameControls.ToggleHpStats]
  have h1 := hone t1 g e1 hregs hin1
  have hregs1 : (g.OnMouseButtonDown env t1 e1).2.actionableRegions = actionableRegions := by
    rw [h1]; exact hregs
  have h2 := hone t2 _ e2 hregs1 hin2
  have hhp1 : (g.OnMouseButtonDown env t1 e1).2.hpStatsIsVisible = !g.hpStatsIsVisible := by
    rw [h1]
  have hhp2 : ((g.OnMouseButtonDown env t1 e1).2.OnMouseButtonDown env t2 e2).2.hpStatsIsVisible
      = g.hpStatsIsVisible := by
    rw [h2]
    simp [hhp1]
  refine ⟨h1, hhp2, fun hf => ⟨?_, ?_⟩⟩
  · rw [hhp1, hf]; rfl
  · rw [hhp2, hf]

/-- Witness for C16: two clicks on the HP globe of the fresh controller, the
second with the right button at the rectangle's far corner. -/
theorem click_on_hpGlobe_toggles_witness :
    (freshControls.OnMouseButtonDown exampleEnv 100 leftClickOnHpGlobe).2.hpStatsIsVisible = true
    ∧ ((freshControls.OnMouseButtonDown exampleEnv 100 leftClickOnHpGlobe).2.OnMouseButtonDown
        exampleEnv 100 rightClickOnHpGlobeCorner).2.hpStatsIsVisible = false :=
  (click_on_hpGlobe_toggles exampleEnv 100 100 freshControls leftClickOnHpGlobe
    rightClickOnHpGlobeCorner rfl exampleEnv_IsInRect_bounds (by decide) (by decide)).2.2 rfl

/-- C17 (as stated, refuted): the ids of the registry that have no entry in
the click action table are three, not two. -/
theorem ids_without_click_handler_not_two :
    ((actionableRegions.map fun r => r.actionableTypeID).filter
        fun item => (actionMap exampleEnv item).isNone).length = 3
    ∧ ((actionableRegions.map fun r => r.actionableTypeID).filter
        fun item => (actionMap exampleEnv item).isNone).length ≠ 2 := by
  decide

/-- C17 (amended): the registry holds 17 regions with 17 different action
ids; exactly three of the ids, `miniPanelAutomap`, `miniPanelMessageLog` and
`miniPanelQuestLog`, have no entry in the click action table and every other
id has one; clicking an id without an entry records the invocation and a log
line and changes nothing else. -/
theorem three_ids_without_click_handler (env : Env) (g : GameControls) :
    actionableRegions.length = 17
    ∧ (actionableRegions.map fun r => r.actionableTypeID).Nodup
    ∧ ((actionableRegions.map fun r => r.actionableTypeID).filter
        fun item => (actionMap env item).isNone)
        = [actionableType.miniPanelAutomap, actionableType.miniPanelMessageLog,
           actionableType.miniPanelQuestLog]
    ∧ (∀ item, (actionMap env item).isNone = true →
        g.onClickActionable env item =
          { g with calls := g.calls ++
              [Call.onClickActionable item,
               Call.log "Unrecognized actionableType being clicked"] }) := by
  refine ⟨rfl, by decide, rfl, ?_⟩
  intro item hnone
  cases item <;> simp [actionMap] at hnone <;>
    simp [GameControls.onClickActionable, actionMap, GameControls.call]

/-- Witness for C17 (amended): clicking `miniPanelAutomap` on the fresh
controller. -/
theorem three_ids_without_click_handler_witness :
    freshControls.onClickActionable exampleEnv actionableType.miniPanelAutomap =
      { freshControls with calls :=
          [Call.onClickActionable actionableType.miniPanelAutomap,
           Call.log "Unrecognized actionableType being clicked"] } :=
  (three_ids_without_click_handler exampleEnv freshControls).2.2.2
    actionableType.miniPanelAutomap rfl

/-- C18: `NewGameControls` fails, returning an error and no controller, for
every hero class that is not one of the seven known classes; for each of the
seven the class check succeeds with the inventory record key `<Class>2`, and
the controller is returned when the collaborators do not fail either. -/
theorem NewGameControls_hero_class (heroStateFactoryErr bindTerminalErr : Option String)
    (leftSkillID rightSkillID : Nat) :
    (∀ code : Nat, ∃ err,
      NewGameControlsFor (Hero.HeroOther code) heroStateFactoryErr bindTerminalErr
        leftSkillID rightSkillID = Except.error err)
    ∧ inventoryRecordKey Hero.HeroAssassin = Except.ok "Assassin2"
    ∧ inventoryRecordKey Hero.HeroAmazon = Except.ok "Amazon2"
    ∧ inventoryRecordKey Hero.HeroBarbarian = Except.ok "Barbarian2"
    ∧ inventoryRecordKey Hero.HeroDruid = Except.ok "Druid2"
    ∧ inventoryRecordKey Hero.HeroNecromancer = Except.ok "Necromancer2"
    ∧ inventoryRecordKey Hero.HeroPaladin = Except.ok "Paladin2"
    ∧ inventoryRecordKey Hero.HeroSorceress = Except.ok "Sorceress2"
    ∧ (∀ heroClass : Hero, (∀ code, heroClass ≠ Hero.HeroOther code) →
        NewGameControlsFor heroClass none none leftSkillID rightSkillID
          = Except.ok (NewGameControls leftSkillID rightSkillID)) := by
  refine ⟨fun code => ⟨_, rfl⟩, rfl, rfl, rfl, rfl, rfl, rfl, rfl, ?_⟩
  intro heroClass hknown
  cases heroClass with
  | HeroOther code => exact absurd rfl (hknown code)
  | _ => rfl

/-- Witness for C18: class code 0 is rejected; a paladin gets a controller. -/
theorem NewGameControls_hero_class_witness :
    (∃ err, NewGameControlsFor (Hero.HeroOther 0) none none 7 9 = Except.error err)
    ∧ NewGameControlsFor Hero.HeroPaladin none none 7 9 = Except.ok (NewGameControls 7 9) :=
  have h := NewGameControls_hero_class none none 7 9
  ⟨h.1 0, h.2.2.2.2.2.2.2.2 Hero.HeroPaladin (fun _ hc => Hero.noConfusion hc)⟩

/-- With a skill id that has no record, whatever the skill table and the
state: the two set-skill commands panic and `learnByID` returns with one more
terminal error line and nothing else changed. -/
theorem commands_on_missing_record (senv : SkillEnv) (s : CommandState) (id : Int)
    (hmissing : senv.Details id = none) :
    setLeftSkill senv s id = Outcome.panicked "nil pointer dereference"
    ∧ setRightSkill senv s id = Outcome.panicked "nil pointer dereference"
    ∧ learnByID senv s id
        = Outcome.returned { s with termErrors := s.termErrors ++
            ["cannot find a skill record for ID: " ++ toString id] } := by
  simp [setLeftSkill, setRightSkill, learnByID, hmissing]

/-- C19 (the code at the failing input): with a skill id that has no record,
`setleftskill` and `setrightskill` read a field of the nil record and panic;
`learnskillid` tests the record first, reports the error and changes nothing
else. -/
theorem set_skill_commands_panic_on_missing_record :
    exampleSkillEnv.Details 999 = none
    ∧ setLeftSkill exampleSkillEnv exampleCommandState 999
        = Outcome.panicked "nil pointer dereference"
    ∧ setRightSkill exampleSkillEnv exampleCommandState 999
        = Outcome.panicked "nil pointer dereference"
    ∧ learnByID exampleSkillEnv exampleCommandState 999
        = Outcome.returned { exampleCommandState with
            termErrors := ["cannot find a skill record for ID: 999"] } := by
  decide

/-- Within the 64-bit range the result exceeds `n` in absolute value by at most
the rounding error of the product, and differs from `n` by less than 1/10 and
that error. -/
theorem truncateFloat64_tight (n : ℚ)
    (h : -2 ^ 63 ≤ roundFloat64 (n * 10) ∧ roundFloat64 (n * 10) < 2 ^ 63) :
    |truncateFloat64 n| ≤ |n| * (1 + 2 ^ (-53 : ℤ))
    ∧ |n - truncateFloat64 n| < 1 / 10 + |n| * 2 ^ (-53 : ℤ) := by
  have hval := truncateFloat64_in_range n h
  have herr := roundFloat64_error (n * 10)
  have hb := truncTowardZero_bounds (roundFloat64 (n * 10))
  have habs10 : |n * 10| = |n| * 10 := by rw [abs_mul]; norm_num
  have h10 : |(10 : ℚ)| = 10 := by norm_num
  have he : (0 : ℚ) < 2 ^ (-53 : ℤ) := by positivity
  have hn0 : 0 ≤ |n| := abs_nonneg n
  rw [habs10] at herr
  have hp := abs_le.mp herr
  have hpabs : |roundFloat64 (n * 10)| ≤ |n| * 10 + |n| * 10 * 2 ^ (-53 : ℤ) := by
    have := abs_sub_abs_le_abs_sub (roundFloat64 (n * 10)) (n * 10)
    rw [habs10] at this
    linarith
  have hi : |(truncTowardZero (roundFloat64 (n * 10)) : ℚ)| ≤ |roundFloat64 (n * 10)| := hb.1
  have hd := abs_lt.mp hb.2.1
  constructor
  · rw [hval, abs_div, h10, div_le_iff₀ (by norm_num)]
    generalize (2 : ℚ) ^ (-53 : ℤ) = e at *
    generalize |n| = a at *
    linarith
  · rw [hval, abs_lt]
    generalize (2 : ℚ) ^ (-53 : ℤ) = e at *
    generalize |n| = a at *
    constructor <;> linarith [hd.1, hd.2, hp.1, hp.2]

/-- Rounding a value that obeys the tight bounds to a float64, as the final
quotient of the program is, keeps the sign and the bounds with the slack
`2 ^ -51`. -/
theorem roundFloat64_keeps_bounds (n q : ℚ)
    (h1 : |q| ≤ |n| * (1 + 2 ^ (-53 : ℤ)))
    (h2 : |n - q| < 1 / 10 + |n| * 2 ^ (-53 : ℤ)) :
    |roundFloat64 q| ≤ |n| * (1 + 2 ^ (-51 : ℤ))
    ∧ |n - roundFloat64 q| < 1 / 10 + |n| * 2 ^ (-51 : ℤ) := by
  have herr := roundFloat64_error q
  have he51 : (2 : ℚ) ^ (-51 : ℤ) = 4 * 2 ^ (-53 : ℤ) := by norm_num [zpow_neg]
  have he0 : (0 : ℚ) ≤ 2 ^ (-53 : ℤ) := by positivity
  have he1 : (2 : ℚ) ^ (-53 : ℤ) ≤ 1 := by norm_num [zpow_neg]
  have hn0 : 0 ≤ |n| := abs_nonneg n
  have hq0 : 0 ≤ |q| := abs_nonneg q
  rw [he51]
  have habs := abs_sub_abs_le_abs_sub (roundFloat64 q) q
  have htri := abs_sub_le n q (roundFloat64 q)
  have hsym : |q - roundFloat64 q| = |roundFloat64 q - q| := abs_sub_comm _ _
  generalize (2 : ℚ) ^ (-53 : ℤ) = e at *
  generalize |n| = a at *
  generalize |q| = b at *
  have hbe : b * e ≤ a * (1 + e) * e := mul_le_mul_of_nonneg_right h1 he0
  have hae : 0 ≤ a * e := mul_nonneg hn0 he0
  have haee : a * e * e ≤ a * e := mul_le_of_le_one_right hae he1
  constructor
  · nlinarith
  · nlinarith

/-- C20 (amended): for every `n` whose rounded product `10 * n` lies within the
64-bit integer range, `truncateFloat64 n` is the rounded product truncated
toward zero and divided by ten; the rounded product is within relative error
`2 ^ -53` of the exact product; the result is an integer multiple of 1/10,
is non-negative when `n` is and non-positive when `n` is, exceeds `n` in
absolute value by at most the relative error `2 ^ -51`, differs from `n` by
less than `1/10 + |n| * 2 ^ -51`, and is idempotent;
`truncateFloat64 5.3 = 5.3` and `truncateFloat64 7.8 = 7.8`. When the product
is a float64, so that no rounding takes place, the result is `trunc(10 * n) / 10`,
is no larger than `n` in absolute value and differs from `n` by less than 1/10.
The float64 nearest to the result, which a rounded final quotient yields, has
the same sign and obeys the same two bounds. -/
theorem truncateFloat64_rounded_spec (n : ℚ)
    (h : -2 ^ 63 ≤ roundFloat64 (n * 10) ∧ roundFloat64 (n * 10) < 2 ^ 63) :
    truncateFloat64 n = (truncTowardZero (roundFloat64 (n * 10)) : ℚ) / 10
    ∧ |roundFloat64 (n * 10) - n * 10| ≤ |n * 10| * 2 ^ (-53 : ℤ)
    ∧ (∃ k : Int, truncateFloat64 n = (k : ℚ) / 10)
    ∧ (0 ≤ n → 0 ≤ truncateFloat64 n)
    ∧ (n ≤ 0 → truncateFloat64 n ≤ 0)
    ∧ |truncateFloat64 n| ≤ |n| * (1 + 2 ^ (-51 : ℤ))
    ∧ |n - truncateFloat64 n| < 1 / 10 + |n| * 2 ^ (-51 : ℤ)
    ∧ truncateFloat64 (truncateFloat64 n) = truncateFloat64 n
    ∧ truncateFloat64 (53 / 10) = 53 / 10
    ∧ truncateFloat64 (78 / 10) = 78 / 10
    ∧ (roundFloat64 (n * 10) = n * 10 →
        truncateFloat64 n = (truncTowardZero (10 * n) : ℚ) / 10
        ∧ |truncateFloat64 n| ≤ |n|
        ∧ |n - truncateFloat64 n| < 1 / 10)
    ∧ (0 ≤ n → 0 ≤ roundFloat64 (truncateFloat64 n))
    ∧ (n ≤ 0 → roundFloat64 (truncateFloat64 n) ≤ 0)
    ∧ |roundFloat64 (truncateFloat64 n)| ≤ |n| * (1 + 2 ^ (-51 : ℤ))
    ∧ |n - roundFloat64 (truncateFloat64 n)| < 1 / 10 + |n| * 2 ^ (-51 : ℤ) := by
  have hval := truncateFloat64_in_range n h
  have hexact : roundFloat64 (n * 10) = n * 10 →
      truncateFloat64 n = (truncTowardZero (10 * n) : ℚ) / 10
      ∧ |truncateFloat64 n| ≤ |n|
      ∧ |n - truncateFloat64 n| < 1 / 10 := by
    intro he
    have hb2 := truncTowardZero_bounds (n * 10)
    have hv2 : truncateFloat64 n = (truncTowardZero (n * 10) : ℚ) / 10 := by rw [hval, he]
    have h10 : |(10 : ℚ)| = 10 := by norm_num
    have h1 := hb2.1
    have h2 := abs_lt.mp hb2.2.1
    rw [abs_mul, h10] at h1
    refine ⟨by rw [hv2, mul_comm], ?_, ?_⟩
    · rw [hv2, abs_div, h10, div_le_iff₀ (by norm_num)]
      exact h1
    · rw [hv2, abs_lt]
      constructor <;> linarith [h2.1, h2.2]
  have hb := truncTowardZero_bounds (roundFloat64 (n * 10))
  have h53 : truncateFloat64 (53 / 10) = 53 / 10 := by
    have := truncateFloat64_of_tenths 53 (by norm_num)
    norm_num at this ⊢
    exact this
  have h78 : truncateFloat64 (78 / 10) = 78 / 10 := by
    have := truncateFloat64_of_tenths 78 (by norm_num)
    norm_num at this ⊢
    exact this
  have hpos : 0 ≤ n → 0 ≤ truncateFloat64 n := by
    intro hn
    have : 0 ≤ truncTowardZero (roundFloat64 (n * 10)) :=
      hb.2.2.1 (roundFloat64_nonneg _ (by linarith))
    have hq : (0 : ℚ) ≤ (truncTowardZero (roundFloat64 (n * 10)) : ℚ) := by exact_mod_cast this
    rw [hval]
    linarith
  have hneg : n ≤ 0 → truncateFloat64 n ≤ 0 := by
    intro hn
    have : truncTowardZero (roundFloat64 (n * 10)) ≤ 0 :=
      hb.2.2.2 (roundFloat64_nonpos _ (by linarith))
    have hq : (truncTowardZero (roundFloat64 (n * 10)) : ℚ) ≤ 0 := by exact_mod_cast this
    rw [hval]
    linarith
  have htight := truncateFloat64_tight n h
  have hround := roundFloat64_keeps_bounds n (truncateFloat64 n) htight.1 htight.2
  have he51 : (2 : ℚ) ^ (-51 : ℤ) = 4 * 2 ^ (-53 : ℤ) := by norm_num [zpow_neg]
  have hslack : 0 ≤ |n| * 2 ^ (-53 : ℤ) := mul_nonneg (abs_nonneg n) (by positivity)
  have key1 : ∀ a e x : ℚ, 0 ≤ a * e → x ≤ a * (1 + e) → x ≤ a * (1 + 4 * e) := by
    intro a e x h1 h2
    linarith
  have key2 : ∀ a e x : ℚ, 0 ≤ a * e → x < 1 / 10 + a * e → x < 1 / 10 + a * (4 * e) := by
    intro a e x h1 h2
    linarith
  have hweak1 : |truncateFloat64 n| ≤ |n| * (1 + 2 ^ (-51 : ℤ)) := by
    rw [he51]
    exact key1 _ _ _ hslack htight.1
  have hweak2 : |n - truncateFloat64 n| < 1 / 10 + |n| * 2 ^ (-51 : ℤ) := by
    rw [he51]
    exact key2 _ _ _ hslack htight.2
  exact ⟨hval, roundFloat64_error (n * 10), ⟨_, hval⟩, hpos, hneg, hweak1, hweak2,
    truncateFloat64_idem n, h53, h78, hexact,
    fun hn => roundFloat64_nonneg _ (hpos hn), fun hn => roundFloat64_nonpos _ (hneg hn),
    hround.1, hround.2⟩

/-- Witness for C20: `-0.53` has its rounded product `-5.3` within range, is
truncated toward zero to `-0.5`, and the bounds hold there. -/
theorem truncateFloat64_rounded_spec_witness :
    (-2 ^ 63 ≤ roundFloat64 (-53 / 100 * 10) ∧ roundFloat64 (-53 / 100 * 10) < 2 ^ 63)
    ∧ truncateFloat64 (-53 / 100) = -5 / 10
    ∧ |truncateFloat64 (-53 / 100)| ≤ |(-53 / 100 : ℚ)| * (1 + 2 ^ (-51 : ℤ))
    ∧ |(-53 / 100 : ℚ) - truncateFloat64 (-53 / 100)| < 1 / 10 + |(-53 / 100 : ℚ)| * 2 ^ (-51 : ℤ) := by
  have hb := roundFloat64_between (-53 / 100 * 10)
  have habs : |(-53 / 100 * 10 : ℚ)| = 53 / 10 := by
    rw [abs_of_nonpos (by norm_num)]; norm_num
  rw [habs] at hb
  have hsmall : (53 / 10 : ℚ) * 2 ^ (-53 : ℤ) < 1 / 100 := by norm_num [zpow_neg]
  have hr : -2 ^ 63 ≤ roundFloat64 (-53 / 100 * 10) ∧ roundFloat64 (-53 / 100 * 10) < 2 ^ 63 := by
    constructor
    · linarith [hb.1]
    · linarith [hb.2]
  have h := truncateFloat64_rounded_spec (-53 / 100) hr
  have hc : truncTowardZero (roundFloat64 (-53 / 100 * 10)) = -5 := by
    have hneg : roundFloat64 (-53 / 100 * 10) ≤ 0 := by linarith [hb.2]
    rw [← tdiv_eq_truncTowardZero, tdiv_of_nonpos _ hneg, Int.ceil_eq_iff]
    constructor
    · push_cast; linarith [hb.1]
    · push_cast; linarith [hb.2]
  refine ⟨hr, ?_, h.2.2.2.2.2.1, h.2.2.2.2.2.2.1⟩
  rw [h.1, hc]
  norm_num

/-- C20 counterexample: the float64 product of `0.8999999999999999` and ten
rounds up to 9, so the result `0.9` exceeds the input and is not the exact
truncation `0.8`; and `9.3e17`, which is within the integer range, has the
product `9.3e18` outside it, so the conversion yields the minimum integer and
the result is negative. -/
theorem truncateFloat64_not_exact_truncation :
    truncateFloat64 (8106479329266892 / 2 ^ 53) = 9 / 10
    ∧ (truncTowardZero (10 * (8106479329266892 / 2 ^ 53)) : ℚ) / 10 = 8 / 10
    ∧ ¬ |truncateFloat64 (8106479329266892 / 2 ^ 53)| ≤ |(8106479329266892 / 2 ^ 53 : ℚ)|
    ∧ (930000000000000000 : ℚ) < 2 ^ 63
    ∧ truncateFloat64 930000000000000000 = -2 ^ 63 / 10
    ∧ ¬ (0 ≤ (930000000000000000 : ℚ) → 0 ≤ truncateFloat64 930000000000000000) := by
  have hx : (8106479329266892 / 2 ^ 53 : ℚ) * 10 = 9 - 1 / 2 ^ 50 := by norm_num
  have hfl : roundFloat64 (9 - 1 / 2 ^ 50) = 9 := by
    have h1 : (2 : ℚ) ^ (3 : ℤ) ≤ |(9 - 1 / 2 ^ 50 : ℚ)| := by
      rw [abs_of_pos (by norm_num)]; norm_num
    have h2 : |(9 - 1 / 2 ^ 50 : ℚ)| < 2 ^ ((3 : ℤ) + 1) := by
      rw [abs_of_pos (by norm_num)]; norm_num
    rw [roundFloat64_of_exponent _ 3 h1 h2]
    have hy : (9 - 1 / 2 ^ 50 : ℚ) / 2 ^ ((3 : ℤ) - 52)
        = ((5066549580791807 : ℤ) : ℚ) + 1 / 2 := by
      norm_num [zpow_neg]
    rw [hy, roundTiesEven_half_odd _ (by decide)]
    norm_num [zpow_neg]
  have ha : truncateFloat64 (8106479329266892 / 2 ^ 53) = 9 / 10 := by
    unfold truncateFloat64
    rw [hx, hfl]
    have := goInt_intCast 9 (by norm_num)
    norm_num at this
    rw [this]
    norm_num
  have hy : (930000000000000000 : ℚ) * 10 = ((70953369140625 : ℤ) : ℚ) * 2 ^ (17 : ℤ) := by
    norm_num
  have hfl2 : roundFloat64 ((930000000000000000 : ℚ) * 10) = 9300000000000000000 := by
    rw [hy, roundFloat64_of_significand _ _ (by norm_num)]
    norm_num
  have hb : truncateFloat64 930000000000000000 = -2 ^ 63 / 10 := by
    unfold truncateFloat64
    rw [hfl2, goInt_out_of_range _ (by norm_num)]
    norm_num
  refine ⟨ha, ?_, ?_, by norm_num, hb, ?_⟩
  · have e : (10 * (8106479329266892 / 2 ^ 53) : ℚ) = 9 - 1 / 2 ^ 50 := by norm_num
    have hf : truncTowardZero (9 - 1 / 2 ^ 50 : ℚ) = 8 := by
      unfold truncTowardZero
      rw [if_pos (by norm_num), Int.floor_eq_iff]
      norm_num
    rw [e, hf]
    norm_num
  · rw [ha]
    rw [abs_of_pos (by norm_num), abs_of_pos (by norm_num)]
    norm_num
  · rw [hb]
    norm_num

/-- The hover loop records one hover invocation for each region containing the
point, in registration order, and changes nothing else. -/
theorem hoverLoop_eq (env : Env) (mx my : Int) (rs : List actionableRegion)
    (g : GameControls) :
    hoverLoop env mx my g rs =
      { g with calls := (g.calls ++
          List.map (fun r => Call.onHoverActionable r.actionableTypeID)
            (List.filter (fun r => env.IsInRect r.rect mx my) rs)) } := by
  induction rs generalizing g with
  | nil => simp [hoverLoop]
  | cons r rest ih =>
    by_cases hr : env.IsInRect r.rect mx my = true
    · simp [hoverLoop, hr, ih, GameControls.onHoverActionable, GameControls.call]
    · simp [hoverLoop, hr, ih]

/-- The state after a mouse-move event. -/
theorem OnMouseMove_effect_eq (env : Env) (g : GameControls) (x y : Int) :
    (g.OnMouseMove env x y).2 =
      { g with
        lastMouseX := x, lastMouseY := y,
        inventoryLastMouseX := x, inventoryLastMouseY := y,
        calls := (g.calls ++
          List.map (fun r => Call.onHoverActionable r.actionableTypeID)
            (List.filter (fun r => env.IsInRect r.rect x y) g.actionableRegions)
          ++ [Call.hudOnMouseMove x y]) } := by
  simp [GameControls.OnMouseMove, hoverLoop_eq, GameControls.call]

/-- C21: a mouse-move event at (x, y) returns false; the controller's and the
inventory's last cursor position become (x, y); the hover handler is invoked
once for each registered region containing the point, in registration order,
so as often as there are such regions; then the move is forwarded to the HUD
once; nothing else changes. -/
theorem OnMouseMove_effect (env : Env) (g : GameControls) (x y : Int) :
    g.OnMouseMove env x y =
      (false, { g with
        lastMouseX := x, lastMouseY := y,
        inventoryLastMouseX := x, inventoryLastMouseY := y,
        calls := (g.calls ++
          List.map (fun r => Call.onHoverActionable r.actionableTypeID)
            (List.filter (fun r => env.IsInRect r.rect x y) g.actionableRegions)
          ++ [Call.hudOnMouseMove x y]) })
    ∧ (List.map (fun r => Call.onHoverActionable r.actionableTypeID)
          (List.filter (fun r => env.IsInRect r.rect x y) g.actionableRegions)).length
        = List.countP (fun r => env.IsInRect r.rect x y) g.actionableRegions := by
  constructor
  · simp [GameControls.OnMouseMove, hoverLoop_eq, GameControls.call]
  · rw [List.length_map, List.countP_eq_length_filter]

/-- `updateLayout` leaves both last-action times. -/
theorem updateLayout_times (g : GameControls) :
    g.updateLayout.lastLeftBtnActionTime = g.lastLeftBtnActionTime
    ∧ g.updateLayout.lastRightBtnActionTime = g.lastRightBtnActionTime := by
  simp only [GameControls.updateLayout, GameControls.ViewportDefault, GameControls.ViewportToLeft,
    GameControls.ViewportToRight]
  split_ifs <;> exact ⟨rfl, rfl⟩

/-- The key handlers leave both last-action times. -/
theorem key_handlers_times (env : Env) (g : GameControls) (event : KeyEvent) :
    ((g.OnKeyDown env event).2.lastLeftBtnActionTime = g.lastLeftBtnActionTime
      ∧ (g.OnKeyDown env event).2.lastRightBtnActionTime = g.lastRightBtnActionTime)
    ∧ ((g.OnKeyUp env event).2.lastLeftBtnActionTime = g.lastLeftBtnActionTime
      ∧ (g.OnKeyUp env event).2.lastRightBtnActionTime = g.lastRightBtnActionTime)
    ∧ ((g.OnKeyRepeat event).2.lastLeftBtnActionTime = g.lastLeftBtnActionTime
      ∧ (g.OnKeyRepeat event).2.lastRightBtnActionTime = g.lastRightBtnActionTime) := by
  refine ⟨?_, ?_, ?_⟩
  · by_cases hk : event.Key = Key.KeyEscape
    · rcases g with ⟨regs, ss, inv, st, stats, help, mini, esc, hp, mana, casting, ls, rs, mx,
        my, imx, imy, tl, tr, fc, vp, calls⟩
      simp only [GameControls.OnKeyDown, hk, if_true]
      cases ss <;> cases inv <;> cases st <;> cases stats <;> cases help <;> cases esc <;>
        simp [GameControls.onEscKey, GameControls.updateLayout, GameControls.isLeftPanelOpen,
          GameControls.isRightPanelOpen, GameControls.ViewportDefault,
          GameControls.escapeMenuOnEscKey, GameControls.escapeMenuOpen]
    · simp only [GameControls.OnKeyDown, hk, if_false]
      split <;>
        first
        | exact ⟨rfl, rfl⟩
        | exact ⟨(updateLayout_times _).1, (updateLayout_times _).2⟩
  · simp only [GameControls.OnKeyUp]
    split <;> exact ⟨rfl, rfl⟩
  · simp only [GameControls.OnKeyRepeat]
    split_ifs <;> exact ⟨rfl, rfl⟩

/-- C22 (as stated, refuted): with the skill-select menu open, a left click at
time 100 outside every region is consumed by the menu: no move or cast is
issued, yet the left last-action time changes from 0 to 100. -/
theorem skill_select_click_stamps_left_time :
    skillSelectOpen.lastLeftBtnActionTime = 0
    ∧ (skillSelectOpen.OnMouseButtonDown exampleEnv 100 leftClickInWorld).2.calls
        = [Call.skillSelectMenuHandleClick 530 390]
    ∧ (skillSelectOpen.OnMouseButtonDown exampleEnv 100 leftClickInWorld).2.lastLeftBtnActionTime
        = 100
    ∧ (skillSelectOpen.OnMouseButtonDown exampleEnv 100 leftClickInWorld).2.lastLeftBtnActionTime
        ≠ skillSelectOpen.lastLeftBtnActionTime := by
  have hloop : clickLoop exampleEnv skillSelectOpen leftClickInWorld.X leftClickInWorld.Y
      skillSelectOpen.actionableRegions = none :=
    clickLoop_eq_none _ _ _ _ _ (by decide)
  have hres : (skillSelectOpen.OnMouseButtonDown exampleEnv 100 leftClickInWorld).2 =
      { skillSelectOpen with
        lastLeftBtnActionTime := 100,
        skillSelectMenuIsOpen := false,
        calls := [Call.skillSelectMenuHandleClick 530 390] } := by
    simp [GameControls.OnMouseButtonDown, hloop]
    rfl
  refine ⟨rfl, ?_, ?_, ?_⟩
  · rw [hres]
  · rw [hres]
  · rw [hres]
    norm_num [skillSelectOpen, freshControls, NewGameControls]

/-- How a mouse button-down may change the last-action times. -/
theorem OnMouseButtonDown_times (env : Env) (now : ℚ) (g : GameControls) (event : MouseEvent) :
    ((g.OnMouseButtonDown env now event).2.lastLeftBtnActionTime = g.lastLeftBtnActionTime
      ∨ (event.Button = MouseButton.MouseButtonLeft
          ∧ (g.OnMouseButtonDown env now event).2.lastLeftBtnActionTime = now
          ∧ ((∃ c, c.isCommand = true
                ∧ (g.OnMouseButtonDown env now event).2.calls = g.calls ++ [c])
            ∨ (g.skillSelectMenuIsOpen = true
                ∧ (g.OnMouseButtonDown env now event).2.calls
                    = g.calls ++ [Call.skillSelectMenuHandleClick event.X event.Y]))))
    ∧ ((g.OnMouseButtonDown env now event).2.lastRightBtnActionTime
          = g.lastRightBtnActionTime
      ∨ (event.Button = MouseButton.MouseButtonRight
          ∧ (g.OnMouseButtonDown env now event).2.lastRightBtnActionTime = now
          ∧ ∃ c, c.isCommand = true
              ∧ (g.OnMouseButtonDown env now event).2.calls = g.calls ++ [c])) := by
  cases hloop : clickLoop env g event.X event.Y g.actionableRegions with
  | some g1 =>
    have hex : ∃ r ∈ g.actionableRegions, env.IsInRect r.rect event.X event.Y = true := by
      by_contra hno
      have hmiss : ∀ r ∈ g.actionableRegions,
          env.IsInRect r.rect event.X event.Y = false := by
        intro r hr
        cases hr' : env.IsInRect r.rect event.X event.Y
        · rfl
        · exact absurd ⟨r, hr, hr'⟩ hno
      rw [clickLoop_eq_none env g event.X event.Y g.actionableRegions hmiss] at hloop
      exact absurd hloop (by simp)
    obtain ⟨p, -, -, hp⟩ := clickLoop_of_hit env g event.X event.Y g.actionableRegions hex
    have hg1 : g1 = g.onClickActionable env p.actionableTypeID := by
      rw [hloop] at hp
      exact Option.some.inj hp
    have hres : (g.OnMouseButtonDown env now event).2 = g1 := by
      simp [GameControls.OnMouseButtonDown, hloop]
    obtain ⟨-, hl, hr⟩ := onClickActionable_effect env g p.actionableTypeID
    rw [hres, hg1]
    exact ⟨Or.inl hl, Or.inl hr⟩
  | none =>
    simp only [GameControls.OnMouseButtonDown, hloop]
    split_ifs <;> simp_all [GameControls.call, Call.isCommand]

/-- How a mouse button-repeat may change the last-action times. -/
theorem OnMouseButtonRepeat_times (env : Env) (now : ℚ) (g : GameControls)
    (event : MouseEvent) :
    ((g.OnMouseButtonRepeat env now event).2.lastLeftBtnActionTime = g.lastLeftBtnActionTime
      ∨ (event.Button = MouseButton.MouseButtonLeft
          ∧ (g.OnMouseButtonRepeat env now event).2.lastLeftBtnActionTime = now
          ∧ ∃ c rest, c.isCommand = true
              ∧ (g.OnMouseButtonRepeat env now event).2.calls = g.calls ++ c :: rest))
    ∧ ((g.OnMouseButtonRepeat env now event).2.lastRightBtnActionTime
          = g.lastRightBtnActionTime
      ∨ (event.Button = MouseButton.MouseButtonRight
          ∧ (g.OnMouseButtonRepeat env now event).2.lastRightBtnActionTime = now
          ∧ ∃ c, c.isCommand = true
              ∧ (g.OnMouseButtonRepeat env now event).2.calls = g.calls ++ [c])) := by
  simp only [GameControls.OnMouseButtonRepeat]
  split_ifs <;> simp_all [GameControls.call, Call.isCommand]

/-- C22 (amended): the last-action times change only as follows. In a mouse
button-down the left time changes only to now, for the left button, either
with exactly one move or cast command issued or with the click consumed by the
open skill-select menu, which issues no command; the right time changes only
to now, for the right button, with exactly one cast issued. In a mouse
button-repeat a time changes only to now, for its own button, with a move or
cast command issued. The key handlers, the mouse-move handler and the click
handlers leave both times. -/
theorem last_action_times_frame (env : Env) (now : ℚ) (g : GameControls) :
    (∀ event : MouseEvent,
      ((g.OnMouseButtonDown env now event).2.lastLeftBtnActionTime = g.lastLeftBtnActionTime
        ∨ (event.Button = MouseButton.MouseButtonLeft
            ∧ (g.OnMouseButtonDown env now event).2.lastLeftBtnActionTime = now
            ∧ ((∃ c, c.isCommand = true
                  ∧ (g.OnMouseButtonDown env now event).2.calls = g.calls ++ [c])
              ∨ (g.skillSelectMenuIsOpen = true
                  ∧ (g.OnMouseButtonDown env now event).2.calls
                      = g.calls ++ [Call.skillSelectMenuHandleClick event.X event.Y]))))
      ∧ ((g.OnMouseButtonDown env now event).2.lastRightBtnActionTime
            = g.lastRightBtnActionTime
        ∨ (event.Button = MouseButton.MouseButtonRight
            ∧ (g.OnMouseButtonDown env now event).2.lastRightBtnActionTime = now
            ∧ ∃ c, c.isCommand = true
                ∧ (g.OnMouseButtonDown env now event).2.calls = g.calls ++ [c])))
    ∧ (∀ event : MouseEvent,
      ((g.OnMouseButtonRepeat env now event).2.lastLeftBtnActionTime = g.lastLeftBtnActionTime
        ∨ (event.Button = MouseButton.MouseButtonLeft
            ∧ (g.OnMouseButtonRepeat env now event).2.lastLeftBtnActionTime = now
            ∧ ∃ c rest, c.isCommand = true
                ∧ (g.OnMouseButtonRepeat env now event).2.calls = g.calls ++ c :: rest))
      ∧ ((g.OnMouseButtonRepeat env now event).2.lastRightBtnActionTime
            = g.lastRightBtnActionTime
        ∨ (event.Button = MouseButton.MouseButtonRight
            ∧ (g.OnMouseButtonRepeat env now event).2.lastRightBtnActionTime = now
            ∧ ∃ c, c.isCommand = true
                ∧ (g.OnMouseButtonRepeat env now event).2.calls = g.calls ++ [c])))
    ∧ (∀ event : KeyEvent,
      (g.OnKeyDown env event).2.lastLeftBtnActionTime = g.lastLeftBtnActionTime
      ∧ (g.OnKeyDown env event).2.lastRightBtnActionTime = g.lastRightBtnActionTime
      ∧ (g.OnKeyUp env event).2.lastLeftBtnActionTime = g.lastLeftBtnActionTime
      ∧ (g.OnKeyUp env event).2.lastRightBtnActionTime = g.lastRightBtnActionTime
      ∧ (g.OnKeyRepeat event).2.lastLeftBtnActionTime = g.lastLeftBtnActionTime
      ∧ (g.OnKeyRepeat event).2.lastRightBtnActionTime = g.lastRightBtnActionTime)
    ∧ (∀ x y : Int,
      (g.OnMouseMove env x y).2.lastLeftBtnActionTime = g.lastLeftBtnActionTime
      ∧ (g.OnMouseMove env x y).2.lastRightBtnActionTime = g.lastRightBtnActionTime)
    ∧ (∀ item : actionableType,
      (g.onClickActionable env item).lastLeftBtnActionTime = g.lastLeftBtnActionTime
      ∧ (g.onClickActionable env item).lastRightBtnActionTime = g.lastRightBtnActionTime) := by
  refine ⟨OnMouseButtonDown_times env now g, OnMouseButtonRepeat_times env now g, ?_, ?_, ?_⟩
  · intro event
    obtain ⟨⟨h1, h2⟩, ⟨h3, h4⟩, h5, h6⟩ := key_handlers_times env g event
    exact ⟨h1, h2, h3, h4, h5, h6⟩
  · intro x y
    rw [(OnMouseMove_effect_eq env g x y)]
    exact ⟨rfl, rfl⟩
  · intro item
    obtain ⟨-, hl, hr⟩ := onClickActionable_effect env g item
    exact ⟨hl, hr⟩

/-- Witness for C22 (amended): the left click consumed by the open skill-select
menu on the fresh controller. -/
theorem last_action_times_frame_witness :
    (skillSelectOpen.OnMouseButtonDown exampleEnv 100 leftClickInWorld).2.lastRightBtnActionTime
      = skillSelectOpen.lastRightBtnActionTime :=
  ((last_action_times_frame exampleEnv 100 skillSelectOpen).1 leftClickInWorld).2.elim id
    (fun h => absurd h.1 (by decide))

/-- After `onEscKey` none of the five panels is open. -/
theorem onEscKey_closes_all (env : Env) (g : GameControls) :
    (g.onEscKey env).skillSelectMenuIsOpen = false
    ∧ (g.onEscKey env).inventoryIsOpen = false
    ∧ (g.onEscKey env).skilltreeIsOpen = false
    ∧ (g.onEscKey env).heroStatsPanelIsOpen = false
    ∧ (g.onEscKey env).helpOverlayIsOpen = false := by
  rcases g with ⟨regs, ss, inv, st, stats, help, mini, esc, hp, mana, casting, ls, rs, mx, my,
    imx, imy, tl, tr, fc, vp, calls⟩
  cases ss <;> cases inv <;> cases st <;> cases stats <;> cases help <;> cases esc <;>
    simp [GameControls.onEscKey, GameControls.updateLayout, GameControls.isLeftPanelOpen,
      GameControls.isRightPanelOpen, GameControls.ViewportDefault,
      GameControls.escapeMenuOnEscKey, GameControls.escapeMenuOpen]

/-- When one of the five panels is open, `onEscKey` ends with the Default
viewport call and nothing is called on the escape menu. -/
theorem onEscKey_of_open (env : Env) (g : GameControls)
    (hopen : (g.skillSelectMenuIsOpen || g.inventoryIsOpen || g.skilltreeIsOpen
      || g.heroStatsPanelIsOpen || g.helpOverlayIsOpen) = true) :
    (g.onEscKey env).viewport = Viewport.Default
    ∧ (g.onEscKey env).calls = g.calls ++ [Call.ViewportDefault] := by
  rcases g with ⟨regs, ss, inv, st, stats, help, mini, esc, hp, mana, casting, ls, rs, mx, my,
    imx, imy, tl, tr, fc, vp, calls⟩
  cases ss <;> cases inv <;> cases st <;> cases stats <;> cases help <;>
    simp_all [GameControls.onEscKey, GameControls.updateLayout, GameControls.isLeftPanelOpen,
      GameControls.isRightPanelOpen, GameControls.ViewportDefault]

/-- When none of the five panels is open, `onEscKey` takes the escape-menu
branch. -/
theorem onEscKey_of_closed (env : Env) (g : GameControls)
    (h1 : g.skillSelectMenuIsOpen = false) (h2 : g.inventoryIsOpen = false)
    (h3 : g.skilltreeIsOpen = false) (h4 : g.heroStatsPanelIsOpen = false)
    (h5 : g.helpOverlayIsOpen = false) :
    g.onEscKey env
      = if g.escapeMenuIsOpen = true then g.escapeMenuOnEscKey env else g.escapeMenuOpen := by
  simp [GameControls.onEscKey, h1, h2, h3, h4, h5]

/-- C23: after one Escape key-down none of skill-select menu, inventory, skill
tree, stats panel and help overlay is open; when the Escape closed one of
them, the viewport selected is Default; and a second Escape right after takes
the escape-menu branch: the key is sent to the escape menu when that is open,
and the escape menu is opened otherwise. -/
theorem escape_then_escape (env : Env) (g : GameControls) (event : KeyEvent)
    (hkey : event.Key = Key.KeyEscape) :
    ((g.OnKeyDown env event).2.skillSelectMenuIsOpen = false
      ∧ (g.OnKeyDown env event).2.inventoryIsOpen = false
      ∧ (g.OnKeyDown env event).2.skilltreeIsOpen = false
      ∧ (g.OnKeyDown env event).2.heroStatsPanelIsOpen = false
      ∧ (g.OnKeyDown env event).2.helpOverlayIsOpen = false)
    ∧ ((g.skillSelectMenuIsOpen || g.inventoryIsOpen || g.skilltreeIsOpen
          || g.heroStatsPanelIsOpen || g.helpOverlayIsOpen) = true →
        (g.OnKeyDown env event).2.viewport = Viewport.Default
        ∧ (g.OnKeyDown env event).2.calls = g.calls ++ [Call.ViewportDefault])
    ∧ ((g.OnKeyDown env event).2.escapeMenuIsOpen = true →
        ((g.OnKeyDown env event).2.OnKeyDown env event).2 =
          { (g.OnKeyDown env event).2 with
            escapeMenuIsOpen := env.escapeMenuAfterEscKey true,
            calls := (g.OnKeyDown env event).2.calls ++ [Call.escapeMenuOnEscKey] })
    ∧ ((g.OnKeyDown env event).2.escapeMenuIsOpen = false →
        ((g.OnKeyDown env event).2.OnKeyDown env event).2 =
          { (g.OnKeyDown env event).2 with
            escapeMenuIsOpen := true,
            calls := (g.OnKeyDown env event).2.calls ++ [Call.escapeMenuOpen] }) := by
  have hfirst : (g.OnKeyDown env event).2 = g.onEscKey env := by
    simp [GameControls.OnKeyDown, hkey]
  have hsecond : ∀ s : GameControls, (s.OnKeyDown env event).2 = s.onEscKey env := by
    intro s
    simp [GameControls.OnKeyDown, hkey]
  obtain ⟨h1, h2, h3, h4, h5⟩ := onEscKey_closes_all env g
  rw [hfirst, hsecond, onEscKey_of_closed env _ h1 h2 h3 h4 h5]
  refine ⟨⟨h1, h2, h3, h4, h5⟩, onEscKey_of_open env g, ?_, ?_⟩
  · intro hesc
    simp [hesc, GameControls.escapeMenuOnEscKey]
  · intro hesc
    simp [hesc, GameControls.escapeMenuOpen]

/-- Witness for C23: with the skill-select menu and the inventory open, the
first Escape closes both and selects the Default viewport, the second opens
the escape menu. -/
theorem escape_then_escape_witness :
    (skillSelectAndInventoryOpen.OnKeyDown exampleEnv escapeKeyEvent).2.inventoryIsOpen = false
    ∧ (skillSelectAndInventoryOpen.OnKeyDown exampleEnv escapeKeyEvent).2.viewport
        = Viewport.Default
    ∧ ((skillSelectAndInventoryOpen.OnKeyDown exampleEnv escapeKeyEvent).2.OnKeyDown
        exampleEnv escapeKeyEvent).2.calls
        = [Call.ViewportDefault, Call.escapeMenuOpen] := by
  have h := escape_then_escape exampleEnv skillSelectAndInventoryOpen escapeKeyEvent rfl
  refine ⟨h.1.2.1, (h.2.1 rfl).1, ?_⟩
  rw [h.2.2.2 (by decide)]
  decide

/-- A character is determined by its code point. -/
theorem char_eq_of_toNat_eq (a b : Char) (h : a.toNat = b.toNat) : a = b := by
  rw [← Char.ofNat_toNat a, ← Char.ofNat_toNat b, h]

/-- The number of characters of a text. -/
theorem string_length_eq (s : String) : s.length = s.data.length := by
  cases s with
  | mk chars => rfl

/-- A character below 128 is stored as one byte, its code point; any other
character starts with a byte of at least 128. -/
theorem utf8Bytes_cases (c : Char) :
    (c.toNat < 128 ∧ utf8Bytes c = [c.toNat])
    ∨ (128 ≤ c.toNat ∧ ∃ b rest, utf8Bytes c = b :: rest ∧ 128 ≤ b) := by
  unfold utf8Bytes
  split_ifs with h1 h2 h3
  · exact Or.inl ⟨h1, rfl⟩
  · exact Or.inr ⟨by omega, _, _, rfl, by omega⟩
  · exact Or.inr ⟨by omega, _, _, rfl, by omega⟩
  · exact Or.inr ⟨by omega, _, _, rfl, by omega⟩

/-- Every character takes at least one byte. -/
theorem utf8Bytes_length_pos (c : Char) : 1 ≤ (utf8Bytes c).length := by
  unfold utf8Bytes
  split_ifs <;> simp

/-- A text has at least as many bytes as characters. -/
theorem utf8BytesOf_length_ge (l : List Char) : l.length ≤ (utf8BytesOf l).length := by
  induction l with
  | nil => simp [utf8BytesOf]
  | cons c rest ih =>
    have := utf8Bytes_length_pos c
    simp only [utf8BytesOf, List.length_cons, List.length_append]
    omega

/-- A Go string has at least as many bytes as characters. -/
theorem goBytes_length_ge (s : String) : s.length ≤ (goBytes s).length := by
  rw [string_length_eq]
  exact utf8BytesOf_length_ge s.data

/-- A text of characters below 128 is stored as its code points. -/
theorem utf8BytesOf_ascii (p : List Char) (hp : ∀ c ∈ p, c.toNat < 128) :
    utf8BytesOf p = p.map Char.toNat := by
  induction p with
  | nil => rfl
  | cons a rest ih =>
    have ha : a.toNat < 128 := hp a (List.mem_cons_self _ _)
    have hr := ih fun c hc => hp c (List.mem_cons_of_mem _ hc)
    simp only [utf8BytesOf, utf8Bytes, ha, if_true, hr, List.map_cons, List.singleton_append]

/-- The first bytes of a text are those of a text of characters below 128
exactly when its first characters are that text. -/
theorem take_utf8BytesOf_ascii (p : List Char) (hp : ∀ c ∈ p, c.toNat < 128) (l : List Char) :
    (utf8BytesOf l).take p.length = p.map Char.toNat ↔ l.take p.length = p := by
  induction p generalizing l with
  | nil => simp
  | cons a rest ih =>
    have ha : a.toNat < 128 := hp a (List.mem_cons_self _ _)
    have ih2 := ih fun c hc => hp c (List.mem_cons_of_mem _ hc)
    cases l with
    | nil => simp [utf8BytesOf]
    | cons x tail =>
      rcases utf8Bytes_cases x with ⟨hx, hb⟩ | ⟨hx, b, more, hb, hb128⟩
      · simp only [utf8BytesOf, hb, List.singleton_append, List.length_cons,
          List.take_succ_cons, List.map_cons, List.cons.injEq]
        constructor
        · rintro ⟨h1, h2⟩
          exact ⟨char_eq_of_toNat_eq _ _ h1, (ih2 tail).mp h2⟩
        · rintro ⟨h1, h2⟩
          exact ⟨by rw [h1], (ih2 tail).mpr h2⟩
      · simp only [utf8BytesOf, hb, List.cons_append, List.length_cons,
          List.take_succ_cons, List.map_cons, List.cons.injEq]
        constructor
        · rintro ⟨h1, _⟩
          omega
        · rintro ⟨h1, _⟩
          rw [h1] at hx
          omega

/-- The validity loop ends true exactly when it started true or met a prefix
whose bytes are the token prefix. -/
theorem validity_loop_eq (tokenPrefix : List Nat) (prefixes : List String) (found : Bool) :
    prefixes.foldl
        (fun found validPrefix => if tokenPrefix = goBytes validPrefix then true else found)
        found = true
      ↔ (found = true ∨ ∃ p ∈ prefixes, tokenPrefix = goBytes p) := by
  induction prefixes generalizing found with
  | nil => simp
  | cons p rest ih =>
    rw [List.foldl_cons, ih]
    by_cases hp : tokenPrefix = goBytes p
    · simp [hp]
    · simp [hp]

/-- The validity loop accepts exactly the bytes of the seven prefixes. -/
theorem isValidToken_iff (tokenPrefix : List Nat) :
    isValidToken tokenPrefix = true ↔ ∃ p ∈ validPrefixes, tokenPrefix = goBytes p := by
  unfold isValidToken
  rw [validity_loop_eq]
  constructor
  · rintro (h | h)
    · exact absurd h Bool.false_ne_true
    · exact h
  · exact Or.inr

/-- The seven prefixes are texts of three characters below 128. -/
theorem validPrefixes_ascii :
    ∀ p ∈ validPrefixes, p.data.length = 3 ∧ ∀ c ∈ p.data, c.toNat < 128 := by
  decide

/-- The first three bytes of a Go string are those of a valid prefix exactly
when its first three characters are that prefix. -/
theorem isValidToken_take_iff (s : String) :
    isValidToken ((goBytes s).take 3) = true ↔ firstThreeCharacters s ∈ validPrefixes := by
  rw [isValidToken_iff]
  have key : ∀ p ∈ validPrefixes,
      ((goBytes s).take 3 = goBytes p ↔ firstThreeCharacters s = p) := by
    intro p hp
    obtain ⟨h3, hascii⟩ := validPrefixes_ascii p hp
    have h := take_utf8BytesOf_ascii p.data hascii s.data
    rw [h3, ← utf8BytesOf_ascii p.data hascii] at h
    unfold goBytes firstThreeCharacters
    rw [h]
    constructor
    · intro e
      rw [e]
    · intro e
      rw [← e]
  constructor
  · rintro ⟨p, hp, e⟩
    rw [(key p hp).mp e]
    exact hp
  · intro hmem
    exact ⟨_, hmem, (key _ hmem).mpr rfl⟩

/-- Lower-casing keeps the number of characters. -/
theorem goToLower_length (toLowerChar : Char → Char) (s : String) :
    (goToLower toLowerChar s).length = s.length := by
  cases s with
  | mk chars => exact List.length_map _ _

/-- A text whose first three characters are a valid prefix has at least three
characters. -/
theorem length_of_valid_prefix (s : String) (hv : firstThreeCharacters s ∈ validPrefixes) :
    3 ≤ s.length := by
  have h3 := (validPrefixes_ascii _ hv).1
  unfold firstThreeCharacters at h3
  rw [string_length_eq]
  simp only [List.length_take] at h3
  omega

/-- A token whose lower-cased first three characters are a valid prefix passes
the length test, the slice and the validity loop. -/
theorem accepted_of_valid_prefix (toLowerChar : Char → Char) (token : String)
    (hv : firstThreeCharacters (goToLower toLowerChar token) ∈ validPrefixes) :
    ¬ (goBytes token).length < classTokenLength
    ∧ goFirstThree (goToLower toLowerChar token)
        = some ((goBytes (goToLower toLowerChar token)).take 3)
    ∧ isValidToken ((goBytes (goToLower toLowerChar token)).take 3) = true := by
  have hl := length_of_valid_prefix _ hv
  have hb := goBytes_length_ge (goToLower toLowerChar token)
  have ht := goBytes_length_ge token
  rw [goToLower_length] at hl
  have hl2 : 3 ≤ (goToLower toLowerChar token).length := by rw [goToLower_length]; exact hl
  refine ⟨?_, ?_, (isValidToken_take_iff _).mpr hv⟩
  · simp only [classTokenLength]; omega
  · unfold goFirstThree
    rw [if_neg (by omega)]

/-- An accepted token whose loop ends without error: the command stores the
loop's skill map, regenerates the image cache and logs the count. -/
theorem learnSkills_of_loop (senv : SkillEnv) (records : List SkillRecord)
    (toLowerChar : Char → Char) (s : CommandState) (token : String)
    (hv : firstThreeCharacters (goToLower toLowerChar token) ∈ validPrefixes)
    (skills : List (Int × HeroSkill)) (count : Nat)
    (hloop : learnLoop senv (goToLower toLowerChar token) records s.Skills 0
      = (skills, count, none)) :
    learnSkills senv records toLowerChar s token =
      Outcome.returned { s with
        Skills := skills,
        imageCacheRegenerations := s.imageCacheRegenerations + 1,
        logLines := s.logLines ++ ["Learned " ++ toString count ++ " skills"] } := by
  obtain ⟨h1, h2, h3⟩ := accepted_of_valid_prefix toLowerChar token hv
  simp only [learnSkills, h1, if_false, h2, h3, Bool.not_true, Bool.false_eq_true, hloop]

/-- A token of at least three bytes whose lower-cased form has fewer than three
bytes makes the slice `classToken[0:3]` panic. -/
theorem learnSkills_slice_panics (senv : SkillEnv) (records : List SkillRecord)
    (toLowerChar : Char → Char) (s : CommandState) (token : String)
    (ht : 3 ≤ (goBytes token).length)
    (hl : (goBytes (goToLower toLowerChar token)).length < 3) :
    learnSkills senv records toLowerChar s token
      = Outcome.panicked "slice bounds out of range" := by
  have h1 : ¬ (goBytes token).length < classTokenLength := by
    simp only [classTokenLength]; omega
  have h2 : goFirstThree (goToLower toLowerChar token) = none := by
    unfold goFirstThree
    rw [if_pos hl]
  simp only [learnSkills, h1, if_false, h2]

/-- The token of one Kelvin sign has three bytes and lower-cases to the one
byte of the letter k, so the command panics on it. -/
theorem learnSkills_kelvin_sign_panics :
    kelvinToken.length = 1
    ∧ (goBytes kelvinToken).length = 3
    ∧ (goBytes (goToLower kelvinToLower kelvinToken)).length = 1
    ∧ learnSkills exampleFactoryEnv exampleRecords kelvinToLower exampleCommandState kelvinToken
      = Outcome.panicked "slice bounds out of range" := by
  decide

/-- Removing the entries of one key keeps the lookup of every other key. -/
theorem lookupSkill_filter_ne (m : List (Int × HeroSkill)) (key k : Int) (h : k ≠ key) :
    lookupSkill (m.filter fun entry => entry.1 ≠ key) k = lookupSkill m k := by
  induction m with
  | nil => rfl
  | cons e rest ih =>
    obtain ⟨ek, ev⟩ := e
    by_cases hk : ek = key
    · have hd : decide ((ek, ev).1 ≠ key) = false := by simp [hk]
      have hne : ¬ ek = k := fun hh => h (hh ▸ hk)
      rw [List.filter_cons, hd]
      simp only [Bool.false_eq_true, if_false, lookupSkill, hne]
      exact ih
    · have hd : decide ((ek, ev).1 ≠ key) = true := by simp [hk]
      rw [List.filter_cons, hd]
      simp only [if_true, lookupSkill]
      rw [ih]

/-- After `m[key] = value` the key maps to the value. -/
theorem lookupSkill_setSkill_same (m : List (Int × HeroSkill)) (key : Int) (value : HeroSkill) :
    lookupSkill (setSkill m key value) key = some value := by
  simp [setSkill, lookupSkill]

/-- The assignment `m[key] = value` leaves every other key as it was. -/
theorem lookupSkill_setSkill_ne (m : List (Int × HeroSkill)) (key : Int) (value : HeroSkill)
    (k : Int) (h : k ≠ key) :
    lookupSkill (setSkill m key value) k = lookupSkill m k := by
  have hne : ¬ key = k := fun hh => h hh.symm
  simp only [setSkill, lookupSkill, hne, if_false]
  exact lookupSkill_filter_ne m key k h

/-- The increment on a map whose first entry has the key. -/
theorem addSkillPoint_cons_same (key : Int) (value : HeroSkill) (rest : List (Int × HeroSkill)) :
    addSkillPoint ((key, value) :: rest) key
      = (key, { value with SkillPoints := value.SkillPoints + 1 }) :: addSkillPoint rest key := by
  simp [addSkillPoint]

/-- The increment on a map whose first entry has another key. -/
theorem addSkillPoint_cons_ne (ek key : Int) (value : HeroSkill) (rest : List (Int × HeroSkill))
    (h : ek ≠ key) :
    addSkillPoint ((ek, value) :: rest) key = (ek, value) :: addSkillPoint rest key := by
  simp [addSkillPoint, h]

/-- The increment `skill.SkillPoints++` adds one point to the skill of the key. -/
theorem lookupSkill_addSkillPoint_same (m : List (Int × HeroSkill)) (key : Int)
    (old : HeroSkill) (h : lookupSkill m key = some old) :
    lookupSkill (addSkillPoint m key) key
      = some { old with SkillPoints := old.SkillPoints + 1 } := by
  induction m with
  | nil => simp [lookupSkill] at h
  | cons e rest ih =>
    obtain ⟨ek, ev⟩ := e
    by_cases hk : ek = key
    · subst hk
      simp only [lookupSkill, if_true, Option.some.injEq] at h
      subst h
      rw [addSkillPoint_cons_same]
      simp only [lookupSkill, if_true]
    · simp only [lookupSkill, hk, if_false] at h
      rw [addSkillPoint_cons_ne _ _ _ _ hk]
      simp only [lookupSkill, hk, if_false]
      exact ih h

/-- The increment `skill.SkillPoints++` leaves every other key as it was. -/
theorem lookupSkill_addSkillPoint_ne (m : List (Int × HeroSkill)) (key k : Int)
    (h : k ≠ key) :
    lookupSkill (addSkillPoint m key) k = lookupSkill m k := by
  induction m with
  | nil => rfl
  | cons e rest ih =>
    obtain ⟨ek, ev⟩ := e
    by_cases hk : ek = key
    · subst hk
      have hne : ¬ ek = k := fun hh => h hh.symm
      rw [addSkillPoint_cons_same]
      simp only [lookupSkill, hne, if_false]
      exact ih
    · rw [addSkillPoint_cons_ne _ _ _ _ hk]
      simp only [lookupSkill]
      rw [ih]

/-- The learn loop passes over every record whose class is not the token. -/
theorem learnLoop_filter (senv : SkillEnv) (classToken : String) (records : List SkillRecord)
    (skills : List (Int × HeroSkill)) (count : Nat) :
    learnLoop senv classToken records skills count
      = learnLoop senv classToken
          (records.filter (fun r => decide (r.Charclass = classToken))) skills count := by
  induction records generalizing skills count with
  | nil => rfl
  | cons r rest ih =>
    by_cases hr : r.Charclass = classToken
    · have hf : (r :: rest).filter (fun r => decide (r.Charclass = classToken))
          = r :: rest.filter (fun r => decide (r.Charclass = classToken)) := by
        simp [List.filter_cons, hr]
      rw [hf]
      simp only [learnLoop, hr, ne_eq, not_true_eq_false, if_false]
      cases hl : lookupSkill skills r.ID with
      | some sk => simp only [ih]
      | none =>
        rcases hc : senv.CreateHeroSkill 1 r.Skill with ⟨_ | skill, _ | skillErr⟩ <;>
          simp only [ih]
    · have hf : (r :: rest).filter (fun r => decide (r.Charclass = classToken))
          = rest.filter (fun r => decide (r.Charclass = classToken)) := by
        simp [List.filter_cons, hr]
      rw [hf]
      simp only [learnLoop, ne_eq, hr, not_false_eq_true, if_true]
      exact ih skills count

/-- With no record of the token's class the learn loop learns nothing. -/
theorem learnLoop_no_match (senv : SkillEnv) (classToken : String) (records : List SkillRecord)
    (skills : List (Int × HeroSkill)) (count : Nat)
    (hnone : ∀ r ∈ records, r.Charclass ≠ classToken) :
    learnLoop senv classToken records skills count = (skills, count, none) := by
  induction records with
  | nil => rfl
  | cons r rest ih =>
    have hr : r.Charclass ≠ classToken := hnone r (List.mem_cons_self _ _)
    simp only [learnLoop, ne_eq, hr, not_false_eq_true, if_true]
    exact ih fun q hq => hnone q (List.mem_cons_of_mem _ hq)

/-- The learn loop over records of the token's class with distinct ids, when
every skill it has to create is created without error under its record's id:
every record is counted, a known skill gains one point, an unknown one is
created and stored, and every other key of the skill map stays as it was. -/
theorem learnLoop_learns (senv : SkillEnv) (classToken : String) (rs : List SkillRecord)
    (skills : List (Int × HeroSkill)) (count : Nat)
    (hall : ∀ r ∈ rs, r.Charclass = classToken)
    (hnodup : (rs.map fun r => r.ID).Nodup)
    (hfactory : ∀ r ∈ rs, lookupSkill skills r.ID = none →
      ∃ skill, senv.CreateHeroSkill 1 r.Skill = (some skill, none) ∧ skill.ID = r.ID) :
    ∃ learned, learnLoop senv classToken rs skills count = (learned, count + rs.length, none)
      ∧ (∀ r ∈ rs, ∀ old, lookupSkill skills r.ID = some old →
          lookupSkill learned r.ID = some { old with SkillPoints := old.SkillPoints + 1 })
      ∧ (∀ r ∈ rs, lookupSkill skills r.ID = none →
          lookupSkill learned r.ID = (senv.CreateHeroSkill 1 r.Skill).1)
      ∧ (∀ k, (∀ r ∈ rs, r.ID ≠ k) → lookupSkill learned k = lookupSkill skills k) := by
  induction rs generalizing skills count with
  | nil =>
    exact ⟨skills, rfl, fun r hr => absurd hr (List.not_mem_nil r),
      fun r hr => absurd hr (List.not_mem_nil r), fun _ _ => rfl⟩
  | cons r rest ih =>
    have hr : r.Charclass = classToken := hall r (List.mem_cons_self _ _)
    have hall2 : ∀ q ∈ rest, q.Charclass = classToken :=
      fun q hq => hall q (List.mem_cons_of_mem _ hq)
    rw [List.map_cons, List.nodup_cons] at hnodup
    obtain ⟨hfresh, hnodup2⟩ := hnodup
    have hne : ∀ q ∈ rest, q.ID ≠ r.ID := by
      intro q hq heq
      exact hfresh (List.mem_map.mpr ⟨q, hq, heq⟩)
    have hlen : count + 1 + rest.length = count + (r :: rest).length := by
      simp only [List.length_cons]; omega
    cases hl : lookupSkill skills r.ID with
    | some old =>
      have hstep : learnLoop senv classToken (r :: rest) skills count
          = learnLoop senv classToken rest (addSkillPoint skills r.ID) (count + 1) := by
        simp only [learnLoop, hr, ne_eq, not_true_eq_false, if_false, hl]
      have hsame : ∀ q ∈ rest,
          lookupSkill (addSkillPoint skills r.ID) q.ID = lookupSkill skills q.ID :=
        fun q hq => lookupSkill_addSkillPoint_ne skills r.ID q.ID (hne q hq)
      obtain ⟨learned, hloop, hknown, hnew, hother⟩ :=
        ih (addSkillPoint skills r.ID) (count + 1) hall2 hnodup2
          (fun q hq hnone => hfactory q (List.mem_cons_of_mem _ hq) (by rw [← hsame q hq]; exact hnone))
      have hrkey : lookupSkill learned r.ID
          = some { old with SkillPoints := old.SkillPoints + 1 } := by
        rw [hother r.ID hne]
        exact lookupSkill_addSkillPoint_same skills r.ID old hl
      refine ⟨learned, by rw [hstep, hloop, hlen], ?_, ?_, ?_⟩
      · intro q hq old2 hold
        rcases List.mem_cons.mp hq with heq | hmem
        · subst heq
          rw [hl] at hold
          cases hold
          exact hrkey
        · exact hknown q hmem old2 (by rw [hsame q hmem]; exact hold)
      · intro q hq hnone
        rcases List.mem_cons.mp hq with heq | hmem
        · subst heq
          rw [hl] at hnone
          cases hnone
        · exact hnew q hmem (by rw [hsame q hmem]; exact hnone)
      · intro k hk
        rw [hother k fun q hq => hk q (List.mem_cons_of_mem _ hq)]
        exact lookupSkill_addSkillPoint_ne skills r.ID k
          (fun heq => hk r (List.mem_cons_self _ _) heq.symm)
    | none =>
      obtain ⟨skill, hcreate, hid⟩ := hfactory r (List.mem_cons_self _ _) hl
      have hstep : learnLoop senv classToken (r :: rest) skills count
          = learnLoop senv classToken rest (setSkill skills r.ID skill) (count + 1) := by
        simp only [learnLoop, hr, ne_eq, not_true_eq_false, if_false, hl, hcreate, hid]
      have hsame : ∀ q ∈ rest,
          lookupSkill (setSkill skills r.ID skill) q.ID = lookupSkill skills q.ID :=
        fun q hq => lookupSkill_setSkill_ne skills r.ID skill q.ID (hne q hq)
      obtain ⟨learned, hloop, hknown, hnew, hother⟩ :=
        ih (setSkill skills r.ID skill) (count + 1) hall2 hnodup2
          (fun q hq hnone => hfactory q (List.mem_cons_of_mem _ hq) (by rw [← hsame q hq]; exact hnone))
      have hrkey : lookupSkill learned r.ID = (senv.CreateHeroSkill 1 r.Skill).1 := by
        rw [hother r.ID hne, hcreate]
        exact lookupSkill_setSkill_same skills r.ID skill
      refine ⟨learned, by rw [hstep, hloop, hlen], ?_, ?_, ?_⟩
      · intro q hq old2 hold
        rcases List.mem_cons.mp hq with heq | hmem
        · subst heq
          rw [hl] at hold
          cases hold
        · exact hknown q hmem old2 (by rw [hsame q hmem]; exact hold)
      · intro q hq hnone
        rcases List.mem_cons.mp hq with heq | hmem
        · subst heq
          exact hrkey
        · exact hnew q hmem (by rw [hsame q hmem]; exact hnone)
      · intro k hk
        rw [hother k fun q hq => hk q (List.mem_cons_of_mem _ hq)]
        exact lookupSkill_setSkill_ne skills r.ID skill k
          (fun heq => hk r (List.mem_cons_self _ _) heq.symm)

/-- C24 (amended): `learnskills` reports an error and learns nothing for every
token of fewer than 3 bytes, for every token of at least 3 bytes whose
lower-cased form has at least 3 bytes and first three characters that are not
one of ama, ass, nec, bar, sor, dru, pal, and so for every token of fewer than
3 characters on which the slice of the lower-cased token does not panic. A
token whose lower-cased first three characters are one of the seven is
accepted, and only the records whose `Charclass` equals the whole lower-cased
token matter to the outcome. With no such record nothing is learned. When those
records have distinct ids and every skill the loop has to create is created
without error under its record's id, exactly those records are learned: the
count logged is their number, each one already in the skill map gains one skill
point, each other one is stored as the created skill, and every key that is not
the id of such a record maps to what it did before. So an accepted token of more
than 3 characters learns no skill when the classes of the records are
three-letter codes. -/
theorem learnSkills_learns_whole_token_records (senv : SkillEnv) (records : List SkillRecord)
    (toLowerChar : Char → Char) (s : CommandState) (token : String) :
    ((goBytes token).length < 3 →
      learnSkills senv records toLowerChar s token =
        Outcome.returned { s with termErrors := s.termErrors ++
          ["The given class token should be at least 3 characters"] })
    ∧ (3 ≤ (goBytes token).length → 3 ≤ (goBytes (goToLower toLowerChar token)).length →
      firstThreeCharacters (goToLower toLowerChar token) ∉ validPrefixes →
      learnSkills senv records toLowerChar s token =
        Outcome.returned { s with termErrors := s.termErrors ++
          ["Invalid class, must be a value starting with(case insensitive): " ++
            "ama, ass, nec, bar, sor, dru, pal"] })
    ∧ (token.length < 3 →
      ((goBytes token).length < 3 ∨ 3 ≤ (goBytes (goToLower toLowerChar token)).length) →
      ∃ message, learnSkills senv records toLowerChar s token =
        Outcome.returned { s with termErrors := s.termErrors ++ [message] })
    ∧ (learnSkills senv records toLowerChar s token =
        learnSkills senv
          (records.filter (fun r => decide (r.Charclass = goToLower toLowerChar token)))
          toLowerChar s token)
    ∧ (firstThreeCharacters (goToLower toLowerChar token) ∈ validPrefixes →
      (∀ r ∈ records, r.Charclass ≠ goToLower toLowerChar token) →
      learnSkills senv records toLowerChar s token =
        Outcome.returned { s with
          imageCacheRegenerations := s.imageCacheRegenerations + 1,
          logLines := s.logLines ++ ["Learned 0 skills"] })
    ∧ (firstThreeCharacters (goToLower toLowerChar token) ∈ validPrefixes →
      ((records.filter (fun r => decide (r.Charclass = goToLower toLowerChar token))).map
        fun r => r.ID).Nodup →
      (∀ r ∈ records, r.Charclass = goToLower toLowerChar token →
        lookupSkill s.Skills r.ID = none →
        ∃ skill, senv.CreateHeroSkill 1 r.Skill = (some skill, none) ∧ skill.ID = r.ID) →
      ∃ learned, learnSkills senv records toLowerChar s token =
          Outcome.returned { s with
            Skills := learned,
            imageCacheRegenerations := s.imageCacheRegenerations + 1,
            logLines := s.logLines ++
              ["Learned " ++
                toString (records.countP
                  (fun r => decide (r.Charclass = goToLower toLowerChar token)))
                ++ " skills"] }
        ∧ (∀ r ∈ records, r.Charclass = goToLower toLowerChar token →
            ∀ old, lookupSkill s.Skills r.ID = some old →
            lookupSkill learned r.ID = some { old with SkillPoints := old.SkillPoints + 1 })
        ∧ (∀ r ∈ records, r.Charclass = goToLower toLowerChar token →
            lookupSkill s.Skills r.ID = none →
            lookupSkill learned r.ID = (senv.CreateHeroSkill 1 r.Skill).1)
        ∧ (∀ k, (∀ r ∈ records, r.Charclass = goToLower toLowerChar token → r.ID ≠ k) →
            lookupSkill learned k = lookupSkill s.Skills k))
    ∧ (3 < token.length →
      firstThreeCharacters (goToLower toLowerChar token) ∈ validPrefixes →
      (∀ r ∈ records, r.Charclass.length = 3) →
      learnSkills senv records toLowerChar s token =
        Outcome.returned { s with
          imageCacheRegenerations := s.imageCacheRegenerations + 1,
          logLines := s.logLines ++ ["Learned 0 skills"] }) := by
  have hshort : (goBytes token).length < 3 →
      learnSkills senv records toLowerChar s token =
        Outcome.returned { s with termErrors := s.termErrors ++
          ["The given class token should be at least 3 characters"] } := by
    intro hlen
    have hlen2 : (goBytes token).length < classTokenLength := by
      simpa [classTokenLength] using hlen
    simp only [learnSkills, hlen2, if_true]
  have hinvalid : 3 ≤ (goBytes token).length →
      3 ≤ (goBytes (goToLower toLowerChar token)).length →
      firstThreeCharacters (goToLower toLowerChar token) ∉ validPrefixes →
      learnSkills senv records toLowerChar s token =
        Outcome.returned { s with termErrors := s.termErrors ++
          ["Invalid class, must be a value starting with(case insensitive): " ++
            "ama, ass, nec, bar, sor, dru, pal"] } := by
    intro hlen hlow hno
    have h1 : ¬ (goBytes token).length < classTokenLength := by
      simp only [classTokenLength]; omega
    have h2 : goFirstThree (goToLower toLowerChar token)
        = some ((goBytes (goToLower toLowerChar token)).take 3) := by
      unfold goFirstThree
      rw [if_neg (by omega)]
    have h3 : isValidToken ((goBytes (goToLower toLowerChar token)).take 3) = false := by
      cases h : isValidToken ((goBytes (goToLower toLowerChar token)).take 3)
      · rfl
      · exact absurd ((isValidToken_take_iff _).mp h) hno
    simp only [learnSkills, h1, if_false, h2, h3, Bool.not_false, if_true]
  have hnomatch : firstThreeCharacters (goToLower toLowerChar token) ∈ validPrefixes →
      (∀ r ∈ records, r.Charclass ≠ goToLower toLowerChar token) →
      learnSkills senv records toLowerChar s token =
        Outcome.returned { s with
          imageCacheRegenerations := s.imageCacheRegenerations + 1,
          logLines := s.logLines ++ ["Learned 0 skills"] } := by
    intro hvalid hnone
    rw [learnSkills_of_loop senv records toLowerChar s token hvalid s.Skills 0
      (learnLoop_no_match senv _ records s.Skills 0 hnone)]
    rfl
  refine ⟨hshort, hinvalid, ?_, ?_, hnomatch, ?_, ?_⟩
  · intro hchars hslice
    by_cases hb : (goBytes token).length < 3
    · exact ⟨_, hshort hb⟩
    · have hlow : 3 ≤ (goBytes (goToLower toLowerChar token)).length := by
        rcases hslice with h | h
        · exact absurd h hb
        · exact h
      refine ⟨_, hinvalid (by omega) hlow ?_⟩
      intro hvalid
      have := length_of_valid_prefix _ hvalid
      rw [goToLower_length] at this
      omega
  · simp only [learnSkills]
    rw [← learnLoop_filter]
  · intro hvalid hnodup hfactory
    obtain ⟨learned, hloop, hknown, hnew, hother⟩ :=
      learnLoop_learns senv (goToLower toLowerChar token)
        (records.filter (fun r => decide (r.Charclass = goToLower toLowerChar token)))
        s.Skills 0
        (fun r hr => of_decide_eq_true (List.mem_filter.mp hr).2)
        hnodup
        (fun r hr => hfactory r (List.mem_filter.mp hr).1
          (of_decide_eq_true (List.mem_filter.mp hr).2))
    have hmem : ∀ r ∈ records, r.Charclass = goToLower toLowerChar token →
        r ∈ records.filter (fun r => decide (r.Charclass = goToLower toLowerChar token)) :=
      fun r hr hc => List.mem_filter.mpr ⟨hr, decide_eq_true hc⟩
    rw [← learnLoop_filter, Nat.zero_add, ← List.countP_eq_length_filter] at hloop
    refine ⟨learned, learnSkills_of_loop senv records toLowerChar s token hvalid _ _ hloop,
      fun r hr hc => hknown r (hmem r hr hc), fun r hr hc => hnew r (hmem r hr hc), ?_⟩
    intro k hk
    exact hother k fun r hr =>
      hk r (List.mem_filter.mp hr).1 (of_decide_eq_true (List.mem_filter.mp hr).2)
  · intro hlen hvalid hthree
    refine hnomatch hvalid ?_
    intro r hr heq
    have h3 := hthree r hr
    rw [heq, goToLower_length] at h3
    omega

/-- Witness for C24: over a hero who knows Magic Arrow the token `Ama` is
accepted and learns the two amazon records, Magic Arrow gaining a point and
Fire Arrow being created, while the sorceress record is not learned; the token
`Amazon` is accepted and learns nothing; the two-character, three-byte token of
e-acute and a is rejected as an invalid class. -/
theorem learnSkills_learns_whole_token_records_witness :
    (∃ learned,
      learnSkills exampleFactoryEnv exampleRecords Char.toLower knowsMagicArrow "Ama" =
        Outcome.returned { knowsMagicArrow with
          Skills := learned,
          imageCacheRegenerations := 1,
          logLines := ["Learned 2 skills"] }
      ∧ lookupSkill learned 6 = some ⟨6, "Magic Arrow", 2⟩
      ∧ lookupSkill learned 7 = some ⟨7, "Fire Arrow", 1⟩
      ∧ lookupSkill learned 36 = none)
    ∧ learnSkills exampleFactoryEnv exampleRecords Char.toLower exampleCommandState "Amazon" =
      Outcome.returned { exampleCommandState with
        imageCacheRegenerations := 1,
        logLines := ["Learned 0 skills"] }
    ∧ learnSkills exampleFactoryEnv exampleRecords Char.toLower exampleCommandState
        (String.mk [Char.ofNat 233, Char.ofNat 97]) =
      Outcome.returned { exampleCommandState with
        termErrors := ["Invalid class, must be a value starting with(case insensitive): " ++
          "ama, ass, nec, bar, sor, dru, pal"] } := by
  have h := learnSkills_learns_whole_token_records exampleFactoryEnv exampleRecords Char.toLower
    knowsMagicArrow "Ama"
  obtain ⟨learned, hout, hknown, hnew, hother⟩ := h.2.2.2.2.2.1 (by decide) (by decide)
    (by
      intro r hr hc hnone
      simp only [exampleRecords, List.mem_cons, List.mem_singleton, List.not_mem_nil,
        or_false] at hr
      rcases hr with rfl | rfl | rfl
      · exact absurd hnone (by decide)
      · exact absurd hc (by decide)
      · exact ⟨⟨7, "Fire Arrow", 1⟩, by decide, rfl⟩)
  refine ⟨⟨learned, ?_, ?_, ?_, ?_⟩, ?_, ?_⟩
  · rw [hout]
    have hlog : "Learned " ++ toString (exampleRecords.countP
        (fun r => decide (r.Charclass = goToLower Char.toLower "Ama"))) ++ " skills"
        = "Learned 2 skills" := by decide
    rw [hlog]
    rfl
  · exact hknown ⟨6, "Magic Arrow", "ama"⟩ (by decide) (by decide) ⟨6, "Magic Arrow", 1⟩
      (by decide)
  · exact hnew ⟨7, "Fire Arrow", "ama"⟩ (by decide) (by decide) (by decide)
  · rw [hother 36 (by decide)]
    decide
  · exact (learnSkills_learns_whole_token_records exampleFactoryEnv exampleRecords Char.toLower
      exampleCommandState "Amazon").2.2.2.2.2.2 (by decide) (by decide) (by decide)
  · exact (learnSkills_learns_whole_token_records exampleFactoryEnv exampleRecords Char.toLower
      exampleCommandState (String.mk [Char.ofNat 233, Char.ofNat 97])).2.1
        (by decide) (by decide) (by decide)

/-- C24 counterexample: the token `ama` is accepted and the Magic Arrow and
Fire Arrow records have the class `ama`, the whole lower-cased token; yet with a
factory that creates no skill neither is learned, and with a factory that
reports an error with the skill it creates the loop ends after Magic Arrow and
Fire Arrow is not learned. -/
theorem learnSkills_skips_failed_creation :
    firstThreeCharacters (goToLower Char.toLower "ama") ∈ validPrefixes
    ∧ exampleRecords.filter (fun r => decide (r.Charclass = goToLower Char.toLower "ama"))
      = [⟨6, "Magic Arrow", "ama"⟩, ⟨7, "Fire Arrow", "ama"⟩]
    ∧ learnSkills failingFactoryEnv exampleRecords Char.toLower exampleCommandState "ama" =
      Outcome.returned { exampleCommandState with
        imageCacheRegenerations := 1,
        logLines := ["Learned 0 skills"],
        termErrors := [] }
    ∧ learnSkills erringFactoryEnv exampleRecords Char.toLower exampleCommandState "ama" =
      Outcome.returned { exampleCommandState with
        Skills := [(6, ⟨6, "Magic Arrow", 1⟩), (0, ⟨0, "Attack", 1⟩), (1, ⟨1, "Kick", 1⟩)],
        imageCacheRegenerations := 1,
        logLines := ["Learned 1 skills"],
        termErrors := ["cannot learn skill for class, error: skill error"] } := by
  decide

end d2player
